import Mathlib

/-!
Progressive loading framework (`static/js/progressive-loading.js`).

A shallow embedding of the `ProgressiveLoader` class (its TTL cache over
`localStorage`, its per-endpoint retry counter with exponential backoff, the
`loadData` operation, `clearCache` and `loadMultiple`) and of
`ProgressivePagination` (`loadPage`, `createPaginationControls`,
`generatePageNumbers`), followed by the properties proved about them.

Modelling conventions, fixed here once:

* Numbers are doubles in the source.  The model takes the integer-valued ones
  as integers (`Date.now()` values, time-to-live values, retry delays and page
  numbers are integers in the source); an integer given to the model is the
  value of a JavaScript number.  A sum or difference whose operands are not
  bounded by the code is taken through `toDouble`, which rounds the exact
  result to the nearest double, ties to even, as the addition of doubles does:
  the age `Date.now() - timestamp` of a cache entry and the arithmetic of
  `generatePageNumbers` and of the outer pagination buttons.  The retry count
  and the retry delay stay far below `2 ^ 53` in every loader that the
  constructor made, so they are computed exactly.
* A string held in `localStorage` is represented by what `JSON.parse` makes of
  it (`StoredString`), so `JSON.stringify v` is `StoredString.json v`.
* The page is single threaded.  `loadData` is an `async` function with two
  `await`s; it is modelled by the three synchronous segments between them
  (`loadDataBegin`, `loadDataOnResponse`, `loadDataOnBody`) and by `loadData`,
  which runs the three in a row for given outcomes of the awaited promises.
* Everything observable that a method does is appended to `Page.events`.
* The document is the list of the page's containers (elements looked up by a
  container id) with their child nodes.  The element the loader creates with id
  `loading-<containerId>` is a child node `Node.indicator containerId`; page
  containers do not carry ids of that form.
* An update callback renders into the document and may throw; it touches
  neither the loader's fields nor the storage.
* What the environment answers (the clock, the settled promises, whether
  `localStorage.setItem` throws for lack of quota) is an argument of the
  method that asks for it.
* The `loadData` calls of a batch start in list order; afterwards their
  remaining segments run in the order of a schedule, a list of task numbers
  that stands for the order in which the awaited promises settle.
* `loadPage` is modelled like `loadData`, by the segment before its `await`
  and the one after it; the instance logs the arguments its callback got.
* The markup of the pagination controls is represented by the data it is built
  from (`Controls`): per button the page its `onclick` passes to `loadPage` and
  whether its list item carries the class `disabled` or `active`.
* The loop of `generatePageNumbers` is run for a number of iterations given as
  an argument; the result `none` says that the loop has not ended by then.
-/

namespace ProgressiveLoading

/-! ## Values -/

/-- JSON values, as produced by `response.json()` and `JSON.parse`. -/
inductive JVal where
  | null
  | bool (b : Bool)
  | num (n : Int)
  | str (s : String)
  | arr (items : List JVal)
  | obj (fields : List (String × JVal))

/-- The value of a JavaScript expression of the loader: `undefined` or a JSON value. -/
inductive JSVal where
  | undefined
  | json (v : JVal)

/-- JavaScript truthiness of a JSON value: `null`, `false`, `0` and `""` are falsy. -/
def JVal.truthy : JVal → Bool
  | .null => false
  | .bool b => b
  | .num n => n != 0
  | .str s => s != ""
  | .arr _ => true
  | .obj _ => true

/-- JavaScript truthiness; `undefined` is falsy. -/
def JSVal.truthy : JSVal → Bool
  | .undefined => false
  | .json v => v.truthy

/-! ## Maps keyed by strings (`Map`, `Storage`, the document's containers) -/

/-- The value stored under `key` (`Map.prototype.get`, `Storage.getItem`). -/
def mapGet {α : Type} : List (String × α) → String → Option α
  | [], _ => none
  | (k, v) :: rest, key => if k = key then some v else mapGet rest key

/-- Store `v` under `key`: an existing key keeps its place, a new one goes last
(`Map.prototype.set`, `Storage.setItem`). -/
def mapSet {α : Type} : List (String × α) → String → α → List (String × α)
  | [], key, v => [(key, v)]
  | (k, x) :: rest, key, v =>
    if k = key then (k, v) :: rest else (k, x) :: mapSet rest key v

/-- Remove `key` (`Map.prototype.delete`, `Storage.removeItem`). -/
def mapDelete {α : Type} : List (String × α) → String → List (String × α)
  | [], _ => []
  | (k, x) :: rest, key =>
    if k = key then mapDelete rest key else (k, x) :: mapDelete rest key

/-- Property read `v.name` on a parsed JSON value, for the names `data` and
`timestamp` the loader destructures: an object yields its own property (the
field list of a parsed object has distinct keys), anything else `undefined`. -/
def JVal.prop (v : JVal) (name : String) : JSVal :=
  match v with
  | .obj fields =>
    match mapGet fields name with
    | some x => .json x
    | none => .undefined
  | _ => .undefined

/-! ## Browser objects -/

/-- A string held in `localStorage`, represented by its reading under `JSON.parse`. -/
inductive StoredString where
  /-- The empty string (falsy). -/
  | empty
  /-- The text `JSON.stringify v`; `JSON.parse` gives back `v`. -/
  | json (v : JVal)
  /-- A non-empty string on which `JSON.parse` throws a `SyntaxError`. -/
  | malformed (text : String)

/-- What `container.innerHTML` is assigned by the loader. -/
inductive Markup where
  | genericSkeleton
  | tableSkeleton
  | cardsSkeleton
  | dashboardSkeleton
  /-- The text of a member inherited from `Object.prototype`, selected by name. -/
  | inherited (name : String)
  /-- The `alert alert-danger` block of `showError` with its message and its
  Retry button. -/
  | errorBlock (message : String)
  deriving DecidableEq

/-- A child node of a container. -/
inductive Node where
  /-- The `div` with id `loading-<containerId>` made by `startLoadingIndicator`. -/
  | indicator (containerId : String)
  /-- Content assigned through `innerHTML` by the loader. -/
  | markup (m : Markup)
  /-- Any other content (put there by the page or by an update callback). -/
  | other (html : String)
  deriving DecidableEq

/-- The document: containers by id, in document order, with their children. -/
abbrev Document := List (String × List Node)

/-- What an `updateCallback(data, containerId)` call did: the document it left
and the message of the error it threw, if it threw. -/
structure CallbackResult where
  document : Document
  thrown : Option String

/-- An update callback renders into the document and may throw. -/
abbrev UpdateCallback := JVal → String → Document → CallbackResult

/-- The `options` argument of `loadData`; `none` is an omitted (`undefined`)
option, for `cacheKey` also `null`. -/
structure LoadOptions where
  showSkeleton : Option Bool
  retryOnError : Option Bool
  cacheKey : Option String
  ttl : Option Int
  skeletonType : Option String

/-- The four arguments of a `loadData` call. -/
structure LoadArgs where
  endpoint : String
  containerId : String
  updateCallback : UpdateCallback
  options : LoadOptions

/-- Observable steps, in the order they happen. -/
inductive Event where
  /-- Assignment `container.innerHTML = m` on the container with this id. -/
  | innerHTML (containerId : String) (m : Markup)
  /-- A call `localStorage.getItem(key)`. -/
  | getItem (key : String)
  /-- A call `localStorage.setItem(key, value)` that stored the value. -/
  | setItem (key : String) (value : StoredString)
  /-- A call `localStorage.removeItem(key)`. -/
  | removeItem (key : String)
  /-- The loading indicator of this container was inserted as its first child. -/
  | indicatorInserted (containerId : String)
  /-- The loading indicator of this container was removed from the document. -/
  | indicatorRemoved (containerId : String)
  /-- A call `fetch(endpoint)`: the network request. -/
  | fetch (endpoint : String)
  /-- A call `updateCallback(data, containerId)`. -/
  | updateCallback (data : JVal) (containerId : String)
  /-- A call `console.log(text)`. -/
  | consoleLog (text : String)
  /-- A call `console.error(text, error)`, with the message of the error. -/
  | consoleError (text : String) (message : String)
  /-- A call `setTimeout(() => this.loadData(...args), delay)`. -/
  | setTimeout (delay : Nat) (args : LoadArgs)

/-- The loader instance (`window.progressiveLoader`) together with the browser
objects its methods touch. -/
structure Page where
  /-- Field `this.loadingStates`. -/
  loadingStates : List (String × Bool)
  /-- Field `this.retryAttempts`. -/
  retryAttempts : List (String × Nat)
  /-- Field `this.maxRetries`. -/
  maxRetries : Nat
  /-- Field `this.loadingIndicators` (a set of element ids). -/
  loadingIndicators : List String
  /-- The browser's `localStorage`. -/
  localStorage : List (String × StoredString)
  /-- The browser's `document`. -/
  document : Document
  /-- The engine's `ToNumber` on strings, arrays and objects (`none` is `NaN`). -/
  toNumber : JVal → Option Int
  /-- Everything observable done so far. -/
  events : List Event

/-- The constructor (lines 7-12), in a browser with the given storage and document. -/
def ProgressiveLoader.new (storage : List (String × StoredString)) (doc : Document)
    (toNumber : JVal → Option Int) : Page :=
  { loadingStates := []
    retryAttempts := []
    maxRetries := 3
    loadingIndicators := []
    localStorage := storage
    document := doc
    toNumber := toNumber
    events := [] }

/-- Append one observable step. -/
def emit (p : Page) (e : Event) : Page :=
  { p with events := p.events ++ [e] }

/-! ## Double-precision arithmetic on integers -/

/-- The exponent `e` of the spacing `2 ^ e` of the doubles around the natural
number `m`: the least `e` with `m < 2 ^ (53 + e)`, searched upwards from `e`
in at most `fuel` steps. -/
def spacingExponent (m : Nat) : Nat → Nat → Nat
  | 0, e => e
  | fuel + 1, e => if m < 2 ^ (53 + e) then e else spacingExponent m fuel (e + 1)

/-- Round the natural number `m` to the nearest multiple of `u`, a tie going
to the even multiple. -/
def roundToMultiple (u m : Nat) : Nat :=
  if 2 * (m % u) < u then m / u * u
  else if u < 2 * (m % u) then (m / u + 1) * u
  else if m / u % 2 = 0 then m / u * u
  else (m / u + 1) * u

/-- The double nearest to the natural number `m` (round to nearest, ties to
even, 53 bits of precision). -/
def natToDouble (m : Nat) : Nat := roundToMultiple (2 ^ spacingExponent m m 0) m

/-- The double nearest to the integer `n`: what an addition or subtraction of
two integer-valued doubles with the exact result `n` yields. -/
def toDouble (n : Int) : Int :=
  if n < 0 then -(natToDouble n.natAbs : Int) else (natToDouble n.natAbs : Int)

/-! ## The TTL cache (lines 258-290) -/

/-- The namespace of cache keys in `localStorage`. -/
def cacheNamespace : String := "progressive_cache_"

/-- The storage key of a cache key. -/
def storageKey (key : String) : String := cacheNamespace ++ key

/-- JavaScript `ToNumber` of a (possibly missing) `timestamp`; `none` is `NaN`. -/
def toNumber (p : Page) : JSVal → Option Int
  | .undefined => none
  | .json .null => some 0
  | .json (.bool b) => some (if b then 1 else 0)
  | .json (.num n) => some n
  | .json v => p.toNumber v

/-- The text of `Math.round(age/1000)` in a template literal. -/
def roundedSeconds : Option Int → String
  | none => "NaN"
  | some age => toString ((age + 500) / 1000)

/-- The comparison `age > ttl` of two doubles, false when `age` is `NaN`; the
time-to-live is the double nearest to the integer given. -/
def isStale (age : Option Int) (ttl : Int) : Bool :=
  match age with
  | none => false
  | some a => decide (a > toDouble ttl)

/-- Method `getCachedData(key, ttl)` run when `Date.now()` is `now`: the value it
returns and the page it leaves. -/
def getCachedData (p : Page) (key : String) (ttl : Int) (now : Int) : JSVal × Page :=
  let p := emit p (.getItem (storageKey key))
  match mapGet p.localStorage (storageKey key) with
  | none => (.json .null, p)
  | some .empty => (.json .null, p)
  | some (.malformed _) => (.json .null, emit p (.consoleError "Cache read error:" "SyntaxError"))
  | some (.json .null) => (.json .null, emit p (.consoleError "Cache read error:" "TypeError"))
  | some (.json v) =>
    let data := v.prop "data"
    let timestamp := v.prop "timestamp"
    let age := (toNumber p timestamp).map (fun ts => toDouble (now - ts))
    if isStale age ttl then
      (.json .null,
        emit { p with localStorage := mapDelete p.localStorage (storageKey key) }
          (.removeItem (storageKey key)))
    else
      (data,
        emit p (.consoleLog ("📋 Cache HIT for " ++ key ++ " (age: " ++ roundedSeconds age ++ "s)")))

/-- The cache entry: the JSON text of the object with the fields `data` and
`timestamp` (the value `now` of `Date.now()`), in this order. -/
def cacheEntry (data : JVal) (now : Int) : StoredString :=
  .json (.obj [("data", data), ("timestamp", .num now)])

/-- Method `setCachedData(key, data)` run when `Date.now()` is `now`;
`quotaExceeded` tells whether `localStorage.setItem` throws. -/
def setCachedData (p : Page) (key : String) (data : JVal) (now : Int)
    (quotaExceeded : Bool) : Page :=
  if quotaExceeded then
    emit p (.consoleError "Cache write error:" "QuotaExceededError")
  else
    let p := { p with localStorage := mapSet p.localStorage (storageKey key) (cacheEntry data now) }
    let p := emit p (.setItem (storageKey key) (cacheEntry data now))
    emit p (.consoleLog ("📋 Cached data for " ++ key))

/-! ## Skeletons, indicators and the error block (lines 17-30, 210-253) -/

/-- Names that every object literal inherits from `Object.prototype`. -/
def objectPrototypeMembers : List String :=
  ["constructor", "toString", "toLocaleString", "valueOf", "hasOwnProperty",
   "isPrototypeOf", "propertyIsEnumerable", "__defineGetter__", "__defineSetter__",
   "__lookupGetter__", "__lookupSetter__", "__proto__"]

/-- The expression `skeletons[type] || skeletons.generic` (line 28). -/
def skeletonMarkup (type : String) : Markup :=
  if type = "generic" then .genericSkeleton
  else if type = "table" then .tableSkeleton
  else if type = "cards" then .cardsSkeleton
  else if type = "dashboard" then .dashboardSkeleton
  else if type ∈ objectPrototypeMembers then .inherited type
  else .genericSkeleton

/-- Method `showLoadingSkeleton(containerId, type = 'generic')`. -/
def showLoadingSkeleton (p : Page) (containerId : String) (type : Option String) : Page :=
  match mapGet p.document containerId with
  | none => p
  | some _ =>
    let m := skeletonMarkup (type.getD "generic")
    let p := { p with document := mapSet p.document containerId [.markup m] }
    let p := emit p (.innerHTML containerId m)
    { p with loadingStates := mapSet p.loadingStates containerId true }

/-- The id `loading-<containerId>` of a container's loading indicator. -/
def indicatorId (containerId : String) : String := "loading-" ++ containerId

/-- Whether `document.getElementById("loading-" + containerId)` finds an element. -/
def hasIndicator (doc : Document) (containerId : String) : Bool :=
  doc.any (fun c => decide (Node.indicator containerId ∈ c.2))

/-- Remove the first element with id `loading-<containerId>` in document order. -/
def removeIndicator : Document → String → Document
  | [], _ => []
  | (id, children) :: rest, containerId =>
    if Node.indicator containerId ∈ children then
      (id, children.erase (.indicator containerId)) :: rest
    else (id, children) :: removeIndicator rest containerId

/-- Method `startLoadingIndicator(containerId)`. -/
def startLoadingIndicator (p : Page) (containerId : String) : Page :=
  match mapGet p.document containerId with
  | none => p
  | some children =>
    if hasIndicator p.document containerId then p
    else
      let p := { p with
        document := mapSet p.document containerId (.indicator containerId :: children) }
      let p := emit p (.indicatorInserted containerId)
      { p with loadingIndicators :=
          if indicatorId containerId ∈ p.loadingIndicators then p.loadingIndicators
          else p.loadingIndicators ++ [indicatorId containerId] }

/-- Method `stopLoadingIndicator(containerId)`. -/
def stopLoadingIndicator (p : Page) (containerId : String) : Page :=
  if hasIndicator p.document containerId then
    let p := { p with document := removeIndicator p.document containerId }
    let p := emit p (.indicatorRemoved containerId)
    { p with loadingIndicators :=
        p.loadingIndicators.filter (fun i => decide (i ≠ indicatorId containerId)) }
  else p

/-- Method `showError(containerId, message)`. -/
def showError (p : Page) (containerId : String) (message : String) : Page :=
  match mapGet p.document containerId with
  | none => p
  | some _ =>
    let p := { p with document := mapSet p.document containerId [.markup (.errorBlock message)] }
    emit p (.innerHTML containerId (.errorBlock message))

/-- Method `isLoading(containerId)`. -/
def isLoading (p : Page) (containerId : String) : Bool :=
  (mapGet p.loadingStates containerId).getD false

/-! ## `loadData` (lines 35-106) -/

/-- How a `loadData` call ended: which of its three exits control took. -/
inductive Outcome where
  /-- The `return` of line 55, after the callback got the cached data. -/
  | cacheHit
  /-- The end of the `try` block, after line 79. -/
  | success
  /-- The `catch` block was entered with an error of this message. -/
  | failed (message : String)
  deriving DecidableEq

/-- How the promise of `fetch(endpoint)` settled. -/
inductive FetchResult where
  | rejected (message : String)
  | response (ok : Bool) (status : Nat) (statusText : String)

/-- How the promise of `response.json()` settled. -/
inductive BodyResult where
  | invalid (message : String)
  | parsed (data : JVal)

/-- The test `if (cacheKey)`: the key, when it is a non-empty string. -/
def truthyKey : Option String → Option String
  | none => none
  | some k => if k = "" then none else some k

/-- A call `updateCallback(data, containerId)`: the page after it and the
message of the error it threw, if any. -/
def invokeCallback (p : Page) (a : LoadArgs) (data : JVal) : Page × Option String :=
  let r := a.updateCallback data a.containerId p.document
  ({ emit p (.updateCallback data a.containerId) with document := r.document }, r.thrown)

/-- The `catch` block (lines 81-101) for an error with the given message. -/
def loadDataCatch (p : Page) (a : LoadArgs) (message : String) : Page :=
  let p := emit p (.consoleError ("❌ Error loading data from " ++ a.endpoint ++ ":") message)
  if a.options.retryOnError.getD true then
    let attempts := (mapGet p.retryAttempts a.endpoint).getD 0
    if attempts < p.maxRetries then
      let p := { p with retryAttempts := mapSet p.retryAttempts a.endpoint (attempts + 1) }
      let p := emit p (.consoleLog ("🔄 Retrying " ++ a.endpoint ++ " (attempt " ++
        toString (attempts + 1) ++ "/" ++ toString p.maxRetries ++ ")"))
      emit p (.setTimeout (2 ^ attempts * 1000) a)
    else showError p a.containerId message
  else showError p a.containerId message

/-- The `finally` block (lines 102-105). -/
def loadDataFinally (p : Page) (a : LoadArgs) : Page :=
  let p := stopLoadingIndicator p a.containerId
  { p with loadingStates := mapSet p.loadingStates a.containerId false }

/-- An error with this message is thrown inside the `try` block: the `catch`
block runs, then the `finally` block, and the call ends. -/
def loadDataFail (p : Page) (a : LoadArgs) (message : String) : Page × Outcome :=
  (loadDataFinally (loadDataCatch p a message) a, .failed message)

/-- Lines 43-46: show the skeleton unless `showSkeleton` is false. -/
def loadDataSkeleton (p : Page) (a : LoadArgs) : Page :=
  if a.options.showSkeleton.getD true then
    showLoadingSkeleton p a.containerId a.options.skeletonType
  else p

/-- Lines 59-63: start the indicator and issue the request. -/
def loadDataRequest (p : Page) (a : LoadArgs) : Page :=
  emit (startLoadingIndicator p a.containerId) (.fetch a.endpoint)

/-- First segment of `loadData` (lines 36-63), run when `Date.now()` is `now`:
from the call to its end (`some` outcome) when the cache answers, or else to
the suspension at `await fetch(endpoint)` (`none`). -/
def loadDataBegin (p : Page) (a : LoadArgs) (now : Int) : Page × Option Outcome :=
  let p := loadDataSkeleton p a
  match truthyKey a.options.cacheKey with
  | none => (loadDataRequest p a, none)
  | some key =>
    let r := getCachedData p key (a.options.ttl.getD 60000) now
    match r.1 with
    | .undefined => (loadDataRequest r.2 a, none)
    | .json cached =>
      if cached.truthy then
        let c := invokeCallback r.2 a cached
        match c.2 with
        | some message =>
          ((loadDataFail c.1 a message).1, some (loadDataFail c.1 a message).2)
        | none =>
          (loadDataFinally
            { c.1 with loadingStates := mapSet c.1.loadingStates a.containerId false } a,
           some .cacheHit)
      else (loadDataRequest r.2 a, none)

/-- Second segment of `loadData` (lines 63-68): the promise of `fetch` has
settled.  The call ends (`some` outcome) or is suspended at
`await response.json()` (`none`). -/
def loadDataOnResponse (p : Page) (a : LoadArgs) (r : FetchResult) : Page × Option Outcome :=
  match r with
  | .rejected message =>
    ((loadDataFail p a message).1, some (loadDataFail p a message).2)
  | .response ok status statusText =>
    if ok then (p, none)
    else
      ((loadDataFail p a ("HTTP " ++ toString status ++ ": " ++ statusText)).1,
       some (loadDataFail p a ("HTTP " ++ toString status ++ ": " ++ statusText)).2)

/-- Lines 70-73: write the fetched data through to the cache when a cache key
was given. -/
def loadDataCache (p : Page) (a : LoadArgs) (data : JVal) (now : Int)
    (quotaExceeded : Bool) : Page :=
  match truthyKey a.options.cacheKey with
  | none => p
  | some key => setCachedData p key data now quotaExceeded

/-- Third segment of `loadData` (lines 68-79): the promise of `response.json()`
has settled; `now` is `Date.now()` and `quotaExceeded` tells whether
`localStorage.setItem` throws. -/
def loadDataOnBody (p : Page) (a : LoadArgs) (b : BodyResult) (now : Int)
    (quotaExceeded : Bool) : Page × Outcome :=
  match b with
  | .invalid message => loadDataFail p a message
  | .parsed data =>
    let c := invokeCallback (loadDataCache p a data now quotaExceeded) a data
    match c.2 with
    | some message => loadDataFail c.1 a message
    | none =>
      (loadDataFinally { c.1 with retryAttempts := mapDelete c.1.retryAttempts a.endpoint } a,
       .success)

/-- What the environment answers during one `loadData` call. -/
structure CallEnv where
  /-- The value of `Date.now()` at the cache read. -/
  readTime : Int
  /-- How `fetch(endpoint)` settles, if it is called. -/
  fetchResult : FetchResult
  /-- How `response.json()` settles, if it is called. -/
  body : BodyResult
  /-- The value of `Date.now()` at the cache write. -/
  writeTime : Int
  /-- Whether `localStorage.setItem` throws at the cache write. -/
  quotaExceeded : Bool

/-- One whole `loadData(endpoint, containerId, updateCallback, options)` call:
its three segments in a row, no other task running at its two `await`s. -/
def loadData (p : Page) (a : LoadArgs) (env : CallEnv) : Page × Outcome :=
  let r₁ := loadDataBegin p a env.readTime
  match r₁.2 with
  | some o => (r₁.1, o)
  | none =>
    let r₂ := loadDataOnResponse r₁.1 a env.fetchResult
    match r₂.2 with
    | some o => (r₂.1, o)
    | none => loadDataOnBody r₂.1 a env.body env.writeTime env.quotaExceeded

/-- Whether the call ended in the `catch` block. -/
def Outcome.isFailed : Outcome → Bool
  | .failed _ => true
  | _ => false

/-- A chain of `loadData` calls with the same arguments, one per environment
(the first call and the re-invocations fired by its retry timers): the final
page and the outcomes in order. -/
def loadDataRun (p : Page) (a : LoadArgs) : List CallEnv → Page × List Outcome
  | [] => (p, [])
  | env :: rest =>
    ((loadDataRun (loadData p a env).1 a rest).1,
     (loadData p a env).2 :: (loadDataRun (loadData p a env).1 a rest).2)

/-- Pages reachable from a freshly constructed loader by segments of `loadData`
calls, run in any order with any arguments and any answers of the environment. -/
inductive Reachable : Page → Prop where
  | fresh (storage : List (String × StoredString)) (doc : Document)
      (toNumber : JVal → Option Int) :
      Reachable (ProgressiveLoader.new storage doc toNumber)
  | begin (p : Page) (a : LoadArgs) (now : Int) :
      Reachable p → Reachable (loadDataBegin p a now).1
  | response (p : Page) (a : LoadArgs) (r : FetchResult) :
      Reachable p → Reachable (loadDataOnResponse p a r).1
  | body (p : Page) (a : LoadArgs) (b : BodyResult) (now : Int) (quotaExceeded : Bool) :
      Reachable p → Reachable (loadDataOnBody p a b now quotaExceeded).1

/-! ## Reading the event log -/

/-- The steps the properties below count: retries scheduled, callback
invocations, network requests, error blocks rendered and cache writes. -/
def Event.notable : Event → Bool
  | .setTimeout _ _ => true
  | .updateCallback _ _ => true
  | .fetch _ => true
  | .innerHTML _ (.errorBlock _) => true
  | .setItem _ _ => true
  | _ => false

/-- The notable steps of a log, in order. -/
def notable (evs : List Event) : List Event := evs.filter Event.notable

/-- The retries scheduled by `setTimeout`, with their delays in milliseconds. -/
def scheduled : List Event → List (Nat × LoadArgs)
  | [] => []
  | .setTimeout delay args :: rest => (delay, args) :: scheduled rest
  | _ :: rest => scheduled rest

/-- The `updateCallback` invocations, with their two arguments. -/
def callbacks : List Event → List (JVal × String)
  | [] => []
  | .updateCallback data containerId :: rest => (data, containerId) :: callbacks rest
  | _ :: rest => callbacks rest

/-- The endpoints of the network requests issued. -/
def fetches : List Event → List String
  | [] => []
  | .fetch endpoint :: rest => endpoint :: fetches rest
  | _ :: rest => fetches rest

/-- The error blocks rendered: container id and message. -/
def errorBlocks : List Event → List (String × String)
  | [] => []
  | .innerHTML containerId (.errorBlock message) :: rest =>
    (containerId, message) :: errorBlocks rest
  | _ :: rest => errorBlocks rest

/-- The successful `localStorage.setItem` writes: key and stored string. -/
def cacheWrites : List Event → List (String × StoredString)
  | [] => []
  | .setItem key value :: rest => (key, value) :: cacheWrites rest
  | _ :: rest => cacheWrites rest

/-- The messages of the errors passed to `console.error`. -/
def consoleErrors : List Event → List String
  | [] => []
  | .consoleError _ message :: rest => message :: consoleErrors rest
  | _ :: rest => consoleErrors rest

/-! ## `clearCache` (lines 295-303) -/

/-- The test `key.startsWith('progressive_cache_')`. -/
def isCacheKey (key : String) : Bool := cacheNamespace.data.isPrefixOf key.data

/-- The loop `keys.forEach(key => localStorage.removeItem(key))`. -/
def removeItems (p : Page) : List String → Page
  | [] => p
  | key :: rest =>
    removeItems
      (emit { p with localStorage := mapDelete p.localStorage key } (.removeItem key)) rest

/-- Method `clearCache()`: the value it returns (it has no `return` statement)
and the page it leaves.  `Object.keys(localStorage)` lists the stored keys. -/
def clearCache (p : Page) : JSVal × Page :=
  let keys := (p.localStorage.map Prod.fst).filter isCacheKey
  let p := removeItems p keys
  (.undefined, emit p (.consoleLog ("🧹 Cleared " ++ toString keys.length ++ " cached items")))

/-! ## `loadMultiple` (lines 315-327) -/

/-- One request of a batch, with what the environment answers to its
`loadData` call. -/
structure Request where
  args : LoadArgs
  env : CallEnv

/-- Where the `loadData` call of a request stands. -/
inductive TaskPhase where
  /-- Suspended at `await fetch(endpoint)`. -/
  | awaitingFetch
  /-- Suspended at `await response.json()`. -/
  | awaitingBody
  /-- The promise of the call is settled; the call ended this way. -/
  | settled (o : Outcome)
  deriving DecidableEq

/-- A `loadData` call in flight. -/
structure LoadTask where
  request : Request
  phase : TaskPhase

/-- The call `this.loadData(endpoint, containerId, updateCallback, options)` made
by the `map` of line 316: its first segment runs at once. -/
def startTask (p : Page) (r : Request) : Page × LoadTask :=
  let b := loadDataBegin p r.args r.env.readTime
  (b.1, { request := r,
          phase := match b.2 with
            | some o => .settled o
            | none => .awaitingFetch })

/-- The `requests.map(...)` of lines 316-319: one `loadData` call per request,
in list order. -/
def startTasks (p : Page) : List Request → Page × List LoadTask
  | [] => (p, [])
  | r :: rest =>
    ((startTasks (startTask p r).1 rest).1,
     (startTask p r).2 :: (startTasks (startTask p r).1 rest).2)

/-- The awaited promise of a task settles and its next segment runs. -/
def resumeTask (p : Page) (t : LoadTask) : Page × LoadTask :=
  match t.phase with
  | .awaitingFetch =>
    let r := loadDataOnResponse p t.request.args t.request.env.fetchResult
    (r.1, { t with phase := match r.2 with
                     | some o => .settled o
                     | none => .awaitingBody })
  | .awaitingBody =>
    let r := loadDataOnBody p t.request.args t.request.env.body t.request.env.writeTime
      t.request.env.quotaExceeded
    (r.1, { t with phase := .settled r.2 })
  | .settled _ => (p, t)

/-- The task number `i` is the next one to be resumed. -/
def resumeAt (p : Page) (tasks : List LoadTask) (i : Nat) : Page × List LoadTask :=
  match tasks.get? i with
  | none => (p, tasks)
  | some t => ((resumeTask p t).1, tasks.set i (resumeTask p t).2)

/-- The tasks are resumed in the order of the schedule (the order in which the
network answers). -/
def runSchedule (p : Page) (tasks : List LoadTask) : List Nat → Page × List LoadTask
  | [] => (p, tasks)
  | i :: rest => runSchedule (resumeAt p tasks i).1 (resumeAt p tasks i).2 rest

/-- Whether the promise of the task is settled. -/
def LoadTask.isSettled (t : LoadTask) : Bool :=
  match t.phase with
  | .settled _ => true
  | _ => false

/-- The segments a task still has to run. -/
def LoadTask.remaining (t : LoadTask) : Nat :=
  match t.phase with
  | .awaitingFetch => 2
  | .awaitingBody => 1
  | .settled _ => 0

/-- Method `loadMultiple(requests)` under a schedule: the page at the end, the
tasks, and whether `Promise.allSettled` has resolved and the method has
completed (line 323) by then. -/
def loadMultiple (p : Page) (requests : List Request) (schedule : List Nat) :
    Page × List LoadTask × Bool :=
  let s := startTasks p requests
  let r := runSchedule s.1 s.2 schedule
  if r.2.all LoadTask.isSettled then
    (emit r.1 (.consoleLog ("✅ Completed batch loading of " ++ toString requests.length ++
      " requests")), r.2, true)
  else (r.1, r.2, false)

/-- A schedule that resumes every task of a batch of `n` requests often enough
for both of its awaits. -/
def CompleteSchedule (n : Nat) (schedule : List Nat) : Prop :=
  ∀ i, i < n → 2 ≤ schedule.count i

/-! ## `ProgressivePagination` (lines 333-353) -/

/-- The fields of a `ProgressivePagination` instance, with the log of the
arguments its `loadDataCallback` was invoked with. -/
structure ProgressivePagination where
  containerId : String
  currentPage : Int
  totalPages : Int
  isLoading : Bool
  invoked : List Int

/-- The constructor (lines 334-340). -/
def ProgressivePagination.new (containerId : String) : ProgressivePagination :=
  { containerId := containerId, currentPage := 1, totalPages := 1, isLoading := false,
    invoked := [] }

/-- What the call `this.loadDataCallback(page)` does at once. -/
inductive CallbackStart where
  /-- It throws synchronously. -/
  | threw (message : String)
  /-- It returns a value (a promise, as a rule), on which `await` suspends. -/
  | returned

/-- How the awaited promise of the callback settles. -/
inductive CallbackEnd where
  | resolved
  | rejected (message : String)

/-- How the promise returned by `loadPage` settles. -/
inductive LoadPageResult where
  | fulfilled
  | rejected (message : String)
  deriving DecidableEq

/-- Method `loadPage(page)` up to its `await`: the instance afterwards, and how
the call ended, `none` when it is suspended at the `await`. -/
def loadPage (s : ProgressivePagination) (page : Int) (start : CallbackStart) :
    ProgressivePagination × Option LoadPageResult :=
  if s.isLoading then (s, some .fulfilled)
  else
    let s := { s with isLoading := true }
    let s := { s with currentPage := page }
    let s := { s with invoked := s.invoked ++ [page] }
    match start with
    | .threw message => ({ s with isLoading := false }, some (.rejected message))
    | .returned => (s, none)

/-- Method `loadPage(page)` from its `await` on: the awaited promise has
settled and the `finally` block runs. -/
def loadPageResume (s : ProgressivePagination) (e : CallbackEnd) :
    ProgressivePagination × LoadPageResult :=
  ({ s with isLoading := false },
    match e with
    | .resolved => .fulfilled
    | .rejected message => .rejected message)

/-! ## Pagination controls (lines 355-400) -/

/-- The integers `lo, lo + 1, ..., hi`; none when `hi < lo`. -/
def loopRange (lo hi : Int) : List Int :=
  (List.range (hi + 1 - lo).toNat).map (fun (k : Nat) => lo + (k : Int))

/-- One numbered button of the controls: the page its click passes to
`loadPage`, which is also its label, and whether its item has class `active`. -/
structure PageButton where
  page : Int
  active : Bool
  deriving DecidableEq

/-- The loop `for (let i = start; i <= end; i++)` of `generatePageNumbers`
(lines 392-397) from `i` on, run for at most `fuel` iterations: the buttons it
pushes, or `none` when it has not ended by then.  The increment `i++` is an
addition of doubles. -/
def pageLoop (currentPage last : Int) : Nat → Int → Option (List PageButton)
  | 0, i => if i ≤ last then none else some []
  | fuel + 1, i =>
    if i ≤ last then
      (pageLoop currentPage last fuel (toDouble (i + 1))).map
        (fun rest => { page := i, active := decide (i = currentPage) } :: rest)
    else some []

/-- Method `generatePageNumbers()` (lines 382-399), its loop run for at most
`fuel` iterations: the numbered buttons in the order of the markup, or `none`
when the loop has not ended by then.  Every sum and difference is one of
doubles, taken in the order in which the source evaluates it. -/
def generatePageNumbers (fuel : Nat) (s : ProgressivePagination) : Option (List PageButton) :=
  let maxVisible : Int := 5
  let start := max 1 (toDouble (s.currentPage - maxVisible / 2))
  let «end» := min s.totalPages (toDouble (toDouble (start + maxVisible) - 1))
  let start :=
    if toDouble (toDouble («end» - start) + 1) < maxVisible then
      max 1 (toDouble (toDouble («end» - maxVisible) + 1))
    else start
  pageLoop s.currentPage «end» fuel start

/-- The markup of `createPaginationControls`, as the data it is made from, in
the order in which the template evaluates it: for the two outer buttons whether
their item has class `disabled` and the page their click passes to `loadPage`,
and the numbered buttons between them.  The numbered buttons are `none` when
`generatePageNumbers` has not returned; the call then returns no markup. -/
structure Controls where
  previousDisabled : Bool
  previousPage : Int
  pageButtons : Option (List PageButton)
  nextDisabled : Bool
  nextPage : Int
  deriving DecidableEq

/-- Method `createPaginationControls(totalPages)` (lines 355-380), the loop of
`generatePageNumbers` run for at most `fuel` iterations: the markup and the
instance afterwards. -/
def createPaginationControls (fuel : Nat) (s : ProgressivePagination) (totalPages : Int) :
    Controls × ProgressivePagination :=
  let s := { s with totalPages := totalPages }
  ({ previousDisabled := decide (s.currentPage ≤ 1),
     previousPage := toDouble (s.currentPage - 1),
     pageButtons := generatePageNumbers fuel s,
     nextDisabled := decide (s.currentPage ≥ totalPages),
     nextPage := toDouble (s.currentPage + 1) }, s)

/-- The page numbers of the numbered buttons, when they were returned. -/
def Controls.window (c : Controls) : Option (List Int) :=
  c.pageButtons.map (fun buttons => buttons.map PageButton.page)

/-- The pages that the buttons of the controls pass to `loadPage`. -/
def Controls.targets (c : Controls) : List Int :=
  c.previousPage :: c.nextPage :: c.window.getD []

/-- The pages passed by the buttons whose item is not marked `disabled`. -/
def Controls.enabledTargets (c : Controls) : List Int :=
  (if c.previousDisabled then [] else [c.previousPage]) ++
    (if c.nextDisabled then [] else [c.nextPage]) ++ c.window.getD []

/-- The instance and the controls on the page, as reached from a new instance
by rendering controls for any number of pages, by clicks on any button of the
rendered controls, and by the settling of a pending `loadPage`. -/
inductive ControlsReachable : ProgressivePagination → Option Controls → Prop where
  | new (containerId : String) : ControlsReachable (.new containerId) none
  | render {s : ProgressivePagination} {c : Option Controls} (fuel : Nat) (totalPages : Int) :
      ControlsReachable s c →
      ControlsReachable (createPaginationControls fuel s totalPages).2
        (some (createPaginationControls fuel s totalPages).1)
  | click {s : ProgressivePagination} {c : Controls} (page : Int) (start : CallbackStart) :
      ControlsReachable s (some c) → page ∈ c.targets →
      ControlsReachable (loadPage s page start).1 (some c)
  | settle {s : ProgressivePagination} {c : Option Controls} (e : CallbackEnd) :
      ControlsReachable s c → s.isLoading = true →
      ControlsReachable (loadPageResume s e).1 c

/-- The same, with controls rendered for at least one page only and clicks on
the buttons that are not marked `disabled` only. -/
inductive EnabledReachable : ProgressivePagination → Option Controls → Prop where
  | new (containerId : String) : EnabledReachable (.new containerId) none
  | render {s : ProgressivePagination} {c : Option Controls} (fuel : Nat) (totalPages : Int) :
      EnabledReachable s c → 1 ≤ totalPages →
      EnabledReachable (createPaginationControls fuel s totalPages).2
        (some (createPaginationControls fuel s totalPages).1)
  | click {s : ProgressivePagination} {c : Controls} (page : Int) (start : CallbackStart) :
      EnabledReachable s (some c) → page ∈ c.enabledTargets →
      EnabledReachable (loadPage s page start).1 (some c)
  | settle {s : ProgressivePagination} {c : Option Controls} (e : CallbackEnd) :
      EnabledReachable s c → s.isLoading = true →
      EnabledReachable (loadPageResume s e).1 c

/-! ## Indicator elements in the document -/

/-- The number of elements with id `loading-<containerId>` in the document. -/
def indicatorCount (doc : Document) (containerId : String) : Nat :=
  (doc.map (fun c => c.2.count (Node.indicator containerId))).sum

/-- An update callback that never leaves two elements with the id
`loading-<containerId>` in a document that had at most one. -/
def KeepsIndicatorUnique (a : LoadArgs) : Prop :=
  ∀ (d : JVal) (doc : Document), indicatorCount doc a.containerId ≤ 1 →
    indicatorCount (a.updateCallback d a.containerId doc).document a.containerId ≤ 1

/-! ## Invariant of the retry counts -/

/-- Every stored attempt count lies between 1 and `bound`, which is `maxRetries`. -/
def CountsWithin (bound : Nat) (p : Page) : Prop :=
  p.maxRetries = bound ∧ ∀ e n, (e, n) ∈ p.retryAttempts → 1 ≤ n ∧ n ≤ bound

/-! ## The steps of a `loadData` call -/

/-- The kinds of observable steps of a `loadData` call whose order is of
interest. -/
inductive Step where
  | skeletonRender
  | cacheRead
  | indicatorStart
  | networkRequest
  | cacheWrite
  | callbackInvocation
  | indicatorRemoval
  deriving DecidableEq

/-- The kind of step an event is, if any: the error block, `removeItem`, the
console and the timers are none of them. -/
def Event.step : Event → Option Step
  | .innerHTML _ (.errorBlock _) => none
  | .innerHTML _ _ => some .skeletonRender
  | .getItem _ => some .cacheRead
  | .indicatorInserted _ => some .indicatorStart
  | .fetch _ => some .networkRequest
  | .setItem _ _ => some .cacheWrite
  | .updateCallback _ _ => some .callbackInvocation
  | .indicatorRemoved _ => some .indicatorRemoval
  | _ => none

/-- The steps of an event log, in order. -/
def steps (evs : List Event) : List Step := evs.filterMap Event.step

/-- The seven steps in the order of the source text of `loadData`. -/
def loadDataSteps : List Step :=
  [.skeletonRender, .cacheRead, .indicatorStart, .networkRequest, .cacheWrite,
   .callbackInvocation, .indicatorRemoval]

/-! ## Options and their defaults (lines 36-42) -/

/-- The `options` argument left out, or the empty object. -/
def omittedOptions : LoadOptions :=
  { showSkeleton := none, retryOnError := none, cacheKey := none, ttl := none,
    skeletonType := none }

/-- The options `showSkeleton: true, retryOnError: true, cacheKey: null,
ttl: 60000, skeletonType: 'generic'`. -/
def defaultOptions : LoadOptions :=
  { showSkeleton := some true, retryOnError := some true, cacheKey := none, ttl := some 60000,
    skeletonType := some "generic" }

/-- The event with the arguments of a scheduled re-invocation replaced. -/
def Event.withArgs (a : LoadArgs) : Event → Event
  | .setTimeout delay _ => .setTimeout delay a
  | e => e

/-- The page with the arguments of every scheduled re-invocation in its event
log replaced. -/
def Page.withArgs (a : LoadArgs) (p : Page) : Page :=
  { p with events := p.events.map (Event.withArgs a) }

/-- Whether the fetch of the call fails: the promise of `fetch` rejects, the
response is not OK, or its body is not JSON. -/
def CallEnv.fetchFails (env : CallEnv) : Bool :=
  match env.fetchResult with
  | .rejected _ => true
  | .response ok _ _ =>
    !ok || (match env.body with
      | .invalid _ => true
      | .parsed _ => false)

/-! ## Sample inputs -/

/-- An update callback that renders nothing and returns. -/
def sampleCallback : UpdateCallback := fun _ _ doc => ⟨doc, none⟩

/-- An update callback that throws after rendering nothing. -/
def throwingCallback : UpdateCallback := fun _ _ doc => ⟨doc, some "render failed"⟩

/-- A freshly constructed loader on a page with containers `c1` and `c2`, and
one unrelated key in the storage. -/
def samplePage : Page :=
  ProgressiveLoader.new [("theme", .malformed "dark")] [("c1", [.other "old"]), ("c2", [])]
    (fun _ => none)

/-- The sample page with a cache entry for key `x`, written at time 1000. -/
def pageWithEntry (d : JVal) : Page :=
  ProgressiveLoader.new [("theme", .malformed "dark"), ("progressive_cache_x", cacheEntry d 1000)]
    [("c1", [.other "old"]), ("c2", [])] (fun _ => none)

/-- The options `cacheKey: 'x', ttl: 5000`. -/
def cachingOptions : LoadOptions :=
  { showSkeleton := none, retryOnError := none, cacheKey := some "x", ttl := some 5000,
    skeletonType := none }

/-- The call `loadData('/api/x', 'c1', cb, options)` with the options
`cacheKey: 'x', ttl: 5000`. -/
def cachingArgs : LoadArgs :=
  { endpoint := "/api/x", containerId := "c1", updateCallback := sampleCallback,
    options := cachingOptions }

/-- The call `loadData('/api/x', 'c1', cb)`, options omitted. -/
def plainArgs : LoadArgs :=
  { endpoint := "/api/x", containerId := "c1", updateCallback := sampleCallback,
    options := { showSkeleton := none, retryOnError := none, cacheKey := none, ttl := none,
                 skeletonType := none } }

/-- The call `loadData('/api/x', 'c1', cb, options)` with the option
`retryOnError: false`. -/
def noRetryArgs : LoadArgs :=
  { endpoint := "/api/x", containerId := "c1", updateCallback := sampleCallback,
    options := { showSkeleton := none, retryOnError := some false, cacheKey := none, ttl := none,
                 skeletonType := none } }

/-- The call `loadData('/api/x', 'c1', cb, options)` with the option
`cacheKey: ''`. -/
def emptyKeyArgs : LoadArgs :=
  { endpoint := "/api/x", containerId := "c1", updateCallback := sampleCallback,
    options := { showSkeleton := none, retryOnError := none, cacheKey := some "", ttl := none,
                 skeletonType := none } }

/-- The request is answered `200 OK` with the JSON object `"v": 1` as body; the
clock reads 2000. -/
def okEnv : CallEnv :=
  { readTime := 2000, fetchResult := .response true 200 "OK",
    body := .parsed (.obj [("v", .num 1)]), writeTime := 2000, quotaExceeded := false }

/-- The request is answered `500 Internal Server Error`. -/
def failingEnv : CallEnv :=
  { readTime := 2000, fetchResult := .response false 500 "Internal Server Error",
    body := .parsed (.obj [("error", .str "boom")]), writeTime := 2000, quotaExceeded := false }

/-- The sample page after two consecutive failures of `/api/x` (attempt count 2). -/
def retriedPage : Page := (loadDataRun samplePage plainArgs [failingEnv, failingEnv]).1

/-- The call `loadData('/api/x', 'c1', cb, options)` with the option
`showSkeleton: false`. -/
def noSkeletonArgs : LoadArgs :=
  { endpoint := "/api/x", containerId := "c1", updateCallback := sampleCallback,
    options := { showSkeleton := some false, retryOnError := none, cacheKey := none,
                 ttl := none, skeletonType := none } }

/-- The call `loadData('/api/x', 'nowhere', cb)` for a container id that no
element of the document has. -/
def missingContainerArgs : LoadArgs :=
  { endpoint := "/api/x", containerId := "nowhere", updateCallback := sampleCallback,
    options := { showSkeleton := none, retryOnError := none, cacheKey := none, ttl := none,
                 skeletonType := none } }

/-- The call `loadData('/api/x', 'c1', cb, options)` with the options
`cacheKey: 'x', ttl: 5000` and a callback that throws. -/
def throwingArgs : LoadArgs :=
  { endpoint := "/api/x", containerId := "c1", updateCallback := throwingCallback,
    options := cachingOptions }

/-- The call `loadData('/api/y', 'c2', cb)`. -/
def secondArgs : LoadArgs :=
  { endpoint := "/api/y", containerId := "c2", updateCallback := sampleCallback,
    options := { showSkeleton := none, retryOnError := none, cacheKey := none, ttl := none,
                 skeletonType := none } }

/-- The request is answered `200 OK`, but the storage is full. -/
def fullStorageEnv : CallEnv :=
  { readTime := 2000, fetchResult := .response true 200 "OK",
    body := .parsed (.obj [("v", .num 1)]), writeTime := 2000, quotaExceeded := true }

/-- A page whose storage holds two cache entries and two unrelated keys. -/
def cachePage : Page :=
  ProgressiveLoader.new
    [("theme", .malformed "dark"), ("progressive_cache_x", cacheEntry (.num 7) 1000),
     ("progress", .json (.num 3)), ("progressive_cache_members", cacheEntry (.arr []) 1500)]
    [("c1", [])] (fun _ => none)

/-- A page whose storage holds, under cache keys, the empty string, a string
that is not JSON, and the JSON text `null`. -/
def brokenCachePage : Page :=
  ProgressiveLoader.new
    [("progressive_cache_a", .empty), ("progressive_cache_b", .malformed "not json"),
     ("progressive_cache_c", .json .null)]
    [("c1", [])] (fun _ => none)

/-- A batch of two requests: `/api/x` into `c1`, which fails, and `/api/y` into
`c2`, which succeeds. -/
def sampleBatch : List Request :=
  [{ args := plainArgs, env := failingEnv }, { args := secondArgs, env := okEnv }]

/-- The second call of the sample batch, suspended at its `await fetch`. -/
def secondTask : LoadTask :=
  { request := { args := secondArgs, env := okEnv }, phase := .awaitingFetch }

/-- The statement that a valid cache entry holding `d` is passed over: the
cache read returns `d`, yet `loadData` goes on to the network request without
invoking the callback. -/
def CachedValueRefetched (d : JVal) : Prop :=
  (getCachedData (pageWithEntry d) "x" 5000 2000).1 = .json d ∧
    (loadDataBegin (pageWithEntry d) cachingArgs 2000).2 = none ∧
    fetches (loadDataBegin (pageWithEntry d) cachingArgs 2000).1.events = ["/api/x"] ∧
    callbacks (loadDataBegin (pageWithEntry d) cachingArgs 2000).1.events = []

/-- An instance on page `c` of `t` pages. -/
def paginationAt (c t : Int) : ProgressivePagination :=
  { ProgressivePagination.new "members" with currentPage := c, totalPages := t }

/-- The promise of `fetch` rejects. -/
def offlineEnv : CallEnv :=
  { readTime := 3000, fetchResult := .rejected "Failed to fetch",
    body := .invalid "", writeTime := 3000, quotaExceeded := false }

/-- The call `loadData('/api/x', 'nowhere', cb, options)` with the options
`cacheKey: 'x', ttl: 5000`, for a container id that no element of the document
has. -/
def missingContainerCachingArgs : LoadArgs :=
  { endpoint := "/api/x", containerId := "nowhere", updateCallback := sampleCallback,
    options := cachingOptions }

/-! ## Lemmas on double-precision arithmetic -/

theorem spacingExponent_spec (m : Nat) :
    ∀ (fuel e : Nat), m < 2 ^ (53 + e + fuel) →
      e ≤ spacingExponent m fuel e ∧ m < 2 ^ (53 + spacingExponent m fuel e) ∧
        ∀ e', e ≤ e' → e' < spacingExponent m fuel e → 2 ^ (53 + e') ≤ m := by
  intro fuel
  induction fuel with
  | zero =>
    intro e h
    refine ⟨Nat.le_refl _, by simpa [spacingExponent] using h, ?_⟩
    intro e' h₁ h₂
    simp only [spacingExponent] at h₂
    omega
  | succ fuel ih =>
    intro e h
    simp only [spacingExponent]
    split
    · rename_i hlt
      refine ⟨Nat.le_refl _, hlt, ?_⟩
      intro e' h₁ h₂
      omega
    · rename_i hge
      have h' : m < 2 ^ (53 + (e + 1) + fuel) := by
        have : 53 + (e + 1) + fuel = 53 + e + (fuel + 1) := by omega
        rw [this]
        exact h
      obtain ⟨i₁, i₂, i₃⟩ := ih (e + 1) h'
      refine ⟨by omega, i₂, ?_⟩
      intro e' h₁ h₂
      by_cases he : e' = e
      · subst he
        exact Nat.le_of_not_lt hge
      · exact i₃ e' (by omega) h₂

theorem lt_two_pow_spacingExponent (m : Nat) : m < 2 ^ (53 + spacingExponent m m 0) :=
  (spacingExponent_spec m m 0 (by
    have h : m < 2 ^ m := Nat.lt_two_pow m
    exact Nat.lt_of_lt_of_le h (Nat.pow_le_pow_right (by decide) (by omega)))).2.1

theorem two_pow_le_of_lt_spacingExponent (m e : Nat) (h : e < spacingExponent m m 0) :
    2 ^ (53 + e) ≤ m :=
  (spacingExponent_spec m m 0 (by
    have h : m < 2 ^ m := Nat.lt_two_pow m
    exact Nat.lt_of_lt_of_le h (Nat.pow_le_pow_right (by decide) (by omega)))).2.2 e
    (Nat.zero_le _) h

theorem spacingExponent_mono {a b : Nat} (h : a ≤ b) :
    spacingExponent a a 0 ≤ spacingExponent b b 0 := by
  by_contra hlt
  have h₁ := two_pow_le_of_lt_spacingExponent a _ (Nat.lt_of_not_le hlt)
  have h₂ := lt_two_pow_spacingExponent b
  omega

theorem spacingExponent_of_lt {m : Nat} (h : m < 2 ^ 53) : spacingExponent m m 0 = 0 := by
  by_contra hne
  have := two_pow_le_of_lt_spacingExponent m 0 (Nat.pos_of_ne_zero hne)
  omega

theorem roundToMultiple_eq (u m : Nat) :
    ∃ c, c ≤ 1 ∧ roundToMultiple u m = (m / u + c) * u ∧
      (c = 1 ↔ u < 2 * (m % u) ∨ (u = 2 * (m % u) ∧ m / u % 2 = 1)) := by
  unfold roundToMultiple
  split_ifs with h₁ h₂ h₃
  · exact ⟨0, by omega, by simp, by omega⟩
  · exact ⟨1, by omega, rfl, by omega⟩
  · exact ⟨0, by omega, by simp, by omega⟩
  · exact ⟨1, by omega, rfl, by omega⟩

theorem roundToMultiple_of_dvd {u m : Nat} (hu : 0 < u) (h : u ∣ m) :
    roundToMultiple u m = m := by
  have hmod : m % u = 0 := Nat.mod_eq_zero_of_dvd h
  simp [roundToMultiple, hmod, hu, Nat.div_mul_cancel h]

theorem roundToMultiple_mono {u a b : Nat} (hu : 0 < u) (h : a ≤ b) :
    roundToMultiple u a ≤ roundToMultiple u b := by
  obtain ⟨ca, hca, ea, ia⟩ := roundToMultiple_eq u a
  obtain ⟨cb, hcb, eb, ib⟩ := roundToMultiple_eq u b
  rw [ea, eb]
  apply Nat.mul_le_mul_right
  have hq : a / u ≤ b / u := Nat.div_le_div_right h
  have ha := Nat.div_add_mod a u
  have hb := Nat.div_add_mod b u
  have hra : a % u < u := Nat.mod_lt _ hu
  have hrb : b % u < u := Nat.mod_lt _ hu
  by_cases hlt : a / u < b / u
  · omega
  · have heq : a / u = b / u := by omega
    rw [heq] at ha ia
    have hr : a % u ≤ b % u := by omega
    by_cases hc : ca = 1
    · have hcb' : cb = 1 := by
        rw [ib]
        rcases ia.1 hc with h₁ | ⟨h₁, h₂⟩
        · left
          omega
        · by_cases h₃ : a % u = b % u
          · right
            exact ⟨by omega, h₂⟩
          · left
            omega
      omega
    · omega

theorem natToDouble_of_lt {m : Nat} (h : m < 2 ^ 53) : natToDouble m = m := by
  rw [natToDouble, spacingExponent_of_lt h, Nat.pow_zero]
  exact roundToMultiple_of_dvd Nat.one_pos (Nat.one_dvd m)

theorem natToDouble_mono {a b : Nat} (h : a ≤ b) : natToDouble a ≤ natToDouble b := by
  unfold natToDouble
  have he := spacingExponent_mono h
  by_cases heq : spacingExponent a a 0 = spacingExponent b b 0
  · rw [heq]
    exact roundToMultiple_mono (Nat.pos_pow_of_pos _ (by decide)) h
  · have hlt : spacingExponent a a 0 < spacingExponent b b 0 := by omega
    have ha := lt_two_pow_spacingExponent a
    have hb := two_pow_le_of_lt_spacingExponent b (spacingExponent b b 0 - 1) (by omega)
    have h₁ : roundToMultiple (2 ^ spacingExponent a a 0) a ≤ 2 ^ (53 + spacingExponent a a 0) := by
      have := roundToMultiple_mono (u := 2 ^ spacingExponent a a 0)
        (Nat.pos_pow_of_pos _ (by decide)) (Nat.le_of_lt ha)
      rwa [roundToMultiple_of_dvd (Nat.pos_pow_of_pos _ (by decide))
        (Nat.pow_dvd_pow 2 (by omega))] at this
    have h₂ : 2 ^ (53 + (spacingExponent b b 0 - 1)) ≤
        roundToMultiple (2 ^ spacingExponent b b 0) b := by
      have := roundToMultiple_mono (u := 2 ^ spacingExponent b b 0)
        (Nat.pos_pow_of_pos _ (by decide)) hb
      rwa [roundToMultiple_of_dvd (Nat.pos_pow_of_pos _ (by decide))
        (Nat.pow_dvd_pow 2 (by omega))] at this
    have h₃ : 2 ^ (53 + spacingExponent a a 0) ≤ 2 ^ (53 + (spacingExponent b b 0 - 1)) :=
      Nat.pow_le_pow_right (by decide) (by omega)
    omega

theorem toDouble_mono {a b : Int} (h : a ≤ b) : toDouble a ≤ toDouble b := by
  unfold toDouble
  split_ifs with ha hb hb
  · have : natToDouble b.natAbs ≤ natToDouble a.natAbs := natToDouble_mono (by omega)
    omega
  · have := Int.natCast_nonneg (natToDouble a.natAbs)
    have := Int.natCast_nonneg (natToDouble b.natAbs)
    omega
  · omega
  · have : natToDouble a.natAbs ≤ natToDouble b.natAbs := natToDouble_mono (by omega)
    omega

/-- Integers of absolute value below `2 ^ 53` are doubles. -/
theorem toDouble_of_natAbs_lt {n : Int} (h : n.natAbs < 2 ^ 53) : toDouble n = n := by
  unfold toDouble
  rw [natToDouble_of_lt h]
  split_ifs <;> omega

theorem toDouble_two_pow : toDouble (2 ^ 53) = 2 ^ 53 ∧ toDouble (-2 ^ 53) = -2 ^ 53 := by
  decide

/-- Integers of absolute value up to `2 ^ 53` are doubles. -/
theorem toDouble_of_abs_le {n : Int} (h₁ : -2 ^ 53 ≤ n) (h₂ : n ≤ 2 ^ 53) : toDouble n = n := by
  by_cases h : n.natAbs < 2 ^ 53
  · exact toDouble_of_natAbs_lt h
  · have : n = 2 ^ 53 ∨ n = -2 ^ 53 := by omega
    rcases this with rfl | rfl
    · exact toDouble_two_pow.1
    · exact toDouble_two_pow.2

/-- Rounding keeps a number on its side of a double of absolute value up to
`2 ^ 53`. -/
theorem le_toDouble {b x : Int} (h₁ : -2 ^ 53 ≤ b) (h₂ : b ≤ 2 ^ 53) (h : b ≤ x) :
    b ≤ toDouble x := by
  have := toDouble_mono h
  rwa [toDouble_of_abs_le h₁ h₂] at this

theorem toDouble_le {b x : Int} (h₁ : -2 ^ 53 ≤ b) (h₂ : b ≤ 2 ^ 53) (h : x ≤ b) :
    toDouble x ≤ b := by
  have := toDouble_mono h
  rwa [toDouble_of_abs_le h₁ h₂] at this

/-! ## Lemmas on maps -/

theorem mapGet_mapSet_self {α : Type} (m : List (String × α)) (k : String) (v : α) :
    mapGet (mapSet m k v) k = some v := by
  induction m with
  | nil => simp [mapSet, mapGet]
  | cons hd tl ih =>
    obtain ⟨k', x⟩ := hd
    by_cases h : k' = k <;> simp [mapSet, mapGet, h, ih]

theorem mapGet_mapSet_ne {α : Type} (m : List (String × α)) (k k' : String) (v : α)
    (h : k' ≠ k) : mapGet (mapSet m k v) k' = mapGet m k' := by
  induction m with
  | nil => simp [mapSet, mapGet, Ne.symm h]
  | cons hd tl ih =>
    obtain ⟨k₀, x⟩ := hd
    by_cases h₀ : k₀ = k
    · subst h₀
      simp [mapSet, mapGet, Ne.symm h]
    · by_cases h₁ : k₀ = k'
      · subst h₁
        simp [mapSet, mapGet, h₀]
      · simp [mapSet, mapGet, h₀, h₁, ih]

theorem mapGet_mapDelete_self {α : Type} (m : List (String × α)) (k : String) :
    mapGet (mapDelete m k) k = none := by
  induction m with
  | nil => simp [mapDelete, mapGet]
  | cons hd tl ih =>
    obtain ⟨k', x⟩ := hd
    by_cases h : k' = k <;> simp [mapDelete, mapGet, h, ih]

theorem mapGet_mapDelete_ne {α : Type} (m : List (String × α)) (k k' : String)
    (h : k' ≠ k) : mapGet (mapDelete m k) k' = mapGet m k' := by
  induction m with
  | nil => simp [mapDelete, mapGet]
  | cons hd tl ih =>
    obtain ⟨k₀, x⟩ := hd
    by_cases h₀ : k₀ = k
    · subst h₀
      simp [mapDelete, mapGet, Ne.symm h, ih]
    · by_cases h₁ : k₀ = k'
      · subst h₁
        simp [mapDelete, mapGet, h₀]
      · simp [mapDelete, mapGet, h₀, h₁, ih]

theorem mem_mapSet {α : Type} (m : List (String × α)) (k : String) (v : α)
    (x : String × α) (h : x ∈ mapSet m k v) : x ∈ m ∨ x = (k, v) := by
  induction m with
  | nil => simpa [mapSet] using h
  | cons hd tl ih =>
    obtain ⟨k', y⟩ := hd
    by_cases h' : k' = k
    · simp only [mapSet, h', if_true, List.mem_cons] at h
      rcases h with h | h
      · exact Or.inr h
      · exact Or.inl (List.mem_cons_of_mem _ h)
    · simp only [mapSet, h', if_false, List.mem_cons] at h
      rcases h with h | h
      · exact Or.inl (h ▸ List.mem_cons_self _ _)
      · rcases ih h with h | h
        · exact Or.inl (List.mem_cons_of_mem _ h)
        · exact Or.inr h

theorem mem_mapDelete {α : Type} (m : List (String × α)) (k : String)
    (x : String × α) (h : x ∈ mapDelete m k) : x ∈ m := by
  induction m with
  | nil => simp [mapDelete] at h
  | cons hd tl ih =>
    obtain ⟨k', y⟩ := hd
    by_cases h' : k' = k
    · simp only [mapDelete, h', if_true] at h
      exact List.mem_cons_of_mem _ (ih h)
    · simp only [mapDelete, h', if_false, List.mem_cons] at h
      rcases h with h | h
      · exact h ▸ List.mem_cons_self _ _
      · exact List.mem_cons_of_mem _ (ih h)

/-! ## Lemmas on the event log -/

theorem notable_append (l l' : List Event) : notable (l ++ l') = notable l ++ notable l' := by
  simp [notable]

theorem scheduled_append (l l' : List Event) :
    scheduled (l ++ l') = scheduled l ++ scheduled l' := by
  induction l with
  | nil => rfl
  | cons e l ih => cases e <;> simp [scheduled, ih]

theorem callbacks_append (l l' : List Event) :
    callbacks (l ++ l') = callbacks l ++ callbacks l' := by
  induction l with
  | nil => rfl
  | cons e l ih => cases e <;> simp [callbacks, ih]

theorem fetches_append (l l' : List Event) :
    fetches (l ++ l') = fetches l ++ fetches l' := by
  induction l with
  | nil => rfl
  | cons e l ih => cases e <;> simp [fetches, ih]

theorem errorBlocks_append (l l' : List Event) :
    errorBlocks (l ++ l') = errorBlocks l ++ errorBlocks l' := by
  induction l with
  | nil => rfl
  | cons e l ih =>
    cases e with
    | innerHTML c m => cases m <;> simp [errorBlocks, ih]
    | _ => simp [errorBlocks, ih]

theorem cacheWrites_append (l l' : List Event) :
    cacheWrites (l ++ l') = cacheWrites l ++ cacheWrites l' := by
  induction l with
  | nil => rfl
  | cons e l ih => cases e <;> simp [cacheWrites, ih]

theorem consoleErrors_append (l l' : List Event) :
    consoleErrors (l ++ l') = consoleErrors l ++ consoleErrors l' := by
  induction l with
  | nil => rfl
  | cons e l ih => cases e <;> simp [consoleErrors, ih]

theorem scheduled_notable (l : List Event) : scheduled (notable l) = scheduled l := by
  induction l with
  | nil => rfl
  | cons e l ih =>
    cases e with
    | innerHTML c m => cases m <;> simp_all [notable, Event.notable, scheduled]
    | _ => simp_all [notable, Event.notable, scheduled]

theorem callbacks_notable (l : List Event) : callbacks (notable l) = callbacks l := by
  induction l with
  | nil => rfl
  | cons e l ih =>
    cases e with
    | innerHTML c m => cases m <;> simp_all [notable, Event.notable, callbacks]
    | _ => simp_all [notable, Event.notable, callbacks]

theorem fetches_notable (l : List Event) : fetches (notable l) = fetches l := by
  induction l with
  | nil => rfl
  | cons e l ih =>
    cases e with
    | innerHTML c m => cases m <;> simp_all [notable, Event.notable, fetches]
    | _ => simp_all [notable, Event.notable, fetches]

theorem errorBlocks_notable (l : List Event) : errorBlocks (notable l) = errorBlocks l := by
  induction l with
  | nil => rfl
  | cons e l ih =>
    cases e with
    | innerHTML c m => cases m <;> simp_all [notable, Event.notable, errorBlocks]
    | _ => simp_all [notable, Event.notable, errorBlocks]

theorem cacheWrites_notable (l : List Event) : cacheWrites (notable l) = cacheWrites l := by
  induction l with
  | nil => rfl
  | cons e l ih =>
    cases e with
    | innerHTML c m => cases m <;> simp_all [notable, Event.notable, cacheWrites]
    | _ => simp_all [notable, Event.notable, cacheWrites]

/-! ## What each method leaves unchanged -/

@[simp]
theorem emit_events (p : Page) (e : Event) : (emit p e).events = p.events ++ [e] := rfl
@[simp]
theorem emit_retryAttempts (p : Page) (e : Event) :
    (emit p e).retryAttempts = p.retryAttempts := rfl
@[simp]
theorem emit_maxRetries (p : Page) (e : Event) : (emit p e).maxRetries = p.maxRetries := rfl
@[simp]
theorem emit_localStorage (p : Page) (e : Event) :
    (emit p e).localStorage = p.localStorage := rfl
@[simp]
theorem emit_document (p : Page) (e : Event) : (emit p e).document = p.document := rfl

theorem skeletonMarkup_notable (c t : String) :
    Event.notable (.innerHTML c (skeletonMarkup t)) = false := by
  unfold skeletonMarkup
  split_ifs <;> rfl

@[simp]
theorem showLoadingSkeleton_retryAttempts (p : Page) (c : String) (t : Option String) :
    (showLoadingSkeleton p c t).retryAttempts = p.retryAttempts := by
  unfold showLoadingSkeleton; split <;> rfl

@[simp]
theorem showLoadingSkeleton_maxRetries (p : Page) (c : String) (t : Option String) :
    (showLoadingSkeleton p c t).maxRetries = p.maxRetries := by
  unfold showLoadingSkeleton; split <;> rfl

@[simp]
theorem showLoadingSkeleton_localStorage (p : Page) (c : String) (t : Option String) :
    (showLoadingSkeleton p c t).localStorage = p.localStorage := by
  unfold showLoadingSkeleton; split <;> rfl

@[simp]
theorem startLoadingIndicator_retryAttempts (p : Page) (c : String) :
    (startLoadingIndicator p c).retryAttempts = p.retryAttempts := by
  unfold startLoadingIndicator; split <;> [rfl; (split <;> rfl)]

@[simp]
theorem startLoadingIndicator_maxRetries (p : Page) (c : String) :
    (startLoadingIndicator p c).maxRetries = p.maxRetries := by
  unfold startLoadingIndicator; split <;> [rfl; (split <;> rfl)]

@[simp]
theorem startLoadingIndicator_localStorage (p : Page) (c : String) :
    (startLoadingIndicator p c).localStorage = p.localStorage := by
  unfold startLoadingIndicator; split <;> [rfl; (split <;> rfl)]

@[simp]
theorem stopLoadingIndicator_retryAttempts (p : Page) (c : String) :
    (stopLoadingIndicator p c).retryAttempts = p.retryAttempts := by
  unfold stopLoadingIndicator; split <;> rfl

@[simp]
theorem stopLoadingIndicator_maxRetries (p : Page) (c : String) :
    (stopLoadingIndicator p c).maxRetries = p.maxRetries := by
  unfold stopLoadingIndicator; split <;> rfl

@[simp]
theorem stopLoadingIndicator_localStorage (p : Page) (c : String) :
    (stopLoadingIndicator p c).localStorage = p.localStorage := by
  unfold stopLoadingIndicator; split <;> rfl

@[simp]
theorem showError_retryAttempts (p : Page) (c m : String) :
    (showError p c m).retryAttempts = p.retryAttempts := by
  unfold showError; split <;> rfl

@[simp]
theorem showError_maxRetries (p : Page) (c m : String) :
    (showError p c m).maxRetries = p.maxRetries := by
  unfold showError; split <;> rfl

@[simp]
theorem showError_localStorage (p : Page) (c m : String) :
    (showError p c m).localStorage = p.localStorage := by
  unfold showError; split <;> rfl

@[simp]
theorem getCachedData_retryAttempts (p : Page) (k : String) (ttl now : Int) :
    (getCachedData p k ttl now).2.retryAttempts = p.retryAttempts := by
  simp only [getCachedData]; split <;> [rfl; rfl; rfl; rfl; (split <;> rfl)]

@[simp]
theorem getCachedData_maxRetries (p : Page) (k : String) (ttl now : Int) :
    (getCachedData p k ttl now).2.maxRetries = p.maxRetries := by
  simp only [getCachedData]; split <;> [rfl; rfl; rfl; rfl; (split <;> rfl)]

@[simp]
theorem getCachedData_document (p : Page) (k : String) (ttl now : Int) :
    (getCachedData p k ttl now).2.document = p.document := by
  simp only [getCachedData]; split <;> [rfl; rfl; rfl; rfl; (split <;> rfl)]

@[simp]
theorem setCachedData_retryAttempts (p : Page) (k : String) (d : JVal) (now : Int) (q : Bool) :
    (setCachedData p k d now q).retryAttempts = p.retryAttempts := by
  unfold setCachedData; split <;> rfl

@[simp]
theorem setCachedData_maxRetries (p : Page) (k : String) (d : JVal) (now : Int) (q : Bool) :
    (setCachedData p k d now q).maxRetries = p.maxRetries := by
  unfold setCachedData; split <;> rfl

@[simp]
theorem setCachedData_document (p : Page) (k : String) (d : JVal) (now : Int) (q : Bool) :
    (setCachedData p k d now q).document = p.document := by
  unfold setCachedData; split <;> rfl

@[simp]
theorem invokeCallback_retryAttempts (p : Page) (a : LoadArgs) (d : JVal) :
    (invokeCallback p a d).1.retryAttempts = p.retryAttempts := by
  rfl

@[simp]
theorem invokeCallback_maxRetries (p : Page) (a : LoadArgs) (d : JVal) :
    (invokeCallback p a d).1.maxRetries = p.maxRetries := by
  rfl

@[simp]
theorem invokeCallback_localStorage (p : Page) (a : LoadArgs) (d : JVal) :
    (invokeCallback p a d).1.localStorage = p.localStorage := by
  rfl

@[simp]
theorem loadDataFinally_retryAttempts (p : Page) (a : LoadArgs) :
    (loadDataFinally p a).retryAttempts = p.retryAttempts := by
  simp [loadDataFinally]

@[simp]
theorem loadDataFinally_maxRetries (p : Page) (a : LoadArgs) :
    (loadDataFinally p a).maxRetries = p.maxRetries := by
  simp [loadDataFinally]

@[simp]
theorem loadDataFinally_localStorage (p : Page) (a : LoadArgs) :
    (loadDataFinally p a).localStorage = p.localStorage := by
  simp [loadDataFinally]

@[simp]
theorem loadDataSkeleton_retryAttempts (p : Page) (a : LoadArgs) :
    (loadDataSkeleton p a).retryAttempts = p.retryAttempts := by
  unfold loadDataSkeleton; split <;> simp

@[simp]
theorem loadDataSkeleton_maxRetries (p : Page) (a : LoadArgs) :
    (loadDataSkeleton p a).maxRetries = p.maxRetries := by
  unfold loadDataSkeleton; split <;> simp

@[simp]
theorem loadDataSkeleton_localStorage (p : Page) (a : LoadArgs) :
    (loadDataSkeleton p a).localStorage = p.localStorage := by
  unfold loadDataSkeleton; split <;> simp

@[simp]
theorem loadDataRequest_retryAttempts (p : Page) (a : LoadArgs) :
    (loadDataRequest p a).retryAttempts = p.retryAttempts := by
  simp [loadDataRequest]

@[simp]
theorem loadDataRequest_maxRetries (p : Page) (a : LoadArgs) :
    (loadDataRequest p a).maxRetries = p.maxRetries := by
  simp [loadDataRequest]

@[simp]
theorem loadDataRequest_localStorage (p : Page) (a : LoadArgs) :
    (loadDataRequest p a).localStorage = p.localStorage := by
  simp [loadDataRequest]

@[simp]
theorem loadDataCache_retryAttempts (p : Page) (a : LoadArgs) (d : JVal) (now : Int) (q : Bool) :
    (loadDataCache p a d now q).retryAttempts = p.retryAttempts := by
  unfold loadDataCache; split <;> simp

@[simp]
theorem loadDataCache_maxRetries (p : Page) (a : LoadArgs) (d : JVal) (now : Int) (q : Bool) :
    (loadDataCache p a d now q).maxRetries = p.maxRetries := by
  unfold loadDataCache; split <;> simp

@[simp]
theorem loadDataCache_document (p : Page) (a : LoadArgs) (d : JVal) (now : Int) (q : Bool) :
    (loadDataCache p a d now q).document = p.document := by
  unfold loadDataCache; split <;> simp

@[simp]
theorem loadDataCatch_maxRetries (p : Page) (a : LoadArgs) (m : String) :
    (loadDataCatch p a m).maxRetries = p.maxRetries := by
  simp only [loadDataCatch]; split <;> [(split <;> simp); simp]

@[simp]
theorem loadDataCatch_localStorage (p : Page) (a : LoadArgs) (m : String) :
    (loadDataCatch p a m).localStorage = p.localStorage := by
  simp only [loadDataCatch]; split <;> [(split <;> simp); simp]

/-! ## What each method adds to the notable steps -/

@[simp]
theorem showLoadingSkeleton_notable (p : Page) (c : String) (t : Option String) :
    notable (showLoadingSkeleton p c t).events = notable p.events := by
  unfold showLoadingSkeleton
  split
  · rfl
  · simp [notable, skeletonMarkup_notable]

@[simp]
theorem startLoadingIndicator_notable (p : Page) (c : String) :
    notable (startLoadingIndicator p c).events = notable p.events := by
  unfold startLoadingIndicator
  split
  · rfl
  · split
    · rfl
    · simp [notable, Event.notable]

@[simp]
theorem stopLoadingIndicator_notable (p : Page) (c : String) :
    notable (stopLoadingIndicator p c).events = notable p.events := by
  unfold stopLoadingIndicator
  split
  · simp [notable, Event.notable]
  · rfl

@[simp]
theorem getCachedData_notable (p : Page) (k : String) (ttl now : Int) :
    notable (getCachedData p k ttl now).2.events = notable p.events := by
  simp only [getCachedData]
  split <;> [skip; skip; skip; skip; split] <;> simp [notable, Event.notable]

@[simp]
theorem setCachedData_notable (p : Page) (k : String) (d : JVal) (now : Int) (q : Bool) :
    notable (setCachedData p k d now q).events =
      notable p.events ++ (if q then [] else [.setItem (storageKey k) (cacheEntry d now)]) := by
  unfold setCachedData
  split <;> simp [notable, Event.notable]

@[simp]
theorem invokeCallback_notable (p : Page) (a : LoadArgs) (d : JVal) :
    notable (invokeCallback p a d).1.events =
      notable p.events ++ [.updateCallback d a.containerId] := by
  simp [invokeCallback, notable, Event.notable]

@[simp]
theorem showError_notable (p : Page) (c m : String) :
    notable (showError p c m).events =
      notable p.events ++
        (if (mapGet p.document c).isSome then [.innerHTML c (.errorBlock m)] else []) := by
  unfold showError
  split <;> simp_all [notable, Event.notable]

@[simp]
theorem loadDataFinally_notable (p : Page) (a : LoadArgs) :
    notable (loadDataFinally p a).events = notable p.events := by
  simp [loadDataFinally]

@[simp]
theorem loadDataSkeleton_notable (p : Page) (a : LoadArgs) :
    notable (loadDataSkeleton p a).events = notable p.events := by
  unfold loadDataSkeleton
  split <;> simp

@[simp]
theorem loadDataRequest_notable (p : Page) (a : LoadArgs) :
    notable (loadDataRequest p a).events = notable p.events ++ [.fetch a.endpoint] := by
  simp [loadDataRequest, notable_append, notable, Event.notable]
  exact startLoadingIndicator_notable p a.containerId

/-! ## The `catch` block -/

theorem loadDataCatch_retry (p : Page) (a : LoadArgs) (m : String)
    (hr : a.options.retryOnError.getD true = true)
    (hlt : (mapGet p.retryAttempts a.endpoint).getD 0 < p.maxRetries) :
    (loadDataCatch p a m).retryAttempts =
        mapSet p.retryAttempts a.endpoint ((mapGet p.retryAttempts a.endpoint).getD 0 + 1) ∧
      notable (loadDataCatch p a m).events =
        notable p.events ++
          [.setTimeout (2 ^ (mapGet p.retryAttempts a.endpoint).getD 0 * 1000) a] ∧
      (loadDataCatch p a m).document = p.document := by
  simp only [loadDataCatch, hr, if_true, emit_retryAttempts, emit_maxRetries, hlt]
  simp [notable, Event.notable]

theorem loadDataCatch_noRetry (p : Page) (a : LoadArgs) (m : String)
    (h : a.options.retryOnError.getD true = false ∨
      ¬ (mapGet p.retryAttempts a.endpoint).getD 0 < p.maxRetries) :
    loadDataCatch p a m =
      showError (emit p (.consoleError ("❌ Error loading data from " ++ a.endpoint ++ ":") m))
        a.containerId m := by
  simp only [loadDataCatch, emit_retryAttempts, emit_maxRetries]
  rcases h with h | h
  · simp [h]
  · simp [h]

/-! ## The shape of a `loadData` call -/

theorem loadDataBegin_none (p : Page) (a : LoadArgs) (now : Int)
    (h : (loadDataBegin p a now).2 = none) :
    (loadDataBegin p a now).1.retryAttempts = p.retryAttempts ∧
      (loadDataBegin p a now).1.maxRetries = p.maxRetries ∧
      notable (loadDataBegin p a now).1.events = notable p.events ++ [.fetch a.endpoint] := by
  simp only [loadDataBegin] at h ⊢
  split at h
  · simp_all
  · split at h
    · simp_all
    · split at h
      · split at h <;> simp at h
      · simp_all

theorem loadDataBegin_failed (p : Page) (a : LoadArgs) (now : Int) (m : String)
    (h : (loadDataBegin p a now).2 = some (.failed m)) :
    ∃ p' d, (loadDataBegin p a now).1 = loadDataFinally (loadDataCatch p' a m) a ∧
      p'.retryAttempts = p.retryAttempts ∧ p'.maxRetries = p.maxRetries ∧
      notable p'.events = notable p.events ++ [.updateCallback d a.containerId] := by
  simp only [loadDataBegin] at h ⊢
  split at h
  · simp at h
  · split at h
    · simp at h
    · split at h
      · split at h
        · rename_i _ key _ _ cached _ _ _ message _
          simp only [loadDataFail, Option.some.injEq, Outcome.failed.injEq] at h
          subst h
          refine ⟨(invokeCallback (getCachedData (loadDataSkeleton p a) key
            (a.options.ttl.getD 60000) now).2 a cached).1, cached, ?_, ?_, ?_, ?_⟩
          · simp_all [loadDataFail]
          · simp
          · simp
          · simp
        · simp at h
      · simp at h

theorem loadDataBegin_cacheHit (p : Page) (a : LoadArgs) (now : Int)
    (h : (loadDataBegin p a now).2 = some .cacheHit) :
    (loadDataBegin p a now).1.retryAttempts = p.retryAttempts ∧
      (loadDataBegin p a now).1.maxRetries = p.maxRetries ∧
      ∃ d, notable (loadDataBegin p a now).1.events =
        notable p.events ++ [.updateCallback d a.containerId] := by
  simp only [loadDataBegin] at h ⊢
  split at h
  · simp at h
  · split at h
    · simp at h
    · split at h
      · split at h
        · simp [loadDataFail] at h
        · rename_i key _ cached _ _ _
          simp_all
      · simp at h

theorem loadDataBegin_ne_success (p : Page) (a : LoadArgs) (now : Int) :
    (loadDataBegin p a now).2 ≠ some .success := by
  simp only [loadDataBegin]
  split
  · simp
  · split
    · simp
    · split
      · split <;> simp [loadDataFail]
      · simp

@[simp]
theorem loadDataCache_notable (p : Page) (a : LoadArgs) (d : JVal) (now : Int)
    (q : Bool) :
    notable (loadDataCache p a d now q).events =
      notable p.events ++
        (match truthyKey a.options.cacheKey with
         | none => []
         | some key => if q then [] else [.setItem (storageKey key) (cacheEntry d now)]) := by
  unfold loadDataCache
  split <;> simp

theorem loadDataOnResponse_none (p : Page) (a : LoadArgs) (r : FetchResult)
    (h : (loadDataOnResponse p a r).2 = none) :
    (loadDataOnResponse p a r).1 = p ∧ ∃ status statusText, r = .response true status statusText := by
  unfold loadDataOnResponse at h ⊢
  split at h
  · simp at h
  · split at h
    · simp_all
    · simp at h

theorem loadDataOnResponse_some (p : Page) (a : LoadArgs) (r : FetchResult) (o : Outcome)
    (h : (loadDataOnResponse p a r).2 = some o) :
    ∃ m, o = .failed m ∧ (loadDataOnResponse p a r).1 = loadDataFinally (loadDataCatch p a m) a := by
  unfold loadDataOnResponse at h ⊢
  split at h
  · simp only [loadDataFail, Option.some.injEq] at h
    exact ⟨_, h.symm, rfl⟩
  · split at h
    · simp at h
    · simp only [loadDataFail, Option.some.injEq] at h
      rename_i hok
      simp only [hok, loadDataFail]
      exact ⟨_, h.symm, rfl⟩

theorem loadDataOnBody_failed (p : Page) (a : LoadArgs) (b : BodyResult) (now : Int)
    (q : Bool) (m : String) (h : (loadDataOnBody p a b now q).2 = .failed m) :
    ∃ p' X, (loadDataOnBody p a b now q).1 = loadDataFinally (loadDataCatch p' a m) a ∧
      p'.retryAttempts = p.retryAttempts ∧ p'.maxRetries = p.maxRetries ∧
      notable p'.events = notable p.events ++ X ∧ scheduled X = [] ∧ errorBlocks X = [] := by
  unfold loadDataOnBody at h ⊢
  split at h
  · simp only [loadDataFail, Outcome.failed.injEq] at h
    subst h
    exact ⟨p, [], rfl, rfl, rfl, by simp, rfl, rfl⟩
  · simp only at h ⊢
    split at h
    · rename_i data _ message hthrown
      simp only [loadDataFail, Outcome.failed.injEq] at h
      subst h
      simp only [hthrown, loadDataFail]
      refine ⟨_, (match truthyKey a.options.cacheKey with
          | none => []
          | some key => if q then [] else [.setItem (storageKey key) (cacheEntry data now)]) ++
          [.updateCallback data a.containerId], rfl, by simp, by simp, ?_, ?_, ?_⟩
      · simp only [invokeCallback_notable, loadDataCache_notable, List.append_assoc]
      · split <;> [rfl; (split <;> rfl)]
      · split <;> [rfl; (split <;> rfl)]
    · simp at h

theorem loadDataOnBody_success (p : Page) (a : LoadArgs) (b : BodyResult) (now : Int)
    (q : Bool) (h : (loadDataOnBody p a b now q).2 = .success) :
    ∃ d, b = .parsed d ∧
      (loadDataOnBody p a b now q).1 =
        loadDataFinally
          { (invokeCallback (loadDataCache p a d now q) a d).1 with
            retryAttempts :=
              mapDelete (invokeCallback (loadDataCache p a d now q) a d).1.retryAttempts
                a.endpoint } a := by
  unfold loadDataOnBody at h ⊢
  split at h
  · simp [loadDataFail] at h
  · simp only at h ⊢
    split at h
    · simp [loadDataFail] at h
    · rename_i data _ hnone
      exact ⟨data, rfl, by simp only [hnone]⟩

theorem loadDataOnBody_ne_cacheHit (p : Page) (a : LoadArgs) (b : BodyResult) (now : Int)
    (q : Bool) : (loadDataOnBody p a b now q).2 ≠ .cacheHit := by
  unfold loadDataOnBody
  split
  · simp [loadDataFail]
  · simp only
    split <;> simp [loadDataFail]

/-- A failed call is the `catch` block followed by the `finally` block, run on a
page that differs from the initial one by neither retry counts nor retries
scheduled nor error blocks. -/
theorem loadData_failed_shape (p : Page) (a : LoadArgs) (env : CallEnv) (m : String)
    (h : (loadData p a env).2 = .failed m) :
    ∃ p' X, (loadData p a env).1 = loadDataFinally (loadDataCatch p' a m) a ∧
      p'.retryAttempts = p.retryAttempts ∧ p'.maxRetries = p.maxRetries ∧
      notable p'.events = notable p.events ++ X ∧ scheduled X = [] ∧ errorBlocks X = [] := by
  simp only [loadData] at h ⊢
  split at h
  · rename_i o ho
    simp only at h
    subst h
    obtain ⟨p', d, h₁, h₂, h₃, h₄⟩ := loadDataBegin_failed p a env.readTime m ho
    exact ⟨p', _, by simp only [ho, h₁], h₂, h₃, h₄, rfl, rfl⟩
  · rename_i hb
    obtain ⟨b₁, b₂, b₃⟩ := loadDataBegin_none p a env.readTime hb
    split at h
    · rename_i o ho
      simp only at h
      subst h
      obtain ⟨m', hm, hp⟩ := loadDataOnResponse_some _ a env.fetchResult _ ho
      simp only [Outcome.failed.injEq] at hm
      subst hm
      simp only [ho]
      exact ⟨_, _, hp, b₁, b₂, b₃, rfl, rfl⟩
    · rename_i hr
      obtain ⟨r₁, -⟩ := loadDataOnResponse_none _ a env.fetchResult hr
      simp only [hr, r₁] at h ⊢
      obtain ⟨p', X, h₁, h₂, h₃, h₄, h₅, h₆⟩ :=
        loadDataOnBody_failed _ a env.body env.writeTime env.quotaExceeded m h
      refine ⟨p', [.fetch a.endpoint] ++ X, h₁, h₂.trans b₁, h₃.trans b₂, ?_, ?_, ?_⟩
      · rw [h₄, b₃, List.append_assoc]
      · rw [scheduled_append, h₅]; rfl
      · rw [errorBlocks_append, h₆]; rfl

/-! ## The TTL cache: fresh and stale reads -/

/-- Claim C1. For every cache key `k`, JSON value `d`, time-to-live `ttl` and
times `t`, `t'` with `t' - t ≤ ttl` (the boundary `t' = t + ttl` included):
after `setCachedData(k, d)` has written its entry at time `t` (the storage
accepting the write), `getCachedData(k, ttl)` at time `t'` returns `d` and
leaves the stored entry in place. -/
theorem getCachedData_fresh (p : Page) (k : String) (d : JVal) (ttl t t' : Int)
    (hfresh : t' - t ≤ ttl) :
    (getCachedData (setCachedData p k d t false) k ttl t').1 = .json d ∧
      (getCachedData (setCachedData p k d t false) k ttl t').2.localStorage =
        (setCachedData p k d t false).localStorage ∧
      mapGet (getCachedData (setCachedData p k d t false) k ttl t').2.localStorage
        (storageKey k) = some (cacheEntry d t) := by
  have hget : mapGet (setCachedData p k d t false).localStorage (storageKey k) =
      some (cacheEntry d t) := by
    simp [setCachedData, mapGet_mapSet_self]
  have hns : ¬ (toDouble (t' - t) > toDouble ttl) := not_lt.mpr (toDouble_mono hfresh)
  simp only [getCachedData, emit_localStorage, hget, cacheEntry]
  simp [JVal.prop, mapGet, toNumber, isStale, hns, cacheEntry, hget]

/-- Witness for `getCachedData_fresh`: the falsy value `0`, read exactly at `t + ttl`. -/
theorem getCachedData_fresh_witness :
    (6000 : Int) - 1000 ≤ 5000 ∧
      (getCachedData (setCachedData samplePage "x" (.num 0) 1000 false) "x" 5000 6000).1 =
        .json (.num 0) :=
  ⟨by decide, (getCachedData_fresh samplePage "x" (.num 0) 5000 1000 6000 (by decide)).1⟩

/-- An age below `2 ^ 53` in absolute value is computed exactly, so it exceeds
the time-to-live as a double when it exceeds it as an integer. -/
theorem toDouble_gt_of_gt {age ttl : Int} (hsafe : age.natAbs < 2 ^ 53) (h : age > ttl) :
    toDouble age > toDouble ttl := by
  rw [toDouble_of_natAbs_lt hsafe]
  by_cases hl : -2 ^ 53 ≤ ttl
  · rw [toDouble_of_abs_le hl (by omega)]
    exact h
  · have := toDouble_le (b := -2 ^ 53) (x := ttl) (Int.le_refl _) (by decide) (by omega)
    omega

/-- Claim C2 (counterexample to the claim as stated). An entry written at
time `-8640000000000000` and read at time `400000000000001`, both values of
`Date.now()` within the range of `Date`, with a time-to-live of
`9040000000000000`: the age `9040000000000001` exceeds the time-to-live, but
the subtraction of doubles yields `9040000000000000`, so the entry is served
and stays in the storage. -/
theorem getCachedData_serves_entry_past_ttl :
    (400000000000001 : Int) - (-8640000000000000) > 9040000000000000 ∧
      toDouble (400000000000001 - (-8640000000000000)) = 9040000000000000 ∧
      (getCachedData (setCachedData samplePage "x" (.num 7) (-8640000000000000) false) "x"
        9040000000000000 400000000000001).1 = .json (.num 7) ∧
      mapGet (getCachedData (setCachedData samplePage "x" (.num 7) (-8640000000000000) false)
        "x" 9040000000000000 400000000000001).2.localStorage (storageKey "x") =
        some (cacheEntry (.num 7) (-8640000000000000)) :=
  ⟨by decide, by decide, by rfl, by rfl⟩

/-- Claim C2 (as amended). For every cache key `k`, `ttl` and times `t`, `t'`
whose difference, as the code takes it in double arithmetic, exceeds `ttl`,
which it does whenever `t' - t > ttl` and `t' - t` is below `2 ^ 53` in
absolute value: if the entry for `k` was written at time `t`, then
`getCachedData(k, ttl)` at time `t'` returns `null`, removes the storage key
`progressive_cache_<k>`, and leaves every other storage key with its value. -/
theorem getCachedData_stale (p : Page) (k : String) (d : JVal) (ttl t t' : Int)
    (hwritten : mapGet p.localStorage (storageKey k) = some (cacheEntry d t))
    (hstale : toDouble (t' - t) > toDouble ttl ∨
      (t' - t > ttl ∧ (t' - t).natAbs < 2 ^ 53)) :
    (getCachedData p k ttl t').1 = .json .null ∧
      (getCachedData p k ttl t').2.localStorage = mapDelete p.localStorage (storageKey k) ∧
      mapGet (getCachedData p k ttl t').2.localStorage (storageKey k) = none ∧
      ∀ k', k' ≠ storageKey k →
        mapGet (getCachedData p k ttl t').2.localStorage k' = mapGet p.localStorage k' := by
  have hst : toDouble (t' - t) > toDouble ttl := by
    rcases hstale with h | ⟨h, hsafe⟩
    · exact h
    · exact toDouble_gt_of_gt hsafe h
  have h : getCachedData p k ttl t' =
      (.json .null,
        emit { emit p (.getItem (storageKey k)) with
                localStorage := mapDelete p.localStorage (storageKey k) }
          (.removeItem (storageKey k))) := by
    simp only [getCachedData, emit_localStorage, hwritten, cacheEntry]
    simp [JVal.prop, mapGet, toNumber, isStale, hst]
  rw [h]
  refine ⟨rfl, rfl, ?_, ?_⟩
  · exact mapGet_mapDelete_self _ _
  · intro k' hk'
    exact mapGet_mapDelete_ne _ _ _ hk'

/-- Witness for `getCachedData_stale`: an entry written at 1000 and read at 6001
with a time-to-live of 5000. -/
theorem getCachedData_stale_witness :
    mapGet (pageWithEntry (.num 7)).localStorage (storageKey "x") =
        some (cacheEntry (.num 7) 1000) ∧
      ((6001 : Int) - 1000 > 5000 ∧ ((6001 : Int) - 1000).natAbs < 2 ^ 53) ∧
      (getCachedData (pageWithEntry (.num 7)) "x" 5000 6001).1 = .json .null ∧
      mapGet (getCachedData (pageWithEntry (.num 7)) "x" 5000 6001).2.localStorage
        "progressive_cache_x" = none ∧
      mapGet (getCachedData (pageWithEntry (.num 7)) "x" 5000 6001).2.localStorage "theme" =
        some (.malformed "dark") :=
  have h := getCachedData_stale (pageWithEntry (.num 7)) "x" (.num 7) 5000 1000 6001
    (by rfl) (Or.inr (by decide))
  ⟨by rfl, by decide, h.1, h.2.2.1, (h.2.2.2 "theme" (by decide)).trans (by rfl)⟩

/-! ## Cache hits in `loadData` -/

/-- Claim C3 (the code at the failing inputs). With a valid cache entry for key
`x` holding `0`, `false`, the empty string or `null`, the cache read returns
that value, but `loadData` treats it as a miss: it invokes no callback with it
and issues the network request. -/
theorem loadData_refetches_falsy_cached_value :
    CachedValueRefetched (.num 0) ∧ CachedValueRefetched (.bool false) ∧
      CachedValueRefetched (.str "") ∧ CachedValueRefetched .null :=
  ⟨⟨rfl, rfl, rfl, rfl⟩, ⟨rfl, rfl, rfl, rfl⟩, ⟨rfl, rfl, rfl, rfl⟩, ⟨rfl, rfl, rfl, rfl⟩⟩

/-! ## Retry with exponential backoff -/

/-- The `finally` block after the `catch` block, when a retry is due: the
count goes up by one and one retry is scheduled. -/
theorem loadDataFail_retry (p : Page) (a : LoadArgs) (m : String)
    (hr : a.options.retryOnError.getD true = true)
    (hlt : (mapGet p.retryAttempts a.endpoint).getD 0 < p.maxRetries) :
    (loadDataFinally (loadDataCatch p a m) a).retryAttempts =
        mapSet p.retryAttempts a.endpoint ((mapGet p.retryAttempts a.endpoint).getD 0 + 1) ∧
      notable (loadDataFinally (loadDataCatch p a m) a).events =
        notable p.events ++
          [.setTimeout (2 ^ (mapGet p.retryAttempts a.endpoint).getD 0 * 1000) a] := by
  obtain ⟨h₁, h₂, -⟩ := loadDataCatch_retry p a m hr hlt
  simp [h₁, h₂]

/-- The `finally` block after the `catch` block, when no retry is due: the
counts stay and the error block is rendered when the container exists. -/
theorem loadDataFail_noRetry (p : Page) (a : LoadArgs) (m : String)
    (h : a.options.retryOnError.getD true = false ∨
      ¬ (mapGet p.retryAttempts a.endpoint).getD 0 < p.maxRetries) :
    (loadDataFinally (loadDataCatch p a m) a).retryAttempts = p.retryAttempts ∧
      notable (loadDataFinally (loadDataCatch p a m) a).events =
        notable p.events ++
          (if (mapGet p.document a.containerId).isSome then
            [.innerHTML a.containerId (.errorBlock m)] else []) := by
  rw [loadDataCatch_noRetry p a m h]
  refine ⟨by simp, ?_⟩
  rw [loadDataFinally_notable, showError_notable, emit_events, notable_append, emit_document]
  simp [notable, Event.notable]

/-- A failed call with a retry due: the count goes up by one, one retry is
scheduled with the backoff delay, and no error block is rendered. -/
theorem loadData_failed_retry (p : Page) (a : LoadArgs) (env : CallEnv)
    (m : String) (hfailed : (loadData p a env).2 = .failed m)
    (hretry : a.options.retryOnError.getD true = true)
    (hlt : (mapGet p.retryAttempts a.endpoint).getD 0 < p.maxRetries) :
    (loadData p a env).1.retryAttempts =
        mapSet p.retryAttempts a.endpoint ((mapGet p.retryAttempts a.endpoint).getD 0 + 1) ∧
      (loadData p a env).1.maxRetries = p.maxRetries ∧
      scheduled (loadData p a env).1.events =
        scheduled p.events ++ [(2 ^ (mapGet p.retryAttempts a.endpoint).getD 0 * 1000, a)] ∧
      errorBlocks (loadData p a env).1.events = errorBlocks p.events := by
  obtain ⟨p', X, hq, hra, hmax, hev, hs, he⟩ := loadData_failed_shape p a env m hfailed
  have hlt' : (mapGet p'.retryAttempts a.endpoint).getD 0 < p'.maxRetries := by
    rw [hra, hmax]; exact hlt
  obtain ⟨h₁, h₂⟩ := loadDataFail_retry p' a m hretry hlt'
  rw [hra] at h₁ h₂
  rw [hq]
  refine ⟨h₁, ?_, ?_, ?_⟩
  · simp [hmax]
  · rw [← scheduled_notable, h₂, hev, scheduled_append, scheduled_append, scheduled_notable, hs]
    simp [scheduled]
  · rw [← errorBlocks_notable, h₂, hev, errorBlocks_append, errorBlocks_append,
      errorBlocks_notable, he]
    simp [errorBlocks]

/-- Claim C4. For every endpoint whose current attempt count `n` (absent
counting as 0) satisfies `n < maxRetries`, a failed `loadData` call with
`retryOnError` true (given or by default) sets the endpoint's attempt count to
`n + 1`, schedules exactly one re-invocation of `loadData` with the same four
arguments after exactly `2 ^ n * 1000` milliseconds, and renders no error block. -/
theorem loadData_failure_schedules_retry (p : Page) (a : LoadArgs) (env : CallEnv)
    (m : String) (hfailed : (loadData p a env).2 = .failed m)
    (hretry : a.options.retryOnError.getD true = true)
    (hlt : (mapGet p.retryAttempts a.endpoint).getD 0 < p.maxRetries) :
    mapGet (loadData p a env).1.retryAttempts a.endpoint =
        some ((mapGet p.retryAttempts a.endpoint).getD 0 + 1) ∧
      (loadData p a env).1.retryAttempts =
        mapSet p.retryAttempts a.endpoint ((mapGet p.retryAttempts a.endpoint).getD 0 + 1) ∧
      scheduled (loadData p a env).1.events =
        scheduled p.events ++ [(2 ^ (mapGet p.retryAttempts a.endpoint).getD 0 * 1000, a)] ∧
      errorBlocks (loadData p a env).1.events = errorBlocks p.events := by
  obtain ⟨h₁, -, h₃, h₄⟩ := loadData_failed_retry p a env m hfailed hretry hlt
  exact ⟨by rw [h₁]; exact mapGet_mapSet_self _ _ _, h₁, h₃, h₄⟩

/-- Witness for `loadData_failure_schedules_retry`: the first failure of
`/api/x` on a fresh loader schedules the retry after 1000 ms. -/
theorem loadData_failure_schedules_retry_witness :
    (loadData samplePage plainArgs failingEnv).2 = .failed "HTTP 500: Internal Server Error" ∧
      mapGet (loadData samplePage plainArgs failingEnv).1.retryAttempts "/api/x" = some 1 ∧
      scheduled (loadData samplePage plainArgs failingEnv).1.events = [(1000, plainArgs)] ∧
      errorBlocks (loadData samplePage plainArgs failingEnv).1.events = [] :=
  have h := loadData_failure_schedules_retry samplePage plainArgs failingEnv
    "HTTP 500: Internal Server Error" (by decide) (by decide) (by decide)
  ⟨by decide, h.1, h.2.2.1, h.2.2.2⟩

/-! ## The error block -/

theorem mapGet_removeIndicator_none (doc : Document) (x c : String)
    (h : mapGet doc c = none) : mapGet (removeIndicator doc x) c = none := by
  induction doc with
  | nil => rfl
  | cons hd tl ih =>
    obtain ⟨id, ch⟩ := hd
    by_cases hid : id = c
    · simp [mapGet, hid] at h
    · simp only [mapGet, hid, if_false] at h
      by_cases hm : Node.indicator x ∈ ch <;> simp [removeIndicator, hm, mapGet, hid, h, ih]

theorem mapGet_removeIndicator_of_not_mem (doc : Document) (x c : String) (ch : List Node)
    (h : mapGet doc c = some ch) (hn : Node.indicator x ∉ ch) :
    mapGet (removeIndicator doc x) c = some ch := by
  induction doc with
  | nil => simp [mapGet] at h
  | cons hd tl ih =>
    obtain ⟨id, ch'⟩ := hd
    by_cases hid : id = c
    · simp only [mapGet, hid, if_true, Option.some.injEq] at h
      subst h
      simp [removeIndicator, hn, mapGet, hid]
    · simp only [mapGet, hid, if_false] at h
      by_cases hm : Node.indicator x ∈ ch' <;> simp [removeIndicator, hm, mapGet, hid, h, ih]

theorem mapGet_stopLoadingIndicator_none (p : Page) (x c : String)
    (h : mapGet p.document c = none) : mapGet (stopLoadingIndicator p x).document c = none := by
  unfold stopLoadingIndicator
  split
  · exact mapGet_removeIndicator_none _ _ _ h
  · exact h

theorem mapGet_stopLoadingIndicator_of_not_mem (p : Page) (x c : String) (ch : List Node)
    (h : mapGet p.document c = some ch) (hn : Node.indicator x ∉ ch) :
    mapGet (stopLoadingIndicator p x).document c = some ch := by
  unfold stopLoadingIndicator
  split
  · exact mapGet_removeIndicator_of_not_mem _ _ _ _ h hn
  · exact h

/-- After `showError` and the `finally` block the container, if the document
has it, holds the error block and nothing else. -/
theorem loadDataFinally_showError_document (p : Page) (a : LoadArgs) (m : String) :
    mapGet (loadDataFinally (showError p a.containerId m) a).document a.containerId =
      (mapGet p.document a.containerId).map (fun _ => [.markup (.errorBlock m)]) := by
  cases h : mapGet p.document a.containerId with
  | none =>
    have : showError p a.containerId m = p := by simp [showError, h]
    rw [this]
    simpa [loadDataFinally] using mapGet_stopLoadingIndicator_none p _ _ h
  | some ch =>
    have hd : mapGet (showError p a.containerId m).document a.containerId =
        some [.markup (.errorBlock m)] := by
      simp [showError, h, mapGet_mapSet_self]
    simpa [loadDataFinally] using
      mapGet_stopLoadingIndicator_of_not_mem _ a.containerId _ _ hd (by simp)

/-- A failed call with no retry due: nothing is scheduled, the counts stay, and
the container, when the document has it, holds the error block. -/
theorem loadData_failed_noRetry (p : Page) (a : LoadArgs) (env : CallEnv)
    (m : String) (hfailed : (loadData p a env).2 = .failed m)
    (hno : a.options.retryOnError.getD true = false ∨
      p.maxRetries ≤ (mapGet p.retryAttempts a.endpoint).getD 0) :
    scheduled (loadData p a env).1.events = scheduled p.events ∧
      (loadData p a env).1.retryAttempts = p.retryAttempts ∧
      (loadData p a env).1.maxRetries = p.maxRetries ∧
      (∀ children, mapGet (loadData p a env).1.document a.containerId = some children →
        children = [.markup (.errorBlock m)]) ∧
      errorBlocks (loadData p a env).1.events =
        errorBlocks p.events ++
          (if (mapGet (loadData p a env).1.document a.containerId).isSome then
            [(a.containerId, m)] else []) := by
  obtain ⟨p', X, hq, hra, hmax, hev, hs, he⟩ := loadData_failed_shape p a env m hfailed
  have hno' : a.options.retryOnError.getD true = false ∨
      ¬ (mapGet p'.retryAttempts a.endpoint).getD 0 < p'.maxRetries := by
    rw [hra, hmax]
    exact hno.imp id not_lt.mpr
  obtain ⟨h₁, h₂⟩ := loadDataFail_noRetry p' a m hno'
  have hdoc := loadDataFinally_showError_document
    (emit p' (.consoleError ("❌ Error loading data from " ++ a.endpoint ++ ":") m)) a m
  rw [← loadDataCatch_noRetry p' a m hno', ← hq, emit_document] at hdoc
  rw [← hq] at h₁ h₂
  have hsome : (mapGet (loadData p a env).1.document a.containerId).isSome =
      (mapGet p'.document a.containerId).isSome := by
    rw [hdoc]; cases mapGet p'.document a.containerId <;> rfl
  refine ⟨?_, h₁.trans hra, by rw [hq]; simp [hmax], ?_, ?_⟩
  · rw [← scheduled_notable, h₂, hev, scheduled_append, scheduled_append, scheduled_notable, hs]
    split <;> simp [scheduled]
  · intro children hch
    rw [hdoc] at hch
    cases hp : mapGet p'.document a.containerId with
    | none => simp [hp] at hch
    | some ch => simpa [hp] using hch.symm
  · rw [← errorBlocks_notable, h₂, hev, errorBlocks_append, errorBlocks_append,
      errorBlocks_notable, he, hsome]
    split <;> simp [errorBlocks]

/-- Claim C10. For every failing `loadData` call with `retryOnError` false, and
for every failing call with `retryOnError` true whose endpoint's attempt count
has reached `maxRetries`: no retry is scheduled, the `retryAttempts` map is left
unchanged, and the container (when the document has it) holds the error block
with the error message and its Retry button in place of its former content. -/
theorem loadData_failure_renders_error (p : Page) (a : LoadArgs) (env : CallEnv)
    (m : String) (hfailed : (loadData p a env).2 = .failed m)
    (hno : a.options.retryOnError.getD true = false ∨
      p.maxRetries ≤ (mapGet p.retryAttempts a.endpoint).getD 0) :
    scheduled (loadData p a env).1.events = scheduled p.events ∧
      (loadData p a env).1.retryAttempts = p.retryAttempts ∧
      (∀ children, mapGet (loadData p a env).1.document a.containerId = some children →
        children = [.markup (.errorBlock m)]) ∧
      errorBlocks (loadData p a env).1.events =
        errorBlocks p.events ++
          (if (mapGet (loadData p a env).1.document a.containerId).isSome then
            [(a.containerId, m)] else []) := by
  obtain ⟨h₁, h₂, -, h₃, h₄⟩ := loadData_failed_noRetry p a env m hfailed hno
  exact ⟨h₁, h₂, h₃, h₄⟩

/-- Witness for `loadData_failure_renders_error`: with `retryOnError: false` the
first failure replaces the content of `c1` by the error block. -/
theorem loadData_failure_renders_error_witness :
    (loadData samplePage noRetryArgs failingEnv).2 = .failed "HTTP 500: Internal Server Error" ∧
      scheduled (loadData samplePage noRetryArgs failingEnv).1.events = [] ∧
      (loadData samplePage noRetryArgs failingEnv).1.retryAttempts = [] ∧
      mapGet (loadData samplePage noRetryArgs failingEnv).1.document "c1" =
        some [.markup (.errorBlock "HTTP 500: Internal Server Error")] ∧
      errorBlocks (loadData samplePage noRetryArgs failingEnv).1.events =
        [("c1", "HTTP 500: Internal Server Error")] :=
  have h := loadData_failure_renders_error samplePage noRetryArgs failingEnv
    "HTTP 500: Internal Server Error" (by decide) (Or.inl (by decide))
  ⟨by decide, h.1, h.2.1, by decide, h.2.2.2.trans (by decide)⟩

/-! ## Consecutive failures -/

theorem Outcome.isFailed_iff (o : Outcome) : o.isFailed = true ↔ ∃ m, o = .failed m := by
  cases o <;> simp [Outcome.isFailed]

/-- A chain of failing calls, as long as the count stays within `maxRetries`:
every failure adds one to the count and schedules one retry, the delay
doubling each time, and no error block is rendered. -/
theorem loadDataRun_failed (a : LoadArgs) (hretry : a.options.retryOnError.getD true = true) :
    ∀ (envs : List CallEnv) (p : Page) (c : Nat),
      (mapGet p.retryAttempts a.endpoint).getD 0 = c →
      c + envs.length ≤ p.maxRetries →
      (∀ o ∈ (loadDataRun p a envs).2, o.isFailed = true) →
      (mapGet (loadDataRun p a envs).1.retryAttempts a.endpoint).getD 0 = c + envs.length ∧
        (loadDataRun p a envs).1.maxRetries = p.maxRetries ∧
        scheduled (loadDataRun p a envs).1.events =
          scheduled p.events ++
            (List.range envs.length).map (fun i => (2 ^ (c + i) * 1000, a)) ∧
        errorBlocks (loadDataRun p a envs).1.events = errorBlocks p.events := by
  intro envs
  induction envs with
  | nil =>
    intro p c hc _ _
    simp [loadDataRun, hc]
  | cons env rest ih =>
    intro p c hc hle hfail
    simp only [loadDataRun, List.length_cons] at hle hfail ⊢
    obtain ⟨m, hm⟩ := (Outcome.isFailed_iff _).mp (hfail _ (List.mem_cons_self _ _))
    have hlt : (mapGet p.retryAttempts a.endpoint).getD 0 < p.maxRetries := by omega
    obtain ⟨h₁, h₂, h₃, h₄⟩ := loadData_failed_retry p a env m hm hretry hlt
    have hc' : (mapGet (loadData p a env).1.retryAttempts a.endpoint).getD 0 = c + 1 := by
      rw [h₁, mapGet_mapSet_self, hc]; rfl
    obtain ⟨i₁, i₂, i₃, i₄⟩ := ih (loadData p a env).1 (c + 1) hc' (by rw [h₂]; omega)
      (fun o ho => hfail o (List.mem_cons_of_mem _ ho))
    refine ⟨by rw [i₁]; omega, i₂.trans h₂, ?_, i₄.trans h₄⟩
    have hshift : (List.range (rest.length + 1)).map (fun i => (2 ^ (c + i) * 1000, a)) =
        (2 ^ c * 1000, a) :: (List.range rest.length).map
          (fun i => (2 ^ (c + 1 + i) * 1000, a)) := by
      rw [List.range_succ_eq_map, List.map_cons, List.map_map]
      refine congrArg₂ _ rfl (List.map_congr_left fun i _ => ?_)
      show (2 ^ (c + (i + 1)) * 1000, a) = (2 ^ (c + 1 + i) * 1000, a)
      rw [Nat.add_assoc, Nat.add_comm 1 i]
    rw [i₃, h₃, hc, hshift, List.append_assoc]
    rfl

/-- Claim C5 (as amended). Starting with no retry count for the endpoint, with
`retryOnError` true and every call failing: each of the first `maxRetries`
(three) failures schedules a retry, with delays 1000 ms, 2000 ms, 4000 ms
(`2 ^ i * 1000` after the failure number `i + 1`) and no error block; the
failure after those, number `maxRetries + 1` (the fourth), schedules no
further retry and renders the error block in the container. -/
theorem loadDataRun_backoff (p : Page) (a : LoadArgs)
    (hempty : mapGet p.retryAttempts a.endpoint = none)
    (hretry : a.options.retryOnError.getD true = true) :
    (∀ envs : List CallEnv, envs.length ≤ p.maxRetries →
      (∀ o ∈ (loadDataRun p a envs).2, o.isFailed = true) →
      scheduled (loadDataRun p a envs).1.events =
          scheduled p.events ++ (List.range envs.length).map (fun i => (2 ^ i * 1000, a)) ∧
        errorBlocks (loadDataRun p a envs).1.events = errorBlocks p.events) ∧
    (∀ (envs : List CallEnv) (env : CallEnv) (m : String), envs.length = p.maxRetries →
      (∀ o ∈ (loadDataRun p a envs).2, o.isFailed = true) →
      (loadData (loadDataRun p a envs).1 a env).2 = .failed m →
      scheduled (loadData (loadDataRun p a envs).1 a env).1.events =
          scheduled (loadDataRun p a envs).1.events ∧
        errorBlocks (loadData (loadDataRun p a envs).1 a env).1.events =
          errorBlocks p.events ++
            (if (mapGet (loadData (loadDataRun p a envs).1 a env).1.document
                a.containerId).isSome then [(a.containerId, m)] else []) ∧
        ∀ children,
          mapGet (loadData (loadDataRun p a envs).1 a env).1.document a.containerId =
            some children → children = [.markup (.errorBlock m)]) := by
  have hc : (mapGet p.retryAttempts a.endpoint).getD 0 = 0 := by rw [hempty]; rfl
  constructor
  · intro envs hlen hfail
    obtain ⟨-, -, h₃, h₄⟩ := loadDataRun_failed a hretry envs p 0 hc (by omega) hfail
    exact ⟨by simpa using h₃, h₄⟩
  · intro envs env m hlen hfail hlast
    obtain ⟨h₁, h₂, -, h₄⟩ := loadDataRun_failed a hretry envs p 0 hc (by omega) hfail
    obtain ⟨k₁, -, -, k₄, k₅⟩ := loadData_failed_noRetry (loadDataRun p a envs).1 a env m hlast
      (Or.inr (by rw [h₁, h₂]; omega))
    exact ⟨k₁, by rw [k₅, h₄], k₄⟩

/-- Witness for `loadDataRun_backoff` on a fresh loader: three failures of
`/api/x` schedule retries after 1000, 2000 and 4000 ms, and the fourth renders
the error block. -/
theorem loadDataRun_backoff_witness :
    mapGet samplePage.retryAttempts plainArgs.endpoint = none ∧
      plainArgs.options.retryOnError.getD true = true ∧
      scheduled (loadDataRun samplePage plainArgs [failingEnv, failingEnv, failingEnv]).1.events =
        [(1000, plainArgs), (2000, plainArgs), (4000, plainArgs)] ∧
      scheduled (loadData (loadDataRun samplePage plainArgs
          [failingEnv, failingEnv, failingEnv]).1 plainArgs failingEnv).1.events =
        [(1000, plainArgs), (2000, plainArgs), (4000, plainArgs)] ∧
      mapGet (loadData (loadDataRun samplePage plainArgs
          [failingEnv, failingEnv, failingEnv]).1 plainArgs failingEnv).1.document "c1" =
        some [.markup (.errorBlock "HTTP 500: Internal Server Error")] :=
  have h := loadDataRun_backoff samplePage plainArgs (by rfl) (by rfl)
  have h₁ := h.1 [failingEnv, failingEnv, failingEnv] (by decide) (by decide)
  have h₂ := h.2 [failingEnv, failingEnv, failingEnv] failingEnv
    "HTTP 500: Internal Server Error" (by rfl) (by decide) (by decide)
  ⟨by rfl, by rfl, h₁.1, h₂.1.trans h₁.1, by rfl⟩

/-- Claim C5 (counterexample to the claim as stated). On a fresh loader
(`maxRetries` 3) the third consecutive failure of `/api/x` does schedule a
further retry, after 4000 ms, and renders no error block. -/
theorem third_failure_schedules_retry :
    (loadDataRun samplePage plainArgs [failingEnv, failingEnv, failingEnv]).2 =
        [.failed "HTTP 500: Internal Server Error", .failed "HTTP 500: Internal Server Error",
         .failed "HTTP 500: Internal Server Error"] ∧
      (scheduled (loadDataRun samplePage plainArgs [failingEnv, failingEnv]).1.events).map
        Prod.fst = [1000, 2000] ∧
      (scheduled (loadDataRun samplePage plainArgs
        [failingEnv, failingEnv, failingEnv]).1.events).map Prod.fst = [1000, 2000, 4000] ∧
      errorBlocks (loadDataRun samplePage plainArgs
        [failingEnv, failingEnv, failingEnv]).1.events = [] := by
  decide

/-! ## Success resets the retry count -/

/-- A successful call deletes the endpoint's retry count and touches no other. -/
theorem loadData_success_shape (p : Page) (a : LoadArgs) (env : CallEnv)
    (h : (loadData p a env).2 = .success) :
    (loadData p a env).1.retryAttempts = mapDelete p.retryAttempts a.endpoint ∧
      (loadData p a env).1.maxRetries = p.maxRetries := by
  simp only [loadData] at h ⊢
  split at h
  · rename_i o ho
    simp only at h
    subst h
    exact absurd ho (loadDataBegin_ne_success p a env.readTime)
  · rename_i hb
    obtain ⟨b₁, b₂, -⟩ := loadDataBegin_none p a env.readTime hb
    split at h
    · rename_i o ho
      simp only at h
      subst h
      obtain ⟨m, hm, -⟩ := loadDataOnResponse_some _ a env.fetchResult _ ho
      cases hm
    · rename_i hr
      obtain ⟨r₁, -⟩ := loadDataOnResponse_none _ a env.fetchResult hr
      simp only [r₁] at h ⊢
      obtain ⟨d, -, hq⟩ := loadDataOnBody_success _ a env.body env.writeTime env.quotaExceeded h
      rw [hq]
      simp [b₁, b₂]

/-- Claim C6. For every endpoint and every prior attempt count, a `loadData` call
whose fetch succeeds (OK response, JSON parsed, `updateCallback` returns)
leaves the endpoint's retry entry absent, so that the next failure on that
endpoint (with `retryOnError` true, `maxRetries` being positive) schedules its
retry after 1000 ms. -/
theorem loadData_success_resets_retry (p : Page) (a : LoadArgs) (env : CallEnv)
    (hsuccess : (loadData p a env).2 = .success) (hmax : 0 < p.maxRetries) :
    mapGet (loadData p a env).1.retryAttempts a.endpoint = none ∧
      ∀ (a' : LoadArgs) (env' : CallEnv) (m : String), a'.endpoint = a.endpoint →
        a'.options.retryOnError.getD true = true →
        (loadData (loadData p a env).1 a' env').2 = .failed m →
        scheduled (loadData (loadData p a env).1 a' env').1.events =
          scheduled (loadData p a env).1.events ++ [(1000, a')] := by
  obtain ⟨h₁, h₂⟩ := loadData_success_shape p a env hsuccess
  have hnone : mapGet (loadData p a env).1.retryAttempts a.endpoint = none := by
    rw [h₁]; exact mapGet_mapDelete_self _ _
  refine ⟨hnone, ?_⟩
  intro a' env' m hep hretry hfailed
  have hc : (mapGet (loadData p a env).1.retryAttempts a'.endpoint).getD 0 = 0 := by
    rw [hep, hnone]; rfl
  obtain ⟨-, -, h₃, -⟩ := loadData_failed_retry (loadData p a env).1 a' env' m hfailed hretry
    (by rw [hc, h₂]; exact hmax)
  rw [h₃, hc]
  rfl

/-- Witness for `loadData_success_resets_retry`: after two failures of `/api/x`
(attempt count 2) a successful load removes the count, and the failure after
it schedules its retry after 1000 ms. -/
theorem loadData_success_resets_retry_witness :
    mapGet retriedPage.retryAttempts "/api/x" = some 2 ∧
      (loadData retriedPage plainArgs okEnv).2 = .success ∧
      mapGet (loadData retriedPage plainArgs okEnv).1.retryAttempts "/api/x" = none ∧
      scheduled (loadData (loadData retriedPage plainArgs okEnv).1 plainArgs failingEnv).1.events =
        scheduled (loadData retriedPage plainArgs okEnv).1.events ++ [(1000, plainArgs)] :=
  have h := loadData_success_resets_retry retriedPage plainArgs okEnv (by decide) (by decide)
  ⟨by decide, by decide, h.1,
    h.2 plainArgs failingEnv "HTTP 500: Internal Server Error" rfl (by decide) (by decide)⟩

/-! ## The retry counts stay within bounds -/

theorem CountsWithin.of_eq {bound : Nat} {p q : Page} (h : CountsWithin bound p)
    (hr : q.retryAttempts = p.retryAttempts) (hm : q.maxRetries = p.maxRetries) :
    CountsWithin bound q := by
  unfold CountsWithin
  rw [hr, hm]
  exact h

theorem CountsWithin.fail {bound : Nat} {p : Page} (h : CountsWithin bound p) (a : LoadArgs)
    (m : String) : CountsWithin bound (loadDataFinally (loadDataCatch p a m) a) := by
  by_cases hc : a.options.retryOnError.getD true = true ∧
      (mapGet p.retryAttempts a.endpoint).getD 0 < p.maxRetries
  · obtain ⟨h₁, -⟩ := loadDataFail_retry p a m hc.1 hc.2
    refine ⟨by simp [h.1], ?_⟩
    intro e n hmem
    rw [h₁] at hmem
    rcases mem_mapSet _ _ _ _ hmem with hmem | hmem
    · exact h.2 e n hmem
    · simp only [Prod.mk.injEq] at hmem
      have := hc.2
      rw [h.1] at this
      omega
  · have hno : a.options.retryOnError.getD true = false ∨
        ¬ (mapGet p.retryAttempts a.endpoint).getD 0 < p.maxRetries := by
      by_cases hr : a.options.retryOnError.getD true = true
      · exact Or.inr (fun hlt => hc ⟨hr, hlt⟩)
      · exact Or.inl (by simpa using hr)
    obtain ⟨h₁, -⟩ := loadDataFail_noRetry p a m hno
    exact h.of_eq h₁ (by simp)

theorem CountsWithin.begin {bound : Nat} {p : Page} (h : CountsWithin bound p) (a : LoadArgs)
    (now : Int) : CountsWithin bound (loadDataBegin p a now).1 := by
  cases ho : (loadDataBegin p a now).2 with
  | none =>
    obtain ⟨h₁, h₂, -⟩ := loadDataBegin_none p a now ho
    exact h.of_eq h₁ h₂
  | some o =>
    cases o with
    | cacheHit =>
      obtain ⟨h₁, h₂, -⟩ := loadDataBegin_cacheHit p a now ho
      exact h.of_eq h₁ h₂
    | success => exact absurd ho (loadDataBegin_ne_success p a now)
    | failed m =>
      obtain ⟨p', d, hq, h₁, h₂, -⟩ := loadDataBegin_failed p a now m ho
      rw [hq]
      exact (h.of_eq h₁ h₂).fail a m

theorem CountsWithin.response {bound : Nat} {p : Page} (h : CountsWithin bound p)
    (a : LoadArgs) (r : FetchResult) : CountsWithin bound (loadDataOnResponse p a r).1 := by
  cases ho : (loadDataOnResponse p a r).2 with
  | none => rw [(loadDataOnResponse_none p a r ho).1]; exact h
  | some o =>
    obtain ⟨m, -, hq⟩ := loadDataOnResponse_some p a r o ho
    rw [hq]
    exact h.fail a m

theorem CountsWithin.body {bound : Nat} {p : Page} (h : CountsWithin bound p) (a : LoadArgs)
    (b : BodyResult) (now : Int) (q : Bool) :
    CountsWithin bound (loadDataOnBody p a b now q).1 := by
  cases ho : (loadDataOnBody p a b now q).2 with
  | cacheHit => exact absurd ho (loadDataOnBody_ne_cacheHit p a b now q)
  | success =>
    obtain ⟨d, -, hq⟩ := loadDataOnBody_success p a b now q ho
    rw [hq]
    refine ⟨by simp [h.1], ?_⟩
    intro e n hmem
    simp only [loadDataFinally_retryAttempts, invokeCallback_retryAttempts,
      loadDataCache_retryAttempts] at hmem
    exact h.2 e n (mem_mapDelete _ _ _ hmem)
  | failed m =>
    obtain ⟨p', X, hq, h₁, h₂, -⟩ := loadDataOnBody_failed p a b now q m ho
    rw [hq]
    exact (h.of_eq h₁ h₂).fail a m

/-- A whole `loadData` call is made of segments, so it leads from reachable
pages to reachable pages. -/
theorem Reachable.loadData {p : Page} (h : Reachable p) (a : LoadArgs) (env : CallEnv) :
    Reachable (ProgressiveLoading.loadData p a env).1 := by
  simp only [ProgressiveLoading.loadData]
  split
  · exact Reachable.begin p a env.readTime h
  · split
    · exact Reachable.response _ a env.fetchResult (Reachable.begin p a env.readTime h)
    · exact Reachable.body _ a env.body env.writeTime env.quotaExceeded
        (Reachable.response _ a env.fetchResult (Reachable.begin p a env.readTime h))

theorem Reachable.loadDataRun (a : LoadArgs) :
    ∀ (envs : List CallEnv) (p : Page), Reachable p →
      Reachable (ProgressiveLoading.loadDataRun p a envs).1 := by
  intro envs
  induction envs with
  | nil => intro p h; exact h
  | cons env rest ih => intro p h; exact ih _ (h.loadData a env)

/-- Claim C7. In every state reachable from a freshly constructed
`ProgressiveLoader` by `loadData` calls of any outcome (success, cache hit,
failure with or without `retryOnError`), `maxRetries` is 3 and every attempt
count stored in `retryAttempts` is between 1 and 3 inclusive. -/
theorem reachable_retry_counts_bounded (p : Page) (h : Reachable p) :
    p.maxRetries = 3 ∧ ∀ e n, (e, n) ∈ p.retryAttempts → 1 ≤ n ∧ n ≤ 3 := by
  have key : CountsWithin 3 p := by
    induction h with
    | fresh storage doc toNumber =>
      exact ⟨rfl, fun e n hmem => by simp [ProgressiveLoader.new] at hmem⟩
    | begin p a now _ ih => exact ih.begin a now
    | response p a r _ ih => exact ih.response a r
    | body p a b now q _ ih => exact ih.body a b now q
  exact key

/-- Witness for `reachable_retry_counts_bounded`: after four consecutive failures
of `/api/x` on a fresh loader its attempt count is 3. -/
theorem reachable_retry_counts_bounded_witness :
    (loadDataRun samplePage plainArgs
        [failingEnv, failingEnv, failingEnv, failingEnv]).1.retryAttempts = [("/api/x", 3)] ∧
      (1 ≤ 3 ∧ 3 ≤ 3) :=
  ⟨by decide,
    (reachable_retry_counts_bounded _
      (Reachable.loadDataRun plainArgs [failingEnv, failingEnv, failingEnv, failingEnv]
        samplePage (Reachable.fresh _ _ _))).2 "/api/x" 3 (by decide)⟩

/-! ## Successful and rejected responses -/

/-- The `catch` and `finally` blocks invoke no callback, issue no request and
write nothing to the cache. -/
theorem loadDataFail_notable (p : Page) (a : LoadArgs) (m : String) :
    ∃ Y, notable (loadDataFinally (loadDataCatch p a m) a).events = notable p.events ++ Y ∧
      callbacks Y = [] ∧ fetches Y = [] ∧ cacheWrites Y = [] := by
  by_cases hc : a.options.retryOnError.getD true = true ∧
      (mapGet p.retryAttempts a.endpoint).getD 0 < p.maxRetries
  · exact ⟨_, (loadDataFail_retry p a m hc.1 hc.2).2, rfl, rfl, rfl⟩
  · have hno : a.options.retryOnError.getD true = false ∨
        ¬ (mapGet p.retryAttempts a.endpoint).getD 0 < p.maxRetries := by
      by_cases hr : a.options.retryOnError.getD true = true
      · exact Or.inr (fun hlt => hc ⟨hr, hlt⟩)
      · exact Or.inl (by simpa using hr)
    refine ⟨_, (loadDataFail_noRetry p a m hno).2, ?_, ?_, ?_⟩ <;> split <;> rfl

theorem stopLoadingIndicator_consoleErrors (p : Page) (c : String) :
    consoleErrors (stopLoadingIndicator p c).events = consoleErrors p.events := by
  unfold stopLoadingIndicator
  split
  · simp [consoleErrors_append, consoleErrors]
  · rfl

theorem showError_consoleErrors (p : Page) (c m : String) :
    consoleErrors (showError p c m).events = consoleErrors p.events := by
  unfold showError
  split
  · rfl
  · simp [consoleErrors_append, consoleErrors]

/-- The `catch` block reports the error, and only it, through `console.error`. -/
theorem loadDataFail_consoleErrors (p : Page) (a : LoadArgs) (m : String) :
    consoleErrors (loadDataFinally (loadDataCatch p a m) a).events =
      consoleErrors p.events ++ [m] := by
  have h : consoleErrors (loadDataCatch p a m).events = consoleErrors p.events ++ [m] := by
    simp only [loadDataCatch]
    split
    · split
      · simp [consoleErrors_append, consoleErrors]
      · simp [showError_consoleErrors, consoleErrors_append, consoleErrors]
    · simp [showError_consoleErrors, consoleErrors_append, consoleErrors]
  simp only [loadDataFinally]
  rw [stopLoadingIndicator_consoleErrors, h]

/-- A cache read that finds no entry, or an entry written by `setCachedData`
that has gone stale (its age, as the code computes it, exceeds the
time-to-live), answers `null`. -/
theorem getCachedData_miss (p : Page) (key : String) (ttl now : Int)
    (hmiss : mapGet p.localStorage (storageKey key) = none ∨
      ∃ d₀ t₀, mapGet p.localStorage (storageKey key) = some (cacheEntry d₀ t₀) ∧
        toDouble (now - t₀) > toDouble ttl) :
    (getCachedData p key ttl now).1 = .json .null := by
  rcases hmiss with h | ⟨d₀, t₀, h, hst⟩
  · simp [getCachedData, h]
  · simp only [getCachedData, emit_localStorage, h, cacheEntry]
    simp [JVal.prop, mapGet, toNumber, isStale, hst]

/-- The third segment on a parsed body: the write-through, then the callback,
then nothing more that is a callback, a request or a cache write. -/
theorem loadDataOnBody_parsed (p : Page) (a : LoadArgs) (d : JVal) (now : Int) (q : Bool) :
    (∃ Y, notable (loadDataOnBody p a (.parsed d) now q).1.events =
        notable (loadDataCache p a d now q).events ++ [.updateCallback d a.containerId] ++ Y ∧
        callbacks Y = [] ∧ fetches Y = [] ∧ cacheWrites Y = []) ∧
      (loadDataOnBody p a (.parsed d) now q).1.localStorage =
        (loadDataCache p a d now q).localStorage := by
  simp only [loadDataOnBody]
  split
  · rename_i message hthrown
    obtain ⟨Y, hY, h₁, h₂, h₃⟩ :=
      loadDataFail_notable (invokeCallback (loadDataCache p a d now q) a d).1 a message
    refine ⟨⟨Y, ?_, h₁, h₂, h₃⟩, by simp [loadDataFail]⟩
    simp only [loadDataFail]
    rw [hY, invokeCallback_notable]
  · exact ⟨⟨[], by simp, rfl, rfl, rfl⟩, by simp⟩

/-- Claim C8 (as amended). For every endpoint, containerId, non-empty `cacheKey`
and JSON response body `d`: when no valid cache entry exists (none at all, or a
stale one) and the fetch returns an OK response with body `d`, `loadData` issues
one request, invokes `updateCallback` exactly once, with `(d, containerId)`,
and, the storage accepting the write, the storage afterwards holds under
`progressive_cache_<cacheKey>` the JSON encoding of the object `data: d, timestamp: T`,
`T` being the time of the write. -/
theorem loadData_fetch_writes_through (p : Page) (a : LoadArgs) (env : CallEnv)
    (key : String) (d : JVal) (status : Nat) (statusText : String)
    (hkey : a.options.cacheKey = some key) (hne : key ≠ "")
    (hmiss : mapGet p.localStorage (storageKey key) = none ∨
      ∃ d₀ t₀, mapGet p.localStorage (storageKey key) = some (cacheEntry d₀ t₀) ∧
        toDouble (env.readTime - t₀) > toDouble (a.options.ttl.getD 60000))
    (hok : env.fetchResult = .response true status statusText)
    (hbody : env.body = .parsed d) :
    callbacks (loadData p a env).1.events = callbacks p.events ++ [(d, a.containerId)] ∧
      fetches (loadData p a env).1.events = fetches p.events ++ [a.endpoint] ∧
      (env.quotaExceeded = false →
        mapGet (loadData p a env).1.localStorage (storageKey key) =
            some (cacheEntry d env.writeTime) ∧
          cacheWrites (loadData p a env).1.events =
            cacheWrites p.events ++ [(storageKey key, cacheEntry d env.writeTime)]) := by
  have htk : truthyKey a.options.cacheKey = some key := by simp [truthyKey, hkey, hne]
  have hget := getCachedData_miss (loadDataSkeleton p a) key (a.options.ttl.getD 60000)
    env.readTime (by simpa using hmiss)
  have hbegin : loadDataBegin p a env.readTime =
      (loadDataRequest (getCachedData (loadDataSkeleton p a) key (a.options.ttl.getD 60000)
        env.readTime).2 a, none) := by
    simp only [loadDataBegin, htk, hget, JVal.truthy]
    rfl
  have hload : loadData p a env =
      loadDataOnBody (loadDataBegin p a env.readTime).1 a (.parsed d) env.writeTime
        env.quotaExceeded := by
    simp only [loadData, hbegin, hok, loadDataOnResponse, hbody, if_true]
  have hr₁ : notable (loadDataBegin p a env.readTime).1.events =
      notable p.events ++ [.fetch a.endpoint] := by
    rw [hbegin]; simp
  obtain ⟨⟨Y, hY, h₁, h₂, h₃⟩, hst⟩ := loadDataOnBody_parsed (loadDataBegin p a env.readTime).1
    a d env.writeTime env.quotaExceeded
  rw [hload]
  refine ⟨?_, ?_, ?_⟩
  · rw [← callbacks_notable, hY, loadDataCache_notable, hr₁, htk]
    cases env.quotaExceeded <;>
      simp [callbacks_append, callbacks_notable, callbacks, h₁]
  · rw [← fetches_notable, hY, loadDataCache_notable, hr₁, htk]
    cases env.quotaExceeded <;>
      simp [fetches_append, fetches_notable, fetches, h₂]
  · intro hq
    constructor
    · rw [hst]
      simp [loadDataCache, htk, setCachedData, hq, mapGet_mapSet_self]
    · rw [← cacheWrites_notable, hY, loadDataCache_notable, hr₁, htk, hq]
      simp [cacheWrites_append, cacheWrites_notable, cacheWrites, h₃]

/-- Witness for `loadData_fetch_writes_through`: the scenario of the
specification, `loadData('/api/x', 'c1', cb, options)` with the options
`cacheKey: 'x', ttl: 5000` on an empty cache, the fetch resolving to the
object `"v": 1`. -/
theorem loadData_fetch_writes_through_witness :
    mapGet samplePage.localStorage (storageKey "x") = none ∧
      callbacks (loadData samplePage cachingArgs okEnv).1.events =
        [(.obj [("v", .num 1)], "c1")] ∧
      fetches (loadData samplePage cachingArgs okEnv).1.events = ["/api/x"] ∧
      mapGet (loadData samplePage cachingArgs okEnv).1.localStorage "progressive_cache_x" =
        some (cacheEntry (.obj [("v", .num 1)]) 2000) :=
  have h := loadData_fetch_writes_through samplePage cachingArgs okEnv "x"
    (.obj [("v", .num 1)]) 200 "OK" rfl (by decide) (Or.inl (by rfl)) rfl rfl
  ⟨by rfl, h.1, h.2.1, (h.2.2 rfl).1⟩

/-- Claim C8 (counterexample to the claim as stated). With the empty string as
`cacheKey` and an OK response, the callback gets the fetched data but nothing
is written: the storage holds no entry under `progressive_cache_`. -/
theorem loadData_empty_cacheKey_not_cached :
    (loadData samplePage emptyKeyArgs okEnv).2 = .success ∧
      callbacks (loadData samplePage emptyKeyArgs okEnv).1.events =
        [(.obj [("v", .num 1)], "c1")] ∧
      mapGet (loadData samplePage emptyKeyArgs okEnv).1.localStorage (storageKey "") = none ∧
      cacheWrites (loadData samplePage emptyKeyArgs okEnv).1.events = [] :=
  ⟨by decide, by rfl, by rfl, by rfl⟩

/-- Claim C9. For every response whose `ok` flag is false, whatever its status
(and its body, which is never read): `loadData` invokes no `updateCallback`,
writes nothing to the cache, does not clear the endpoint's retry state, and
takes the failure path with the message `HTTP <status>: <statusText>`: the
message is reported, and either the retry is scheduled or the error block with
that message is rendered. -/
theorem loadData_non_ok_response (p : Page) (a : LoadArgs) (env : CallEnv)
    (status : Nat) (statusText : String)
    (hrequest : (loadDataBegin p a env.readTime).2 = none)
    (hresponse : env.fetchResult = .response false status statusText) :
    (loadData p a env).2 = .failed ("HTTP " ++ toString status ++ ": " ++ statusText) ∧
      callbacks (loadData p a env).1.events = callbacks p.events ∧
      cacheWrites (loadData p a env).1.events = cacheWrites p.events ∧
      (mapGet p.retryAttempts a.endpoint ≠ none →
        mapGet (loadData p a env).1.retryAttempts a.endpoint ≠ none) ∧
      consoleErrors (loadData p a env).1.events =
        consoleErrors (loadDataBegin p a env.readTime).1.events ++
          ["HTTP " ++ toString status ++ ": " ++ statusText] ∧
      ((a.options.retryOnError.getD true = true ∧
          (mapGet p.retryAttempts a.endpoint).getD 0 < p.maxRetries ∧
          scheduled (loadData p a env).1.events =
            scheduled p.events ++
              [(2 ^ (mapGet p.retryAttempts a.endpoint).getD 0 * 1000, a)] ∧
          errorBlocks (loadData p a env).1.events = errorBlocks p.events) ∨
        ((a.options.retryOnError.getD true = false ∨
            p.maxRetries ≤ (mapGet p.retryAttempts a.endpoint).getD 0) ∧
          scheduled (loadData p a env).1.events = scheduled p.events ∧
          errorBlocks (loadData p a env).1.events =
            errorBlocks p.events ++
              (if (mapGet (loadData p a env).1.document a.containerId).isSome then
                [(a.containerId, "HTTP " ++ toString status ++ ": " ++ statusText)]
              else []))) := by
  have hload : loadData p a env =
      (loadDataFinally (loadDataCatch (loadDataBegin p a env.readTime).1 a
        ("HTTP " ++ toString status ++ ": " ++ statusText)) a,
       .failed ("HTTP " ++ toString status ++ ": " ++ statusText)) := by
    simp [loadData, hrequest, hresponse, loadDataOnResponse, loadDataFail]
  have hfailed : (loadData p a env).2 =
      .failed ("HTTP " ++ toString status ++ ": " ++ statusText) := by rw [hload]
  obtain ⟨b₁, b₂, b₃⟩ := loadDataBegin_none p a env.readTime hrequest
  obtain ⟨Y, hY, h₁, -, h₃⟩ := loadDataFail_notable (loadDataBegin p a env.readTime).1 a
    ("HTTP " ++ toString status ++ ": " ++ statusText)
  have hq : (loadData p a env).1 = loadDataFinally (loadDataCatch
      (loadDataBegin p a env.readTime).1 a
        ("HTTP " ++ toString status ++ ": " ++ statusText)) a := by rw [hload]
  refine ⟨hfailed, ?_, ?_, ?_, ?_, ?_⟩
  · rw [← callbacks_notable, hq, hY, b₃]
    simp [callbacks_append, callbacks_notable, callbacks, h₁]
  · rw [← cacheWrites_notable, hq, hY, b₃]
    simp [cacheWrites_append, cacheWrites_notable, cacheWrites, h₃]
  · intro hpresent
    by_cases hc : a.options.retryOnError.getD true = true ∧
        (mapGet p.retryAttempts a.endpoint).getD 0 < p.maxRetries
    · rw [(loadData_failed_retry p a env _ hfailed hc.1 hc.2).1, mapGet_mapSet_self]
      simp
    · have hno : a.options.retryOnError.getD true = false ∨
          p.maxRetries ≤ (mapGet p.retryAttempts a.endpoint).getD 0 := by
        by_cases hr : a.options.retryOnError.getD true = true
        · exact Or.inr (not_lt.mp (fun hlt => hc ⟨hr, hlt⟩))
        · exact Or.inl (by simpa using hr)
      rw [(loadData_failed_noRetry p a env _ hfailed hno).2.1]
      exact hpresent
  · rw [hq, loadDataFail_consoleErrors]
  · by_cases hc : a.options.retryOnError.getD true = true ∧
        (mapGet p.retryAttempts a.endpoint).getD 0 < p.maxRetries
    · obtain ⟨-, -, k₃, k₄⟩ := loadData_failed_retry p a env _ hfailed hc.1 hc.2
      exact Or.inl ⟨hc.1, hc.2, k₃, k₄⟩
    · have hno : a.options.retryOnError.getD true = false ∨
          p.maxRetries ≤ (mapGet p.retryAttempts a.endpoint).getD 0 := by
        by_cases hr : a.options.retryOnError.getD true = true
        · exact Or.inr (not_lt.mp (fun hlt => hc ⟨hr, hlt⟩))
        · exact Or.inl (by simpa using hr)
      obtain ⟨k₁, -, -, -, k₅⟩ := loadData_failed_noRetry p a env _ hfailed hno
      exact Or.inr ⟨hno, k₁, k₅⟩

/-- Witness for `loadData_non_ok_response`: a `500` answer whose body is valid
JSON; the body is not passed to the callback. -/
theorem loadData_non_ok_response_witness :
    (loadDataBegin samplePage cachingArgs failingEnv.readTime).2 = none ∧
      (loadData samplePage cachingArgs failingEnv).2 =
        .failed "HTTP 500: Internal Server Error" ∧
      callbacks (loadData samplePage cachingArgs failingEnv).1.events = [] ∧
      cacheWrites (loadData samplePage cachingArgs failingEnv).1.events = [] ∧
      consoleErrors (loadData samplePage cachingArgs failingEnv).1.events =
        ["HTTP 500: Internal Server Error"] :=
  have h := loadData_non_ok_response samplePage cachingArgs failingEnv 500
    "Internal Server Error" (by decide) rfl
  ⟨by decide, h.1, h.2.1, h.2.2.1, h.2.2.2.2.1.trans (by decide)⟩

/-! ## The loading state at the time of the request -/

/-- Claim C12 (the code at the failing inputs). On a fresh loader, a call with
`showSkeleton: false`, and a call for a container id that no element has, both
miss the cache and issue their network request while `isLoading(containerId)`
is still false: only `showLoadingSkeleton`, past its early return, marks a
container as loading. -/
theorem loadData_request_without_loading_state :
    ((loadDataBegin samplePage noSkeletonArgs 2000).2 = none ∧
        fetches (loadDataBegin samplePage noSkeletonArgs 2000).1.events = ["/api/x"] ∧
        isLoading (loadDataBegin samplePage noSkeletonArgs 2000).1 "c1" = false) ∧
      ((loadDataBegin samplePage missingContainerArgs 2000).2 = none ∧
        fetches (loadDataBegin samplePage missingContainerArgs 2000).1.events = ["/api/x"] ∧
        isLoading (loadDataBegin samplePage missingContainerArgs 2000).1 "nowhere" = false) := by
  decide

/-! ## Cache hits and the retry state -/

/-- A call that ends at the `return` of line 55 is over after its first segment. -/
theorem loadData_cacheHit_shape (p : Page) (a : LoadArgs) (env : CallEnv)
    (h : (loadData p a env).2 = .cacheHit) :
    (loadDataBegin p a env.readTime).2 = some .cacheHit ∧
      (loadData p a env).1 = (loadDataBegin p a env.readTime).1 := by
  simp only [loadData] at h ⊢
  split at h
  · rename_i o ho
    simp only at h
    subst h
    exact ⟨ho, rfl⟩
  · split at h
    · rename_i o ho
      simp only at h
      subst h
      obtain ⟨m, hm, -⟩ := loadDataOnResponse_some _ a env.fetchResult _ ho
      cases hm
    · exact absurd h (loadDataOnBody_ne_cacheHit _ a env.body env.writeTime env.quotaExceeded)

/-- Claim C13 (as amended). For every `loadData` call that is served from the
cache and whose `updateCallback`, invoked with the cached data, returns: no
network request is issued and the `retryAttempts` map after the call equals
the map before the call, the endpoint's count being neither incremented nor
reset. -/
theorem loadData_cacheHit_keeps_retryAttempts (p : Page) (a : LoadArgs) (env : CallEnv)
    (hhit : (loadData p a env).2 = .cacheHit) :
    (loadData p a env).1.retryAttempts = p.retryAttempts ∧
      fetches (loadData p a env).1.events = fetches p.events ∧
      ∃ d, callbacks (loadData p a env).1.events = callbacks p.events ++ [(d, a.containerId)] := by
  obtain ⟨hb, hq⟩ := loadData_cacheHit_shape p a env hhit
  obtain ⟨h₁, -, d, h₃⟩ := loadDataBegin_cacheHit p a env.readTime hb
  rw [hq]
  refine ⟨h₁, ?_, d, ?_⟩
  · rw [← fetches_notable, h₃, fetches_append, fetches_notable]
    simp [fetches]
  · rw [← callbacks_notable, h₃, callbacks_append, callbacks_notable]
    simp [callbacks]

/-- Witness for `loadData_cacheHit_keeps_retryAttempts`: after two failures of
`/api/x` an entry for key `x` is in the cache; the call served from it leaves
the attempt count at 2. -/
theorem loadData_cacheHit_keeps_retryAttempts_witness :
    (loadData { retriedPage with localStorage := (pageWithEntry (.num 7)).localStorage }
        cachingArgs okEnv).2 = .cacheHit ∧
      (loadData { retriedPage with localStorage := (pageWithEntry (.num 7)).localStorage }
        cachingArgs okEnv).1.retryAttempts = [("/api/x", 2)] :=
  ⟨by decide,
    (loadData_cacheHit_keeps_retryAttempts
      { retriedPage with localStorage := (pageWithEntry (.num 7)).localStorage }
      cachingArgs okEnv (by decide)).1.trans (by decide)⟩

/-- Claim C13 (counterexample to the claim as stated). A valid entry is found
and `updateCallback` is invoked with the cached data, but it throws: without
any network request the endpoint's attempt count goes from absent to 1 and a
retry is scheduled. -/
theorem loadData_cacheHit_throwing_callback_counts :
    (getCachedData (pageWithEntry (.num 7)) "x" 5000 2000).1 = .json (.num 7) ∧
      callbacks (loadData (pageWithEntry (.num 7)) throwingArgs okEnv).1.events =
        [(.num 7, "c1")] ∧
      fetches (loadData (pageWithEntry (.num 7)) throwingArgs okEnv).1.events = [] ∧
      (pageWithEntry (.num 7)).retryAttempts = [] ∧
      (loadData (pageWithEntry (.num 7)) throwingArgs okEnv).1.retryAttempts =
        [("/api/x", 1)] ∧
      (scheduled (loadData (pageWithEntry (.num 7)) throwingArgs okEnv).1.events).map Prod.fst =
        [1000] :=
  ⟨by rfl, by rfl, by decide, by decide, by decide, by decide⟩

/-! ## `getCachedData` fails soft -/

/-- Claim C16. `getCachedData(key, ttl)` never raises (it is a total function
whose errors end in its `catch` block): for every key with no stored entry it
returns `null` and leaves the storage as it is, and for every stored string
that fails to deserialize (the empty string, a string that is not valid JSON,
or the JSON text `null`) it returns `null` as well, the storage unchanged. -/
theorem getCachedData_fails_soft (p : Page) (key : String) (ttl now : Int) :
    (mapGet p.localStorage (storageKey key) = none →
        (getCachedData p key ttl now).1 = .json .null ∧
          (getCachedData p key ttl now).2.localStorage = p.localStorage) ∧
      (mapGet p.localStorage (storageKey key) = some .empty →
        (getCachedData p key ttl now).1 = .json .null ∧
          (getCachedData p key ttl now).2.localStorage = p.localStorage) ∧
      (∀ text, mapGet p.localStorage (storageKey key) = some (.malformed text) →
        (getCachedData p key ttl now).1 = .json .null ∧
          (getCachedData p key ttl now).2.localStorage = p.localStorage) ∧
      (mapGet p.localStorage (storageKey key) = some (.json .null) →
        (getCachedData p key ttl now).1 = .json .null ∧
          (getCachedData p key ttl now).2.localStorage = p.localStorage) := by
  refine ⟨?_, ?_, ?_, ?_⟩
  · intro h
    simp [getCachedData, h]
  · intro h
    simp [getCachedData, h]
  · intro text h
    simp [getCachedData, h]
  · intro h
    simp [getCachedData, h]

/-- Witness for `getCachedData_fails_soft`: a missing key, the empty string, a
string that is not JSON and the JSON text `null`. -/
theorem getCachedData_fails_soft_witness :
    (getCachedData brokenCachePage "missing" 5000 2000).1 = .json .null ∧
      (getCachedData brokenCachePage "a" 5000 2000).1 = .json .null ∧
      (getCachedData brokenCachePage "b" 5000 2000).1 = .json .null ∧
      (getCachedData brokenCachePage "c" 5000 2000).1 = .json .null :=
  ⟨((getCachedData_fails_soft brokenCachePage "missing" 5000 2000).1 (by rfl)).1,
    ((getCachedData_fails_soft brokenCachePage "a" 5000 2000).2.1 (by rfl)).1,
    ((getCachedData_fails_soft brokenCachePage "b" 5000 2000).2.2.1 "not json" (by rfl)).1,
    ((getCachedData_fails_soft brokenCachePage "c" 5000 2000).2.2.2 (by rfl)).1⟩

/-! ## A failing cache write -/

/-- The notable steps of a successful call, in order: the request, the cache
write if a key was given and the storage took it, the callback. -/
theorem loadData_success_notable (p : Page) (a : LoadArgs) (env : CallEnv)
    (h : (loadData p a env).2 = .success) :
    ∃ d, env.body = .parsed d ∧
      notable (loadData p a env).1.events =
        notable p.events ++ [.fetch a.endpoint] ++
          (match truthyKey a.options.cacheKey with
           | none => []
           | some key =>
             if env.quotaExceeded then []
             else [.setItem (storageKey key) (cacheEntry d env.writeTime)]) ++
          [.updateCallback d a.containerId] := by
  simp only [loadData] at h ⊢
  split at h
  · rename_i o ho
    simp only at h
    subst h
    exact absurd ho (loadDataBegin_ne_success p a env.readTime)
  · rename_i hb
    obtain ⟨-, -, b₃⟩ := loadDataBegin_none p a env.readTime hb
    split at h
    · rename_i o ho
      simp only at h
      subst h
      obtain ⟨m, hm, -⟩ := loadDataOnResponse_some _ a env.fetchResult _ ho
      cases hm
    · rename_i hr
      obtain ⟨r₁, -⟩ := loadDataOnResponse_none _ a env.fetchResult hr
      simp only [r₁] at h ⊢
      obtain ⟨d, hd, hq⟩ := loadDataOnBody_success _ a env.body env.writeTime env.quotaExceeded h
      refine ⟨d, hd, ?_⟩
      rw [hq, loadDataFinally_notable]
      show notable (invokeCallback _ a d).1.events = _
      rw [invokeCallback_notable, loadDataCache_notable, b₃]

/-- Claim C17. For every successful fetch (the request issued, an OK response,
the body parsed, the callback returning) with a cache key where the storage
write fails (quota exceeded): `setCachedData` raises nothing and stores
nothing, and `loadData` still ends in success: it invokes `updateCallback`
exactly once, with the fetched data, clears the endpoint's retry state,
schedules no retry and renders no error block. -/
theorem loadData_survives_failed_cache_write (p : Page) (a : LoadArgs) (env : CallEnv)
    (key : String) (d : JVal) (status : Nat) (statusText : String)
    (hkey : truthyKey a.options.cacheKey = some key)
    (hrequest : (loadDataBegin p a env.readTime).2 = none)
    (hok : env.fetchResult = .response true status statusText)
    (hbody : env.body = .parsed d)
    (hreturns : ∀ doc, (a.updateCallback d a.containerId doc).thrown = none)
    (hquota : env.quotaExceeded = true) :
    (∀ q : Page, (setCachedData q key d env.writeTime true).localStorage = q.localStorage ∧
        cacheWrites (setCachedData q key d env.writeTime true).events = cacheWrites q.events) ∧
      (loadData p a env).2 = .success ∧
      callbacks (loadData p a env).1.events = callbacks p.events ++ [(d, a.containerId)] ∧
      cacheWrites (loadData p a env).1.events = cacheWrites p.events ∧
      mapGet (loadData p a env).1.retryAttempts a.endpoint = none ∧
      scheduled (loadData p a env).1.events = scheduled p.events ∧
      errorBlocks (loadData p a env).1.events = errorBlocks p.events := by
  have hsuccess : (loadData p a env).2 = .success := by
    simp [loadData, hrequest, hok, loadDataOnResponse, hbody, loadDataOnBody, invokeCallback,
      hreturns]
  obtain ⟨d', hd', hn⟩ := loadData_success_notable p a env hsuccess
  rw [hbody] at hd'
  cases hd'
  rw [hkey, hquota] at hn
  obtain ⟨h₁, -⟩ := loadData_success_shape p a env hsuccess
  refine ⟨?_, hsuccess, ?_, ?_, ?_, ?_, ?_⟩
  · intro q
    constructor
    · simp [setCachedData]
    · rw [← cacheWrites_notable, setCachedData_notable]
      simp [cacheWrites_notable]
  · rw [← callbacks_notable, hn]
    simp [callbacks_append, callbacks_notable, callbacks]
  · rw [← cacheWrites_notable, hn]
    simp [cacheWrites_append, cacheWrites_notable, cacheWrites]
  · rw [h₁]
    exact mapGet_mapDelete_self _ _
  · rw [← scheduled_notable, hn]
    simp [scheduled_append, scheduled_notable, scheduled]
  · rw [← errorBlocks_notable, hn]
    simp [errorBlocks_append, errorBlocks_notable, errorBlocks]

/-- Witness for `loadData_survives_failed_cache_write`: after two failures of
`/api/x`, a fetch succeeds while the storage is full. -/
theorem loadData_survives_failed_cache_write_witness :
    (loadDataBegin retriedPage cachingArgs fullStorageEnv.readTime).2 = none ∧
      (loadData retriedPage cachingArgs fullStorageEnv).2 = .success ∧
      callbacks (loadData retriedPage cachingArgs fullStorageEnv).1.events =
        callbacks retriedPage.events ++ [(.obj [("v", .num 1)], "c1")] ∧
      mapGet (loadData retriedPage cachingArgs fullStorageEnv).1.localStorage
        "progressive_cache_x" = none ∧
      mapGet retriedPage.retryAttempts "/api/x" = some 2 ∧
      mapGet (loadData retriedPage cachingArgs fullStorageEnv).1.retryAttempts "/api/x" = none :=
  have h := loadData_survives_failed_cache_write retriedPage cachingArgs fullStorageEnv "x"
    (.obj [("v", .num 1)]) 200 "OK" (by decide) (by decide) rfl rfl (fun _ => rfl) rfl
  ⟨by decide, h.2.1, h.2.2.1, by rfl, by decide, h.2.2.2.2.1⟩

/-! ## `clearCache` -/

theorem mapDelete_eq_filter {α : Type} (m : List (String × α)) (k : String) :
    mapDelete m k = m.filter (fun e => decide (e.1 ≠ k)) := by
  induction m with
  | nil => rfl
  | cons hd tl ih =>
    obtain ⟨k', x⟩ := hd
    by_cases h : k' = k <;> simp [mapDelete, List.filter_cons, h, ih]

theorem removeItems_localStorage (keys : List String) :
    ∀ p : Page, (removeItems p keys).localStorage =
      p.localStorage.filter (fun e => decide (e.1 ∉ keys)) := by
  induction keys with
  | nil => intro p; simp [removeItems]
  | cons k rest ih =>
    intro p
    rw [removeItems, ih]
    simp only [emit_localStorage, mapDelete_eq_filter, List.filter_filter]
    apply List.filter_congr
    intro e _
    simp only [List.mem_cons, not_or, ne_eq, Bool.decide_and, Bool.and_comm]

theorem removeItems_events (keys : List String) :
    ∀ p : Page, (removeItems p keys).events = p.events ++ keys.map Event.removeItem := by
  induction keys with
  | nil => intro p; simp [removeItems]
  | cons k rest ih =>
    intro p
    rw [removeItems, ih]
    simp

/-- The storage after `clearCache()`: the entries outside the cache namespace,
in their order. -/
theorem clearCache_localStorage (p : Page) :
    (clearCache p).2.localStorage = p.localStorage.filter (fun e => !isCacheKey e.1) := by
  simp only [clearCache, emit_localStorage, removeItems_localStorage]
  apply List.filter_congr
  intro e he
  have hmem : e.1 ∈ p.localStorage.map Prod.fst := List.mem_map_of_mem _ he
  cases hk : isCacheKey e.1 <;> simp [List.mem_filter, hk, hmem]

theorem mapGet_filter_key {α : Type} (m : List (String × α)) (f : String → Bool) (k : String) :
    mapGet (m.filter (fun e => f e.1)) k = if f k then mapGet m k else none := by
  induction m with
  | nil => simp [mapGet]
  | cons hd tl ih =>
    obtain ⟨k', x⟩ := hd
    by_cases hk : k' = k
    · subst hk
      cases hf : f k' <;> simp [List.filter_cons, mapGet, hf, ih]
    · cases hf : f k' <;> simp [List.filter_cons, mapGet, hf, hk, ih]

/-- Claim C14. For every storage content, after `clearCache()` the storage
contains no key starting with `progressive_cache_`, and every key not starting
with that text is still present with its value unchanged. -/
theorem clearCache_removes_only_cache_keys (p : Page) :
    (∀ k v, (k, v) ∈ (clearCache p).2.localStorage → isCacheKey k = false) ∧
      (∀ k, isCacheKey k = true → mapGet (clearCache p).2.localStorage k = none) ∧
      (∀ k, isCacheKey k = false →
        mapGet (clearCache p).2.localStorage k = mapGet p.localStorage k) ∧
      (∀ k v, isCacheKey k = false → (k, v) ∈ p.localStorage →
        (k, v) ∈ (clearCache p).2.localStorage) := by
  rw [clearCache_localStorage]
  refine ⟨?_, ?_, ?_, ?_⟩
  · intro k v h
    simpa using (List.mem_filter.mp h).2
  · intro k hk
    have := mapGet_filter_key p.localStorage (fun k => !isCacheKey k) k
    simpa [hk] using this
  · intro k hk
    have := mapGet_filter_key p.localStorage (fun k => !isCacheKey k) k
    simpa [hk] using this
  · intro k v hk h
    exact List.mem_filter.mpr ⟨h, by simp [hk]⟩

/-- Witness for `clearCache_removes_only_cache_keys`: of the four keys `theme`,
`progressive_cache_x`, `progress` and `progressive_cache_members`, the two
cache keys go and the two others stay. -/
theorem clearCache_removes_only_cache_keys_witness :
    mapGet (clearCache cachePage).2.localStorage "progressive_cache_x" = none ∧
      mapGet (clearCache cachePage).2.localStorage "progressive_cache_members" = none ∧
      mapGet (clearCache cachePage).2.localStorage "theme" = some (.malformed "dark") ∧
      mapGet (clearCache cachePage).2.localStorage "progress" = some (.json (.num 3)) :=
  have h := clearCache_removes_only_cache_keys cachePage
  ⟨h.2.1 "progressive_cache_x" (by decide), h.2.1 "progressive_cache_members" (by decide),
    (h.2.2.1 "theme" (by decide)).trans (by rfl), (h.2.2.1 "progress" (by decide)).trans (by rfl)⟩

/-- Claim C15 (as amended). For every storage content, `clearCache()` returns
nothing (`undefined`); it removes the keys under the cache namespace one by
one and then reports through `console.log` a count equal to the number of keys
under the namespace that existed before the call, which is the number of
entries the storage has lost. -/
theorem clearCache_reports_count (p : Page) :
    (clearCache p).1 = .undefined ∧
      (clearCache p).2.events =
        p.events ++
          ((p.localStorage.map Prod.fst).filter isCacheKey).map Event.removeItem ++
          [.consoleLog ("🧹 Cleared " ++
            toString (p.localStorage.filter (fun e => isCacheKey e.1)).length ++
            " cached items")] ∧
      (p.localStorage.filter (fun e => isCacheKey e.1)).length +
        (clearCache p).2.localStorage.length = p.localStorage.length := by
  have hlen : ((p.localStorage.map Prod.fst).filter isCacheKey).length =
      (p.localStorage.filter (fun e => isCacheKey e.1)).length := by
    induction p.localStorage with
    | nil => rfl
    | cons hd tl ih =>
      cases hk : isCacheKey hd.1 <;> simp [List.filter_cons, hk, ih]
  refine ⟨rfl, ?_, ?_⟩
  · simp only [clearCache, emit_events, removeItems_events, hlen]
  · rw [clearCache_localStorage]
    induction p.localStorage with
    | nil => rfl
    | cons hd tl ih =>
      cases hk : isCacheKey hd.1 <;> simp [List.filter_cons, hk] <;> omega

/-- Claim C15 (counterexample to the claim as stated). With two keys under the
cache namespace in the storage, `clearCache()` returns `undefined`, not the
count 2; the count is only logged. -/
theorem clearCache_returns_undefined :
    (cachePage.localStorage.filter (fun e => isCacheKey e.1)).length = 2 ∧
      (clearCache cachePage).1 = .undefined ∧
      (clearCache cachePage).1 ≠ .json (.num 2) :=
  ⟨by decide, rfl, by simp [clearCache]⟩

/-! ## `ProgressivePagination.loadPage` -/

/-- Claim C19. For every `ProgressivePagination` instance and pages `page`,
`other`: if `loadPage(other)` is called while the callback promise of an earlier
`loadPage(page)` is still pending, the callback has been invoked exactly once
(with `page`), and the second call changes nothing: `currentPage` stays `page`
and `isLoading` stays true. -/
theorem loadPage_while_pending (s : ProgressivePagination) (page other : Int)
    (start start' : CallbackStart) (hpending : (loadPage s page start).2 = none) :
    (loadPage s page start).1.invoked = s.invoked ++ [page] ∧
      (loadPage s page start).1.currentPage = page ∧
      (loadPage s page start).1.isLoading = true ∧
      loadPage (loadPage s page start).1 other start' =
        ((loadPage s page start).1, some .fulfilled) := by
  cases hl : s.isLoading
  · cases start with
    | threw m => simp [loadPage, hl] at hpending
    | returned => simp [loadPage, hl]
  · simp [loadPage, hl] at hpending

/-- Witness for `loadPage_while_pending`: on a new instance, `loadPage(3)`
while `loadPage(2)` is pending. -/
theorem loadPage_while_pending_witness :
    (loadPage (ProgressivePagination.new "members") 2 .returned).2 = none ∧
      (loadPage (loadPage (ProgressivePagination.new "members") 2 .returned).1 3
        .returned).1.invoked = [2] ∧
      (loadPage (loadPage (ProgressivePagination.new "members") 2 .returned).1 3
        .returned).1.currentPage = 2 ∧
      (loadPage (loadPage (ProgressivePagination.new "members") 2 .returned).1 3
        .returned).1.isLoading = true :=
  have h := loadPage_while_pending (ProgressivePagination.new "members") 2 3 .returned
    .returned rfl
  ⟨rfl, by rw [h.2.2.2]; exact h.1, by rw [h.2.2.2]; exact h.2.1, by rw [h.2.2.2]; exact h.2.2.1⟩

/-- Claim C20. For every `loadPage(page)` call made while `isLoading` is false,
`currentPage` is set to `page` and the callback is invoked with `page`, and once
the callback's work completes `isLoading` is false again whether the callback
resolved, rejected or threw synchronously; hence a later `loadPage` call after
a failed one invokes the callback again. -/
theorem loadPage_clears_flag (s : ProgressivePagination) (page : Int)
    (hidle : s.isLoading = false) :
    (∀ start, (loadPage s page start).1.currentPage = page ∧
        (loadPage s page start).1.invoked = s.invoked ++ [page]) ∧
      (∀ m, (loadPage s page (.threw m)).1.isLoading = false ∧
        (loadPage s page (.threw m)).2 = some (.rejected m)) ∧
      ((loadPage s page .returned).2 = none ∧
        (loadPage s page .returned).1.isLoading = true) ∧
      (∀ e, (loadPageResume (loadPage s page .returned).1 e).1.isLoading = false ∧
        (loadPageResume (loadPage s page .returned).1 e).1.currentPage = page) ∧
      (∀ m page' start',
        (loadPage (loadPage s page (.threw m)).1 page' start').1.invoked =
          s.invoked ++ [page, page']) ∧
      (∀ e page' start',
        (loadPage (loadPageResume (loadPage s page .returned).1 e).1 page' start').1.invoked =
          s.invoked ++ [page, page']) := by
  refine ⟨?_, ?_, ?_, ?_, ?_, ?_⟩
  · intro start
    cases start <;> simp [loadPage, hidle]
  · intro m
    simp [loadPage, hidle]
  · simp [loadPage, hidle]
  · intro e
    simp [loadPage, loadPageResume, hidle]
  · intro m page' start'
    cases start' <;> simp [loadPage, hidle]
  · intro e page' start'
    cases start' <;> simp [loadPage, loadPageResume, hidle]

/-- Witness for `loadPage_clears_flag`: on a new instance `loadPage(2)` whose
callback promise rejects, then `loadPage(2)` again. -/
theorem loadPage_clears_flag_witness :
    (ProgressivePagination.new "members").isLoading = false ∧
      (loadPageResume (loadPage (ProgressivePagination.new "members") 2 .returned).1
        (.rejected "HTTP 500")).1.isLoading = false ∧
      (loadPage (loadPageResume (loadPage (ProgressivePagination.new "members") 2 .returned).1
        (.rejected "HTTP 500")).1 2 .returned).1.invoked = [2, 2] :=
  have h := loadPage_clears_flag (ProgressivePagination.new "members") 2 rfl
  ⟨rfl, (h.2.2.2.1 (.rejected "HTTP 500")).1, h.2.2.2.2.2 (.rejected "HTTP 500") 2 .returned⟩

/-! ## The loading indicator and the loading state at the end of a call -/

theorem indicatorCount_cons (id : String) (children : List Node) (doc : Document) (c : String) :
    indicatorCount ((id, children) :: doc) c =
      children.count (Node.indicator c) + indicatorCount doc c := by
  simp [indicatorCount]

theorem indicatorCount_mapSet (doc : Document) (id c : String) (old new : List Node)
    (h : mapGet doc id = some old) :
    indicatorCount (mapSet doc id new) c + old.count (Node.indicator c) =
      indicatorCount doc c + new.count (Node.indicator c) := by
  induction doc with
  | nil => simp [mapGet] at h
  | cons hd tl ih =>
    obtain ⟨k, ch⟩ := hd
    by_cases hk : k = id
    · simp only [mapGet, hk, if_true, Option.some.injEq] at h
      subst h
      simp only [mapSet, hk, if_true, indicatorCount_cons]
      omega
    · simp only [mapGet, hk, if_false] at h
      simp only [mapSet, hk, if_false, indicatorCount_cons]
      have := ih h
      omega

theorem hasIndicator_iff (doc : Document) (c : String) :
    hasIndicator doc c = true ↔ 0 < indicatorCount doc c := by
  induction doc with
  | nil => simp [hasIndicator, indicatorCount]
  | cons hd tl ih =>
    obtain ⟨k, ch⟩ := hd
    have ih' : (tl.any fun e => decide (Node.indicator c ∈ e.2)) = true ↔
        0 < indicatorCount tl c := ih
    simp only [hasIndicator, List.any_cons, Bool.or_eq_true, decide_eq_true_eq,
      indicatorCount_cons, ih']
    rw [← List.count_pos_iff]
    omega

theorem indicatorCount_removeIndicator (doc : Document) (c : String) :
    indicatorCount (removeIndicator doc c) c = indicatorCount doc c - 1 := by
  induction doc with
  | nil => rfl
  | cons hd tl ih =>
    obtain ⟨k, ch⟩ := hd
    by_cases hm : Node.indicator c ∈ ch
    · have hpos : 0 < ch.count (Node.indicator c) := List.count_pos_iff.mpr hm
      simp only [removeIndicator, hm, if_true, indicatorCount_cons, List.count_erase_self]
      omega
    · have hzero : ch.count (Node.indicator c) = 0 := List.count_eq_zero.mpr hm
      simp only [removeIndicator, hm, if_false, indicatorCount_cons, hzero, ih]
      omega

theorem indicatorCount_stopLoadingIndicator (p : Page) (c : String) :
    indicatorCount (stopLoadingIndicator p c).document c = indicatorCount p.document c - 1 := by
  unfold stopLoadingIndicator
  split
  · exact indicatorCount_removeIndicator _ _
  · rename_i h
    have : ¬ 0 < indicatorCount p.document c := fun hp => h ((hasIndicator_iff _ _).mpr hp)
    show indicatorCount p.document c = _
    omega

theorem indicatorCount_showLoadingSkeleton (p : Page) (id : String) (t : Option String)
    (c : String) :
    indicatorCount (showLoadingSkeleton p id t).document c ≤ indicatorCount p.document c := by
  unfold showLoadingSkeleton
  split
  · exact Nat.le_refl _
  · rename_i old h
    have := indicatorCount_mapSet p.document id c old
      [Node.markup (skeletonMarkup (t.getD "generic"))] h
    simp only [List.count_cons, List.count_nil] at this
    show indicatorCount (mapSet p.document id _) c ≤ _
    simp at this
    omega

theorem indicatorCount_showError (p : Page) (id m c : String) :
    indicatorCount (showError p id m).document c ≤ indicatorCount p.document c := by
  unfold showError
  split
  · exact Nat.le_refl _
  · rename_i old h
    have := indicatorCount_mapSet p.document id c old [Node.markup (Markup.errorBlock m)] h
    show indicatorCount (mapSet p.document id _) c ≤ _
    simp at this
    omega

theorem indicatorCount_startLoadingIndicator (p : Page) (c : String)
    (h : indicatorCount p.document c ≤ 1) :
    indicatorCount (startLoadingIndicator p c).document c ≤ 1 := by
  unfold startLoadingIndicator
  split
  · exact h
  · rename_i old hold
    split
    · exact h
    · rename_i hnone
      have hzero : indicatorCount p.document c = 0 := by
        have : ¬ 0 < indicatorCount p.document c :=
          fun hp => hnone ((hasIndicator_iff _ _).mpr hp)
        omega
      have := indicatorCount_mapSet p.document c c old (Node.indicator c :: old) hold
      show indicatorCount (mapSet p.document c _) c ≤ 1
      simp at this
      omega

theorem indicatorCount_loadDataCatch (p : Page) (a : LoadArgs) (m c : String) :
    indicatorCount (loadDataCatch p a m).document c ≤ indicatorCount p.document c := by
  simp only [loadDataCatch]
  split
  · split
    · exact Nat.le_refl _
    · exact indicatorCount_showError _ _ _ _
  · exact indicatorCount_showError _ _ _ _

theorem indicatorCount_loadDataSkeleton (p : Page) (a : LoadArgs) (c : String) :
    indicatorCount (loadDataSkeleton p a).document c ≤ indicatorCount p.document c := by
  unfold loadDataSkeleton
  split
  · exact indicatorCount_showLoadingSkeleton _ _ _ _
  · exact Nat.le_refl _

theorem indicatorCount_loadDataRequest (p : Page) (a : LoadArgs)
    (h : indicatorCount p.document a.containerId ≤ 1) :
    indicatorCount (loadDataRequest p a).document a.containerId ≤ 1 := by
  simp only [loadDataRequest, emit_document]
  exact indicatorCount_startLoadingIndicator p a.containerId h

/-- The `finally` block marks the container as not loading. -/
theorem isLoading_loadDataFinally (p : Page) (a : LoadArgs) :
    isLoading (loadDataFinally p a) a.containerId = false := by
  simp [isLoading, loadDataFinally, mapGet_mapSet_self]

/-- The `finally` block leaves no indicator of the container, when the document
held at most one. -/
theorem hasIndicator_loadDataFinally (p : Page) (a : LoadArgs)
    (h : indicatorCount p.document a.containerId ≤ 1) :
    indicatorCount (loadDataFinally p a).document a.containerId = 0 := by
  have := indicatorCount_stopLoadingIndicator p a.containerId
  simp only [loadDataFinally]
  omega

theorem loadDataBegin_unique (p : Page) (a : LoadArgs) (now : Int)
    (h : (loadDataBegin p a now).2 = none)
    (hu : indicatorCount p.document a.containerId ≤ 1) :
    indicatorCount (loadDataBegin p a now).1.document a.containerId ≤ 1 := by
  have hs : indicatorCount (loadDataSkeleton p a).document a.containerId ≤ 1 :=
    Nat.le_trans (indicatorCount_loadDataSkeleton p a _) hu
  cases hk : truthyKey a.options.cacheKey with
  | none =>
    simp only [loadDataBegin, hk]
    exact indicatorCount_loadDataRequest _ a hs
  | some key =>
    cases hr : (getCachedData (loadDataSkeleton p a) key (a.options.ttl.getD 60000) now).1 with
    | undefined =>
      simp only [loadDataBegin, hk, hr]
      exact indicatorCount_loadDataRequest _ a (by simpa using hs)
    | json cached =>
      cases ht : cached.truthy with
      | false =>
        simp only [loadDataBegin, hk, hr, ht, Bool.false_eq_true, if_false]
        exact indicatorCount_loadDataRequest _ a (by simpa using hs)
      | true =>
        simp only [loadDataBegin, hk, hr, ht, if_true] at h
        split at h <;> simp at h

theorem loadDataBegin_finally (p : Page) (a : LoadArgs) (now : Int) (o : Outcome)
    (h : (loadDataBegin p a now).2 = some o) :
    ∃ p', (loadDataBegin p a now).1 = loadDataFinally p' a ∧
      (indicatorCount p.document a.containerId ≤ 1 → KeepsIndicatorUnique a →
        indicatorCount p'.document a.containerId ≤ 1) := by
  have hs : indicatorCount p.document a.containerId ≤ 1 →
      indicatorCount (loadDataSkeleton p a).document a.containerId ≤ 1 :=
    fun hu => Nat.le_trans (indicatorCount_loadDataSkeleton p a _) hu
  cases hk : truthyKey a.options.cacheKey with
  | none => simp [loadDataBegin, hk] at h
  | some key =>
    cases hr : (getCachedData (loadDataSkeleton p a) key (a.options.ttl.getD 60000) now).1 with
    | undefined => simp [loadDataBegin, hk, hr] at h
    | json cached =>
      cases ht : cached.truthy with
      | false => simp [loadDataBegin, hk, hr, ht] at h
      | true =>
        cases hc : (invokeCallback (getCachedData (loadDataSkeleton p a) key
            (a.options.ttl.getD 60000) now).2 a cached).2 with
        | some message =>
          simp only [loadDataBegin, hk, hr, ht, if_true, hc, loadDataFail]
          refine ⟨_, rfl, ?_⟩
          intro hu hkeep
          refine Nat.le_trans (indicatorCount_loadDataCatch _ a _ _) ?_
          exact hkeep _ _ (by simpa using hs hu)
        | none =>
          simp only [loadDataBegin, hk, hr, ht, if_true, hc]
          refine ⟨_, rfl, ?_⟩
          intro hu hkeep
          exact hkeep _ _ (by simpa using hs hu)

theorem loadDataOnResponse_finally (p : Page) (a : LoadArgs) (r : FetchResult) (o : Outcome)
    (h : (loadDataOnResponse p a r).2 = some o) :
    ∃ p', (loadDataOnResponse p a r).1 = loadDataFinally p' a ∧
      (indicatorCount p.document a.containerId ≤ 1 →
        indicatorCount p'.document a.containerId ≤ 1) := by
  obtain ⟨m, -, hq⟩ := loadDataOnResponse_some p a r o h
  exact ⟨_, hq, fun hu => Nat.le_trans (indicatorCount_loadDataCatch p a m _) hu⟩

theorem loadDataOnBody_finally (p : Page) (a : LoadArgs) (b : BodyResult) (now : Int)
    (q : Bool) :
    ∃ p', (loadDataOnBody p a b now q).1 = loadDataFinally p' a ∧
      (indicatorCount p.document a.containerId ≤ 1 → KeepsIndicatorUnique a →
        indicatorCount p'.document a.containerId ≤ 1) := by
  unfold loadDataOnBody
  split
  · exact ⟨_, rfl, fun hu _ => Nat.le_trans (indicatorCount_loadDataCatch p a _ _) hu⟩
  · simp only
    split
    · refine ⟨_, rfl, ?_⟩
      intro hu hk
      refine Nat.le_trans (indicatorCount_loadDataCatch _ a _ _) ?_
      exact hk _ _ (by simpa using hu)
    · refine ⟨_, rfl, ?_⟩
      intro hu hk
      exact hk _ _ (by simpa using hu)

/-- Every exit of `loadData` goes through the `finally` block. -/
theorem loadData_finally (p : Page) (a : LoadArgs) (env : CallEnv) :
    ∃ p', (loadData p a env).1 = loadDataFinally p' a ∧
      (indicatorCount p.document a.containerId ≤ 1 → KeepsIndicatorUnique a →
        indicatorCount p'.document a.containerId ≤ 1) := by
  simp only [loadData]
  split
  · rename_i o ho
    exact loadDataBegin_finally p a env.readTime o ho
  · rename_i hb
    split
    · rename_i o ho
      obtain ⟨p', hq, hp'⟩ := loadDataOnResponse_finally _ a env.fetchResult o ho
      exact ⟨p', hq, fun hu _ => hp' (loadDataBegin_unique p a env.readTime hb hu)⟩
    · rename_i hr
      obtain ⟨r₁, -⟩ := loadDataOnResponse_none _ a env.fetchResult hr
      rw [r₁]
      obtain ⟨p', hq, hp'⟩ := loadDataOnBody_finally (loadDataBegin p a env.readTime).1 a
        env.body env.writeTime env.quotaExceeded
      exact ⟨p', hq, fun hu hk => hp' (loadDataBegin_unique p a env.readTime hb hu) hk⟩

/-- Claim C11. For every `loadData` call and every outcome (cache hit, fetch
success, failure with a retry scheduled, failure with the error rendered), when
the call completes `isLoading(containerId)` is false and no loading-indicator
element with id `loading-<containerId>` remains in the document; the document
is one in which that id is unique (at most one element has it), and the update
callback keeps it so. -/
theorem loadData_clears_loading_state (p : Page) (a : LoadArgs) (env : CallEnv) :
    isLoading (loadData p a env).1 a.containerId = false ∧
      (indicatorCount p.document a.containerId ≤ 1 → KeepsIndicatorUnique a →
        hasIndicator (loadData p a env).1.document a.containerId = false ∧
          indicatorCount (loadData p a env).1.document a.containerId = 0) := by
  obtain ⟨p', hq, hp'⟩ := loadData_finally p a env
  rw [hq]
  refine ⟨isLoading_loadDataFinally p' a, ?_⟩
  intro hu hk
  have hzero := hasIndicator_loadDataFinally p' a (hp' hu hk)
  refine ⟨?_, hzero⟩
  cases hh : hasIndicator (loadDataFinally p' a).document a.containerId
  · rfl
  · have := (hasIndicator_iff _ _).mp hh
    omega

/-- Witness for `loadData_clears_loading_state`: a first call fails and leaves a
retry scheduled, a second one succeeds; after each, `c1` is not loading and
holds no indicator. -/
theorem loadData_clears_loading_state_witness :
    indicatorCount samplePage.document plainArgs.containerId ≤ 1 ∧
      KeepsIndicatorUnique plainArgs ∧
      isLoading (loadData samplePage plainArgs failingEnv).1 "c1" = false ∧
      hasIndicator (loadData samplePage plainArgs failingEnv).1.document "c1" = false ∧
      hasIndicator (loadDataBegin samplePage plainArgs 2000).1.document "c1" = true ∧
      isLoading (loadData samplePage plainArgs okEnv).1 "c1" = false ∧
      hasIndicator (loadData samplePage plainArgs okEnv).1.document "c1" = false :=
  have hk : KeepsIndicatorUnique plainArgs := fun _ _ h => h
  have h₁ := loadData_clears_loading_state samplePage plainArgs failingEnv
  have h₂ := loadData_clears_loading_state samplePage plainArgs okEnv
  ⟨by decide, hk, h₁.1, (h₁.2 (by decide) hk).1, by decide, h₂.1, (h₂.2 (by decide) hk).1⟩

/-! ## `loadMultiple` -/

theorem loadDataBegin_fetches (p : Page) (a : LoadArgs) (now : Int) :
    fetches (loadDataBegin p a now).1.events =
      fetches p.events ++
        (match (loadDataBegin p a now).2 with
         | none => [a.endpoint]
         | some _ => []) := by
  cases h : (loadDataBegin p a now).2 with
  | none =>
    obtain ⟨-, -, h₃⟩ := loadDataBegin_none p a now h
    rw [← fetches_notable, h₃, fetches_append, fetches_notable]
    rfl
  | some o =>
    cases o with
    | cacheHit =>
      obtain ⟨-, -, d, h₃⟩ := loadDataBegin_cacheHit p a now h
      rw [← fetches_notable, h₃, fetches_append, fetches_notable]
      rfl
    | success => exact absurd h (loadDataBegin_ne_success p a now)
    | failed m =>
      obtain ⟨p', d, hq, -, -, h₄⟩ := loadDataBegin_failed p a now m h
      obtain ⟨Y, hY, -, hf, -⟩ := loadDataFail_notable p' a m
      rw [hq, ← fetches_notable, hY, h₄, fetches_append, fetches_append, fetches_notable, hf]
      simp [fetches]

theorem startTasks_requests (requests : List Request) :
    ∀ p : Page, (startTasks p requests).2.map LoadTask.request = requests := by
  induction requests with
  | nil => intro p; rfl
  | cons r rest ih =>
    intro p
    simp only [startTasks, List.map_cons, ih]
    rfl

theorem startTasks_fetches (requests : List Request) :
    ∀ p : Page, fetches (startTasks p requests).1.events =
      fetches p.events ++
        ((startTasks p requests).2.filter
          (fun t => decide (t.phase = .awaitingFetch))).map
            (fun t => t.request.args.endpoint) := by
  induction requests with
  | nil => intro p; simp [startTasks]
  | cons r rest ih =>
    intro p
    simp only [startTasks]
    rw [ih, List.filter_cons]
    have hb := loadDataBegin_fetches p r.args r.env.readTime
    cases h : (loadDataBegin p r.args r.env.readTime).2 with
    | none =>
      rw [h] at hb
      have hphase : (startTask p r).2.phase = .awaitingFetch := by simp [startTask, h]
      simp only [hphase, decide_True, if_true, List.map_cons]
      show fetches (loadDataBegin p r.args r.env.readTime).1.events ++ _ = _
      rw [hb]
      simp [startTask]
    | some o =>
      rw [h] at hb
      have hphase : (startTask p r).2.phase = .settled o := by simp [startTask, h]
      simp only [hphase]
      show fetches (loadDataBegin p r.args r.env.readTime).1.events ++ _ = _
      rw [hb]
      simp

theorem resumeTask_request (p : Page) (t : LoadTask) : (resumeTask p t).2.request = t.request := by
  unfold resumeTask
  split <;> rfl

theorem resumeTask_remaining (p : Page) (t : LoadTask) :
    (resumeTask p t).2.remaining ≤ t.remaining - 1 := by
  unfold resumeTask
  split
  · rename_i h
    cases hr : (loadDataOnResponse p t.request.args t.request.env.fetchResult).2 <;>
      simp [LoadTask.remaining, h, hr]
  · rename_i h
    simp [LoadTask.remaining, h]
  · rename_i o h
    simp [LoadTask.remaining, h]

theorem resumeAt_of_none (p : Page) (tasks : List LoadTask) (i : Nat) (h : tasks[i]? = none) :
    resumeAt p tasks i = (p, tasks) := by
  simp [resumeAt, List.get?_eq_getElem?, h]

theorem resumeAt_of_some (p : Page) (tasks : List LoadTask) (i : Nat) (t : LoadTask)
    (h : tasks[i]? = some t) :
    resumeAt p tasks i = ((resumeTask p t).1, tasks.set i (resumeTask p t).2) := by
  simp [resumeAt, List.get?_eq_getElem?, h]

theorem resumeAt_getElem?_ne (p : Page) (tasks : List LoadTask) (i j : Nat) (h : i ≠ j) :
    (resumeAt p tasks i).2[j]? = tasks[j]? := by
  cases ht : tasks[i]? with
  | none => rw [resumeAt_of_none p tasks i ht]
  | some t => rw [resumeAt_of_some p tasks i t ht]; exact List.getElem?_set_ne h

theorem resumeAt_getElem?_self (p : Page) (tasks : List LoadTask) (i : Nat) (t : LoadTask)
    (h : tasks[i]? = some t) : (resumeAt p tasks i).2[i]? = some (resumeTask p t).2 := by
  rw [resumeAt_of_some p tasks i t h]
  obtain ⟨hlt, -⟩ := List.getElem?_eq_some.mp h
  simp [List.getElem?_set, hlt]

/-- A schedule that resumes every task as often as it has segments left to run
leaves every task settled. -/
theorem runSchedule_settles (schedule : List Nat) :
    ∀ (p : Page) (tasks : List LoadTask),
      (∀ (i : Nat) (t : LoadTask), tasks[i]? = some t → t.remaining ≤ schedule.count i) →
      ∀ (i : Nat) (t : LoadTask),
        (runSchedule p tasks schedule).2[i]? = some t → t.remaining = 0 := by
  induction schedule with
  | nil =>
    intro p tasks h i t ht
    have := h i t ht
    simpa using this
  | cons k rest ih =>
    intro p tasks h i t ht
    simp only [runSchedule] at ht
    refine ih _ _ ?_ i t ht
    intro j u hu
    by_cases hjk : k = j
    · subst hjk
      cases hk : tasks[k]? with
      | none =>
        rw [resumeAt_of_none p tasks k hk] at hu
        rw [hk] at hu
        cases hu
      | some t₀ =>
        rw [resumeAt_getElem?_self p tasks k t₀ hk] at hu
        cases hu
        have h₁ := h k t₀ hk
        have h₂ := resumeTask_remaining p t₀
        rw [List.count_cons_self] at h₁
        omega
    · rw [resumeAt_getElem?_ne p tasks k j hjk] at hu
      have h₁ := h j u hu
      rw [List.count_cons_of_ne (fun e => hjk e.symm)] at h₁
      exact h₁

theorem loadDataOnResponse_callbacks (p : Page) (a : LoadArgs) (r : FetchResult) :
    callbacks (loadDataOnResponse p a r).1.events = callbacks p.events := by
  cases h : (loadDataOnResponse p a r).2 with
  | none => rw [(loadDataOnResponse_none p a r h).1]
  | some o =>
    obtain ⟨m, -, hq⟩ := loadDataOnResponse_some p a r o h
    obtain ⟨Y, hY, hc, -, -⟩ := loadDataFail_notable p a m
    rw [hq, ← callbacks_notable, hY, callbacks_append, callbacks_notable, hc]
    simp

theorem loadDataOnBody_callbacks_parsed (p : Page) (a : LoadArgs) (d : JVal) (now : Int)
    (q : Bool) :
    callbacks (loadDataOnBody p a (.parsed d) now q).1.events =
      callbacks p.events ++ [(d, a.containerId)] := by
  obtain ⟨⟨Y, hY, hc, -, -⟩, -⟩ := loadDataOnBody_parsed p a d now q
  rw [← callbacks_notable, hY, loadDataCache_notable]
  simp only [callbacks_append, callbacks_notable, hc]
  split
  · simp [callbacks]
  · split <;> simp [callbacks]

theorem loadDataOnBody_callbacks_mem (p : Page) (a : LoadArgs) (b : BodyResult) (now : Int)
    (q : Bool) (x : JVal × String) (h : x ∈ callbacks p.events) :
    x ∈ callbacks (loadDataOnBody p a b now q).1.events := by
  cases b with
  | invalid m =>
    obtain ⟨Y, hY, hc, -, -⟩ := loadDataFail_notable p a m
    have : (loadDataOnBody p a (.invalid m) now q).1 = loadDataFinally (loadDataCatch p a m) a :=
      rfl
    rw [this, ← callbacks_notable, hY, callbacks_append, callbacks_notable, hc]
    simpa using h
  | parsed d =>
    rw [loadDataOnBody_callbacks_parsed]
    exact List.mem_append_left _ h

theorem resumeTask_callbacks_mem (p : Page) (t : LoadTask) (x : JVal × String)
    (h : x ∈ callbacks p.events) : x ∈ callbacks (resumeTask p t).1.events := by
  unfold resumeTask
  split
  · show x ∈ callbacks (loadDataOnResponse p _ _).1.events
    rw [loadDataOnResponse_callbacks]
    exact h
  · exact loadDataOnBody_callbacks_mem p _ _ _ _ x h
  · exact h

theorem resumeAt_callbacks_mem (p : Page) (tasks : List LoadTask) (i : Nat)
    (x : JVal × String) (h : x ∈ callbacks p.events) :
    x ∈ callbacks (resumeAt p tasks i).1.events := by
  cases ht : tasks[i]? with
  | none => rw [resumeAt_of_none p tasks i ht]; exact h
  | some t => rw [resumeAt_of_some p tasks i t ht]; exact resumeTask_callbacks_mem p t x h

theorem runSchedule_callbacks_mem (schedule : List Nat) :
    ∀ (p : Page) (tasks : List LoadTask) (x : JVal × String),
      x ∈ callbacks p.events → x ∈ callbacks (runSchedule p tasks schedule).1.events := by
  induction schedule with
  | nil => intro p tasks x h; exact h
  | cons k rest ih =>
    intro p tasks x h
    exact ih _ _ x (resumeAt_callbacks_mem p tasks k x h)

theorem runSchedule_settled_stays (schedule : List Nat) :
    ∀ (p : Page) (tasks : List LoadTask) (j : Nat) (t : LoadTask) (o : Outcome),
      tasks[j]? = some t → t.phase = .settled o →
      (runSchedule p tasks schedule).2[j]? = some t := by
  induction schedule with
  | nil => intro p tasks j t o h _; exact h
  | cons k rest ih =>
    intro p tasks j t o h ho
    simp only [runSchedule]
    refine ih _ _ j t o ?_ ho
    by_cases hkj : k = j
    · subst hkj
      rw [resumeAt_getElem?_self p tasks k t h]
      simp [resumeTask, ho]
    · rw [resumeAt_getElem?_ne p tasks k j hkj]
      exact h

/-- A task whose request is answered with an OK response and a parsed body gets
its callback invoked, and ends in success when the callback never throws,
whatever happens to the other tasks of the schedule. -/
theorem runSchedule_invokes_callback (schedule : List Nat) :
    ∀ (p : Page) (tasks : List LoadTask) (j : Nat) (t : LoadTask) (d : JVal)
      (status : Nat) (statusText : String),
      tasks[j]? = some t →
      t.request.env.fetchResult = .response true status statusText →
      t.request.env.body = .parsed d →
      ((t.phase = .awaitingFetch ∧ 2 ≤ schedule.count j) ∨
        (t.phase = .awaitingBody ∧ 1 ≤ schedule.count j)) →
      (d, t.request.args.containerId) ∈ callbacks (runSchedule p tasks schedule).1.events ∧
        ((∀ d' c doc, (t.request.args.updateCallback d' c doc).thrown = none) →
          ∃ t', (runSchedule p tasks schedule).2[j]? = some t' ∧
            t'.phase = .settled .success) := by
  induction schedule with
  | nil =>
    intro p tasks j t d status statusText _ _ _ hphase
    rcases hphase with ⟨-, h⟩ | ⟨-, h⟩ <;> simp at h
  | cons k rest ih =>
    intro p tasks j t d status statusText hj hok hbody hphase
    simp only [runSchedule]
    by_cases hkj : k = j
    · subst hkj
      have hnew := resumeAt_getElem?_self p tasks k t hj
      rw [List.count_cons_self] at hphase
      rcases hphase with ⟨hp, hc⟩ | ⟨hp, hc⟩
      · have hstep : (resumeTask p t).2 = { t with phase := .awaitingBody } := by
          simp [resumeTask, hp, hok, loadDataOnResponse]
        rw [hstep] at hnew
        exact ih _ _ k { t with phase := .awaitingBody } d status statusText hnew hok hbody
          (Or.inr ⟨rfl, by omega⟩)
      · have hpage : (resumeAt p tasks k).1 =
            (loadDataOnBody p t.request.args (.parsed d) t.request.env.writeTime
              t.request.env.quotaExceeded).1 := by
          rw [resumeAt_of_some p tasks k t hj]
          simp [resumeTask, hp, hbody]
        have hmem : (d, t.request.args.containerId) ∈ callbacks (resumeAt p tasks k).1.events := by
          rw [hpage, loadDataOnBody_callbacks_parsed]
          simp
        refine ⟨runSchedule_callbacks_mem rest _ _ _ hmem, ?_⟩
        intro hquiet
        have hstep : (resumeTask p t).2 = { t with phase := .settled .success } := by
          simp [resumeTask, hp, hbody, loadDataOnBody, invokeCallback, hquiet]
        rw [hstep] at hnew
        exact ⟨_, runSchedule_settled_stays rest _ _ k _ .success hnew rfl, rfl⟩
    · have hsame := resumeAt_getElem?_ne p tasks k j hkj
      rw [List.count_cons_of_ne (fun e => hkj e.symm)] at hphase
      exact ih _ _ j t d status statusText (hsame.trans hj) hok hbody hphase

theorem map_request_set (tasks : List LoadTask) :
    ∀ (i : Nat) (t t' : LoadTask), tasks[i]? = some t → t'.request = t.request →
      (tasks.set i t').map LoadTask.request = tasks.map LoadTask.request := by
  induction tasks with
  | nil => intro i t t' h; simp at h
  | cons hd tl ih =>
    intro i t t' h hr
    cases i with
    | zero =>
      simp only [List.getElem?_cons_zero, Option.some.injEq] at h
      subst h
      simp [hr]
    | succ n =>
      simp only [List.getElem?_cons_succ] at h
      simp [ih n t t' h hr]

theorem resumeAt_requests (p : Page) (tasks : List LoadTask) (i : Nat) :
    (resumeAt p tasks i).2.map LoadTask.request = tasks.map LoadTask.request := by
  cases ht : tasks[i]? with
  | none => rw [resumeAt_of_none p tasks i ht]
  | some t =>
    rw [resumeAt_of_some p tasks i t ht]
    exact map_request_set tasks i t _ ht (resumeTask_request p t)

theorem runSchedule_requests (schedule : List Nat) :
    ∀ (p : Page) (tasks : List LoadTask),
      (runSchedule p tasks schedule).2.map LoadTask.request = tasks.map LoadTask.request := by
  induction schedule with
  | nil => intro p tasks; rfl
  | cons k rest ih =>
    intro p tasks
    simp only [runSchedule]
    rw [ih, resumeAt_requests]

theorem LoadTask.remaining_le_two (t : LoadTask) : t.remaining ≤ 2 := by
  unfold LoadTask.remaining
  split <;> omega

theorem LoadTask.isSettled_of_remaining (t : LoadTask) (h : t.remaining = 0) :
    t.isSettled = true := by
  unfold LoadTask.remaining at h
  unfold LoadTask.isSettled
  split at h <;> simp_all

/-- Under a complete schedule every task of the batch is settled at the end. -/
theorem runSchedule_complete (p : Page) (requests : List Request) (schedule : List Nat)
    (hc : CompleteSchedule requests.length schedule) :
    (runSchedule (startTasks p requests).1 (startTasks p requests).2 schedule).2.all
      LoadTask.isSettled = true := by
  rw [List.all_eq_true]
  intro t ht
  obtain ⟨i, hi⟩ := List.mem_iff_getElem?.mp ht
  refine LoadTask.isSettled_of_remaining t
    (runSchedule_settles schedule _ _ ?_ i t hi)
  intro j u hu
  obtain ⟨hlt, -⟩ := List.getElem?_eq_some.mp hu
  have hlen : (startTasks p requests).2.length = requests.length := by
    have := congrArg List.length (startTasks_requests requests p)
    simpa using this
  exact Nat.le_trans u.remaining_le_two (hc j (by omega))

theorem loadMultiple_of_complete (p : Page) (requests : List Request) (schedule : List Nat)
    (hc : CompleteSchedule requests.length schedule) :
    loadMultiple p requests schedule =
      (emit (runSchedule (startTasks p requests).1 (startTasks p requests).2 schedule).1
          (.consoleLog ("✅ Completed batch loading of " ++ toString requests.length ++
            " requests")),
        (runSchedule (startTasks p requests).1 (startTasks p requests).2 schedule).2, true) := by
  simp only [loadMultiple, runSchedule_complete p requests schedule hc, if_true]

/-- Claim C18. For every list of requests, `loadMultiple` invokes `loadData`
exactly once per request, with that request's arguments and in list order (the
requests that miss the cache are issued in that order), and under every
schedule that lets each call run to its end it completes, every call settled,
whatever subset of the requests fail; a request whose fetch succeeds gets its
`updateCallback` invoked with the fetched data, and settles in success when
that callback does not throw, whatever the other requests do. -/
theorem loadMultiple_settles_independently (p : Page) (requests : List Request) :
    ((startTasks p requests).2.map LoadTask.request = requests ∧
        fetches (startTasks p requests).1.events =
          fetches p.events ++
            ((startTasks p requests).2.filter
              (fun t => decide (t.phase = .awaitingFetch))).map
                (fun t => t.request.args.endpoint)) ∧
      (∀ schedule, CompleteSchedule requests.length schedule →
        (loadMultiple p requests schedule).2.2 = true ∧
          (loadMultiple p requests schedule).2.1.map LoadTask.request = requests ∧
          ∀ t ∈ (loadMultiple p requests schedule).2.1, t.isSettled = true) ∧
      (∀ (schedule : List Nat) (j : Nat) (t : LoadTask) (d : JVal) (status : Nat)
          (statusText : String),
        CompleteSchedule requests.length schedule →
        (startTasks p requests).2[j]? = some t → t.phase = .awaitingFetch →
        t.request.env.fetchResult = .response true status statusText →
        t.request.env.body = .parsed d →
        (d, t.request.args.containerId) ∈
            callbacks (loadMultiple p requests schedule).1.events ∧
          ((∀ d' c doc, (t.request.args.updateCallback d' c doc).thrown = none) →
            ∃ t', (loadMultiple p requests schedule).2.1[j]? = some t' ∧
              t'.phase = .settled .success)) := by
  refine ⟨⟨startTasks_requests requests p, startTasks_fetches requests p⟩, ?_, ?_⟩
  · intro schedule hc
    rw [loadMultiple_of_complete p requests schedule hc]
    refine ⟨rfl, ?_, ?_⟩
    · show (runSchedule _ _ schedule).2.map LoadTask.request = requests
      rw [runSchedule_requests, startTasks_requests]
    · exact List.all_eq_true.mp (runSchedule_complete p requests schedule hc)
  · intro schedule j t d status statusText hc hj hphase hok hbody
    rw [loadMultiple_of_complete p requests schedule hc]
    obtain ⟨hlt, -⟩ := List.getElem?_eq_some.mp hj
    have hlen : (startTasks p requests).2.length = requests.length := by
      have := congrArg List.length (startTasks_requests requests p)
      simpa using this
    obtain ⟨h₁, h₂⟩ := runSchedule_invokes_callback schedule (startTasks p requests).1
      (startTasks p requests).2 j t d status statusText hj hok hbody
      (Or.inl ⟨hphase, hc j (by omega)⟩)
    refine ⟨?_, h₂⟩
    simp only [emit_events, callbacks_append]
    exact List.mem_append_left _ h₁

/-- Witness for `loadMultiple_settles_independently`: a batch of `/api/x`, which
is answered `500`, and `/api/y`, which succeeds; the answers arrive in the order
x, y, y, x. -/
theorem loadMultiple_settles_independently_witness :
    CompleteSchedule sampleBatch.length [0, 1, 1, 0] ∧
      fetches (startTasks samplePage sampleBatch).1.events = ["/api/x", "/api/y"] ∧
      (loadMultiple samplePage sampleBatch [0, 1, 1, 0]).2.2 = true ∧
      (.obj [("v", .num 1)], "c2") ∈
        callbacks (loadMultiple samplePage sampleBatch [0, 1, 1, 0]).1.events ∧
      (loadMultiple samplePage sampleBatch [0, 1, 1, 0]).2.1.map LoadTask.phase =
        [.settled (.failed "HTTP 500: Internal Server Error"), .settled .success] :=
  have hc : CompleteSchedule sampleBatch.length [0, 1, 1, 0] := by
    intro i hi
    have : i = 0 ∨ i = 1 := by
      simp only [sampleBatch, List.length_cons, List.length_nil] at hi
      omega
    rcases this with h | h <;> subst h <;> decide
  have h := loadMultiple_settles_independently samplePage sampleBatch
  ⟨hc, by decide, (h.2.1 [0, 1, 1, 0] hc).1,
    (h.2.2 [0, 1, 1, 0] 1 secondTask (.obj [("v", .num 1)]) 200 "OK" hc (by rfl) rfl rfl
      rfl).1,
    by decide⟩

/-! ## Pagination controls: the window of numbered buttons -/

theorem mem_loopRange (lo hi p : Int) : p ∈ loopRange lo hi ↔ lo ≤ p ∧ p ≤ hi := by
  simp only [loopRange, List.mem_map, List.mem_range]
  constructor
  · rintro ⟨k, hk, rfl⟩
    omega
  · rintro ⟨h1, h2⟩
    exact ⟨(p - lo).toNat, by omega, by omega⟩

theorem length_loopRange (lo hi : Int) : (loopRange lo hi).length = (hi + 1 - lo).toNat := by
  simp [loopRange]

theorem loopRange_nodup (lo hi : Int) : (loopRange lo hi).Nodup := by
  simp only [loopRange]
  refine List.Nodup.map ?_ (List.nodup_range _)
  intro a b h
  simpa using h

theorem loopRange_chain (lo hi : Int) :
    List.Chain' (fun a b : Int => b = a + 1) (loopRange lo hi) := by
  simp only [loopRange]
  rw [List.chain'_map]
  cases (hi + 1 - lo).toNat with
  | zero => simp
  | succ n =>
    rw [List.chain'_range_succ]
    intro m _
    push_cast
    omega

theorem loopRange_empty (lo hi : Int) (h : hi < lo) : loopRange lo hi = [] := by
  have h0 : (hi + 1 - lo).toNat = 0 := by omega
  simp [loopRange, h0]

theorem loopRange_five (lo : Int) :
    loopRange lo (lo + 4) = [lo, lo + 1, lo + 2, lo + 3, lo + 4] := by
  have h5 : (lo + 4 + 1 - lo).toNat = 5 := by omega
  simp [loopRange, h5, List.range_succ]

theorem loopRange_cons (lo hi : Int) (h : lo ≤ hi) :
    loopRange lo hi = lo :: loopRange (lo + 1) hi := by
  obtain ⟨n, hn⟩ : ∃ n, (hi + 1 - lo).toNat = n + 1 := ⟨(hi - lo).toNat, by omega⟩
  have hn' : (hi + 1 - (lo + 1)).toNat = n := by omega
  simp only [loopRange, hn, hn', List.range_succ_eq_map, List.map_cons, List.map_map]
  refine congrArg₂ _ (by simp) (List.map_congr_left fun k _ => ?_)
  show lo + ((k + 1 : Nat) : Int) = lo + 1 + (k : Int)
  push_cast
  omega

/-- Up to `2 ^ 53` the increment of the loop is exact: the loop ends and has
pushed the buttons of the pages `i, ..., last`. -/
theorem pageLoop_exact (c last : Int) (hlast : last < 2 ^ 53) :
    ∀ (fuel : Nat) (i : Int), 1 ≤ i → (last + 1 - i).toNat ≤ fuel →
      pageLoop c last fuel i =
        some ((loopRange i last).map (fun j => { page := j, active := decide (j = c) })) := by
  intro fuel
  induction fuel with
  | zero =>
    intro i _ hc
    have hlt : last < i := by omega
    simp only [pageLoop, if_neg (not_le.mpr hlt), loopRange_empty i last hlt, List.map_nil]
  | succ n ih =>
    intro i hi hc
    by_cases h : i ≤ last
    · simp only [pageLoop, if_pos h]
      rw [toDouble_of_abs_le (by omega) (by omega), ih (i + 1) (by omega) (by omega),
        loopRange_cons i last h]
      rfl
    · have hlt : last < i := by omega
      simp only [pageLoop, if_neg h, loopRange_empty i last hlt, List.map_nil]

/-- The loop, started at a page that is at least 1, pushes pages that are at
least 1 only. -/
theorem pageLoop_pages_pos (c last : Int) :
    ∀ (fuel : Nat) (i : Int) (l : List PageButton), 1 ≤ i → pageLoop c last fuel i = some l →
      ∀ b ∈ l, 1 ≤ b.page := by
  intro fuel
  induction fuel with
  | zero =>
    intro i l _ h b hb
    simp only [pageLoop] at h
    split at h
    · cases h
    · cases h
      cases hb
  | succ n ih =>
    intro i l hi h b hb
    simp only [pageLoop] at h
    split at h
    · cases hr : pageLoop c last n (toDouble (i + 1)) with
      | none => simp [hr] at h
      | some rest =>
        simp only [hr, Option.map_some', Option.some.injEq] at h
        subst h
        rcases List.mem_cons.1 hb with rfl | hb'
        · exact hi
        · exact ih (toDouble (i + 1)) rest
            (le_toDouble (by decide) (by decide) (by omega)) hr b hb'
    · cases h
      cases hb

/-- A loop that does not end from the next value of `i` on does not end. -/
theorem pageLoop_none_of_next (c last i j : Int) (h : i ≤ last) (hj : toDouble (i + 1) = j)
    (hn : ∀ fuel, pageLoop c last fuel j = none) : ∀ fuel, pageLoop c last fuel i = none := by
  intro fuel
  cases fuel with
  | zero => simp [pageLoop, h]
  | succ n => simp [pageLoop, h, hj, hn n]

/-- A loop whose increment is absorbed (`i + 1` rounds to `i`) does not end. -/
theorem pageLoop_none_of_absorbed (c last i : Int) (h : i ≤ last) (ha : toDouble (i + 1) = i) :
    ∀ fuel, pageLoop c last fuel i = none := by
  intro fuel
  induction fuel with
  | zero => simp [pageLoop, h]
  | succ n ih => simp [pageLoop, h, ha, ih]

theorem windowEnd_exact (t start : Int) (ht : t < 2 ^ 53) (hs : 1 ≤ start) :
    min t (toDouble (toDouble (start + 5) - 1)) = min t (start + 4) := by
  by_cases h : start + 5 ≤ 2 ^ 53
  · rw [toDouble_of_abs_le (by omega) h, toDouble_of_abs_le (by omega) (by omega)]
    congr 1
    omega
  · have h₁ : (2 : Int) ^ 53 ≤ toDouble (start + 5) :=
      le_toDouble (by decide) (by decide) (by omega)
    have h₂ : (2 : Int) ^ 53 - 1 ≤ toDouble (toDouble (start + 5) - 1) :=
      le_toDouble (by decide) (by decide) (by omega)
    omega

theorem windowTest_exact (last start : Int) (h : last ≤ start + 4) :
    toDouble (toDouble (last - start) + 1) < 5 ↔ last - start + 1 < 5 := by
  by_cases hl : -2 ^ 53 ≤ last - start
  · rw [toDouble_of_abs_le hl (by omega), toDouble_of_abs_le (by omega) (by omega)]
  · have h₁ : toDouble (last - start) ≤ -2 ^ 53 :=
      toDouble_le (by decide) (by decide) (by omega)
    have h₂ : toDouble (toDouble (last - start) + 1) ≤ -2 ^ 53 + 1 :=
      toDouble_le (by decide) (by decide) (by omega)
    constructor <;> intro _ <;> omega

theorem windowStart_exact (last : Int) (h : last < 2 ^ 53) :
    max 1 (toDouble (toDouble (last - 5) + 1)) = max 1 (last - 4) := by
  by_cases hl : -2 ^ 53 ≤ last - 5
  · rw [toDouble_of_abs_le hl (by omega), toDouble_of_abs_le (by omega) (by omega)]
    congr 1
    omega
  · have h₁ : toDouble (last - 5) ≤ -2 ^ 53 :=
      toDouble_le (by decide) (by decide) (by omega)
    have h₂ : toDouble (toDouble (last - 5) + 1) ≤ -2 ^ 53 + 1 :=
      toDouble_le (by decide) (by decide) (by omega)
    omega

/-- With fewer than `2 ^ 53` pages and five iterations allowed, the loop ends:
the numbered buttons are the pages of a loop range whose bounds satisfy what
the two assignments to `start` and the one to `end` give in exact arithmetic. -/
theorem generatePageNumbers_eq (fuel : Nat) (s : ProgressivePagination)
    (ht : s.totalPages < 2 ^ 53) (hfuel : 5 ≤ fuel) :
    ∃ lo hi : Int,
      generatePageNumbers fuel s =
        some ((loopRange lo hi).map
          (fun i => { page := i, active := decide (i = s.currentPage) })) ∧
      1 ≤ lo ∧ hi ≤ s.totalPages ∧ hi ≤ lo + 4 ∧
      (s.totalPages < 1 → hi < lo) ∧
      (1 ≤ s.totalPages → lo ≤ hi) ∧
      (1 ≤ s.currentPage → s.currentPage ≤ s.totalPages →
        lo = max 1 (min (s.currentPage - 2) (s.totalPages - 4)) ∧
        hi = min s.totalPages (lo + 4)) := by
  have h52 : (5 : Int) / 2 = 2 := by decide
  have hs : 1 ≤ max 1 (toDouble (s.currentPage - 2)) := le_max_left _ _
  have hexact : -2 ^ 53 ≤ s.currentPage - 2 → s.currentPage - 2 ≤ 2 ^ 53 →
      toDouble (s.currentPage - 2) = s.currentPage - 2 := toDouble_of_abs_le
  have hend := windowEnd_exact s.totalPages (max 1 (toDouble (s.currentPage - 2))) ht hs
  have htest := windowTest_exact
    (min s.totalPages (max 1 (toDouble (s.currentPage - 2)) + 4))
    (max 1 (toDouble (s.currentPage - 2))) (min_le_right _ _)
  have hstart := windowStart_exact
    (min s.totalPages (max 1 (toDouble (s.currentPage - 2)) + 4))
    (lt_of_le_of_lt (min_le_left _ _) ht)
  have hrel : -2 ^ 53 ≤ s.currentPage - 2 → s.currentPage - 2 ≤ 2 ^ 53 →
      max 1 (toDouble (s.currentPage - 2)) = max 1 (s.currentPage - 2) := by
    intro h₁ h₂
    rw [hexact h₁ h₂]
  simp only [generatePageNumbers, h52, hend, htest, hstart]
  generalize max 1 (toDouble (s.currentPage - 2)) = start at hs hrel ⊢
  refine ⟨_, _, pageLoop_exact s.currentPage _ (lt_of_le_of_lt (min_le_left _ _) ht) fuel _ ?_ ?_,
    ?_⟩
  · split_ifs <;> omega
  · split_ifs <;> omega
  · split_ifs <;> omega

/-- Whatever the number of pages, the numbered buttons that are returned are
those of pages that are at least 1. -/
theorem generatePageNumbers_pages_pos (fuel : Nat) (s : ProgressivePagination)
    (l : List PageButton) (h : generatePageNumbers fuel s = some l) : ∀ b ∈ l, 1 ≤ b.page := by
  simp only [generatePageNumbers] at h
  refine pageLoop_pages_pos _ _ fuel _ l ?_ h
  split_ifs
  · exact le_max_left _ _
  · exact le_max_left _ _

theorem window_createPaginationControls (fuel : Nat) (s : ProgressivePagination) (t : Int)
    (ht : t < 2 ^ 53) (hfuel : 5 ≤ fuel) :
    ∃ lo hi : Int,
      (createPaginationControls fuel s t).1.pageButtons =
        some ((loopRange lo hi).map
          (fun i => { page := i, active := decide (i = s.currentPage) })) ∧
      (createPaginationControls fuel s t).1.window = some (loopRange lo hi) ∧
      1 ≤ lo ∧ hi ≤ t ∧ hi ≤ lo + 4 ∧ (t < 1 → hi < lo) ∧ (1 ≤ t → lo ≤ hi) ∧
      (1 ≤ s.currentPage → s.currentPage ≤ t →
        lo = max 1 (min (s.currentPage - 2) (t - 4)) ∧ hi = min t (lo + 4)) := by
  obtain ⟨lo, hi, he, h⟩ := generatePageNumbers_eq fuel { s with totalPages := t } ht hfuel
  refine ⟨lo, hi, he, ?_, h⟩
  simp only [createPaginationControls, Controls.window, he, Option.map_some', List.map_map]
  exact congrArg some (List.map_id _)

theorem filter_active_map (c : Int) (l : List Int) :
    ((l.map (fun i => ({ page := i, active := decide (i = c) } : PageButton))).filter
        (fun b => b.active)) =
      List.replicate (l.count c) { page := c, active := true } := by
  rw [List.filter_map]
  have hf : ((fun b : PageButton => b.active) ∘
      fun i => ({ page := i, active := decide (i = c) } : PageButton)) =
      fun i => i == c := by
    funext i
    simp [BEq.beq]
  rw [hf, List.filter_beq, List.map_replicate]
  simp

/-- With `currentPage = totalPages = 2 ^ 53` the loop of `generatePageNumbers`
runs from `2 ^ 53 - 4` up to `2 ^ 53`, where `i++` leaves `i` as it is: it does
not end, however many iterations it is given. -/
theorem generatePageNumbers_two_pow (fuel : Nat) :
    generatePageNumbers fuel (paginationAt 9007199254740992 9007199254740992) = none := by
  have h : generatePageNumbers fuel (paginationAt 9007199254740992 9007199254740992) =
      pageLoop 9007199254740992 9007199254740992 fuel 9007199254740988 := by
    simp only [generatePageNumbers, paginationAt]
    rfl
  rw [h]
  refine pageLoop_none_of_next _ _ _ 9007199254740989 (by decide) (by decide) ?_ fuel
  refine pageLoop_none_of_next _ _ _ 9007199254740990 (by decide) (by decide) ?_
  refine pageLoop_none_of_next _ _ _ 9007199254740991 (by decide) (by decide) ?_
  refine pageLoop_none_of_next _ _ _ 9007199254740992 (by decide) (by decide) ?_
  exact pageLoop_none_of_absorbed _ _ _ (by decide) (by decide)

/-- With controls rendered for at least one page and clicks on enabled buttons
only, the current page and the number of pages stay positive, and so does every
page that an enabled button of the rendered controls passes. -/
theorem EnabledReachable.positive {s : ProgressivePagination} {c : Option Controls}
    (h : EnabledReachable s c) :
    1 ≤ s.currentPage ∧ 1 ≤ s.totalPages ∧
      ∀ c0, c = some c0 → ∀ p ∈ c0.enabledTargets, 1 ≤ p := by
  induction h with
  | new containerId =>
    refine ⟨by simp [ProgressivePagination.new], by simp [ProgressivePagination.new], ?_⟩
    intro c0 h0
    cases h0
  | @render s c fuel t _ ht ih =>
    refine ⟨ih.1, ht, ?_⟩
    intro c0 h0 p hp
    cases h0
    have hc := ih.1
    simp only [Controls.enabledTargets, List.mem_append] at hp
    rcases hp with (hp | hp) | hp
    · simp only [createPaginationControls] at hp
      split at hp
      · cases hp
      · rename_i hd
        simp only [decide_eq_true_eq] at hd
        simp only [List.mem_singleton] at hp
        rw [hp]
        exact le_toDouble (by decide) (by decide) (by omega)
    · simp only [createPaginationControls] at hp
      split at hp
      · cases hp
      · simp only [List.mem_singleton] at hp
        rw [hp]
        exact le_toDouble (by decide) (by decide) (by omega)
    · simp only [createPaginationControls, Controls.window] at hp
      cases hg : generatePageNumbers fuel { s with totalPages := t } with
      | none => simp [hg] at hp
      | some l =>
        simp only [hg, Option.map_some', Option.getD_some, List.mem_map] at hp
        obtain ⟨b, hb, rfl⟩ := hp
        exact generatePageNumbers_pages_pos fuel _ l hg b hb
  | @click s c page start _ hp ih =>
    refine ⟨?_, ?_, ih.2.2⟩
    · simp only [loadPage]
      split
      · exact ih.1
      · cases start <;> exact ih.2.2 c rfl page hp
    · simp only [loadPage]
      split
      · exact ih.2.1
      · cases start <;> exact ih.2.1
  | @settle s c e _ _ ih =>
    exact ⟨ih.1, ih.2.1, ih.2.2⟩

/-! ## Pagination: reachable states and the rendered controls -/

/-- Claim C21 (counterexample to the claim as stated). On a new instance with
controls rendered for 3 pages the item of the previous button is marked
disabled, but its click still passes page 0, and `loadPage(0)` makes the current
page 0; and controls rendered for 0 pages make the number of pages 0. -/
theorem previous_button_reaches_page_zero :
    (createPaginationControls 5 (ProgressivePagination.new "members") 3).1.previousDisabled =
      true ∧
    (createPaginationControls 5 (ProgressivePagination.new "members") 3).1.previousPage = 0 ∧
    (createPaginationControls 5 (ProgressivePagination.new "members") 3).1.window =
      some [1, 2, 3] ∧
    ControlsReachable
      (loadPage (createPaginationControls 5 (ProgressivePagination.new "members") 3).2 0
        .returned).1
      (some (createPaginationControls 5 (ProgressivePagination.new "members") 3).1) ∧
    (loadPage (createPaginationControls 5 (ProgressivePagination.new "members") 3).2 0
        .returned).1.currentPage = 0 ∧
    (createPaginationControls 5 (ProgressivePagination.new "members") 0).1.window = some [] ∧
    ControlsReachable (createPaginationControls 5 (ProgressivePagination.new "members") 0).2
      (some (createPaginationControls 5 (ProgressivePagination.new "members") 0).1) ∧
    (createPaginationControls 5 (ProgressivePagination.new "members") 0).2.totalPages = 0 :=
  ⟨by decide, by decide, by decide,
    ControlsReachable.click 0 .returned
      (ControlsReachable.render 5 3 (ControlsReachable.new "members")) (by decide),
    by decide, by decide,
    ControlsReachable.render 5 0 (ControlsReachable.new "members"), by decide⟩

/-- Claim C21 (as amended). In every state reached from a new instance by
`createPaginationControls(T)` calls with `T ≥ 1` and by `loadPage(p)` calls with
a page passed by a button of the rendered controls that is not marked disabled,
the current page and the number of pages are integers that are at least 1. -/
theorem enabledReachable_pages_positive (s : ProgressivePagination) (c : Option Controls)
    (h : EnabledReachable s c) : 1 ≤ s.currentPage ∧ 1 ≤ s.totalPages :=
  ⟨h.positive.1, h.positive.2.1⟩

/-- Witness for `enabledReachable_pages_positive`: a new instance, controls
rendered for 10 pages, then a click on the button of page 4. -/
theorem enabledReachable_pages_positive_witness :
    EnabledReachable
        (loadPage (createPaginationControls 5 (ProgressivePagination.new "members") 10).2 4
          .returned).1
        (some (createPaginationControls 5 (ProgressivePagination.new "members") 10).1) ∧
      1 ≤ (loadPage (createPaginationControls 5 (ProgressivePagination.new "members") 10).2 4
          .returned).1.currentPage ∧
      1 ≤ (loadPage (createPaginationControls 5 (ProgressivePagination.new "members") 10).2 4
          .returned).1.totalPages :=
  have hr : EnabledReachable
      (loadPage (createPaginationControls 5 (ProgressivePagination.new "members") 10).2 4
        .returned).1
      (some (createPaginationControls 5 (ProgressivePagination.new "members") 10).1) :=
    EnabledReachable.click 4 .returned
      (EnabledReachable.render 5 10 (EnabledReachable.new "members") (by decide)) (by decide)
  ⟨hr, enabledReachable_pages_positive _ _ hr⟩

/-- Claim C22 (counterexample to the claim as stated). On page `2 ^ 53 - 2` of
`2 ^ 53` pages the sum `start + maxVisible` of line 387 is rounded, and the
numbered buttons are those of the pages `c - 3 .. c + 1`, where the claimed
bounds give `c - 2 .. c + 2`. -/
theorem createPaginationControls_window_rounded :
    (1 : Int) ≤ 9007199254740992 ∧
      1 ≤ (paginationAt 9007199254740990 1).currentPage ∧
      (paginationAt 9007199254740990 1).currentPage ≤ 9007199254740992 ∧
      (createPaginationControls 5 (paginationAt 9007199254740990 1) 9007199254740992).1.window =
        some [9007199254740987, 9007199254740988, 9007199254740989, 9007199254740990,
          9007199254740991] ∧
      loopRange (max 1 (min (9007199254740990 - 2) (9007199254740992 - 4)))
          (min 9007199254740992 (max 1 (min (9007199254740990 - 2) (9007199254740992 - 4)) + 4)) =
        [9007199254740988, 9007199254740989, 9007199254740990, 9007199254740991,
          9007199254740992] := by
  decide

/-- Claim C22 (as amended). With `T` pages, `1 ≤ T < 2 ^ 53`, and the current
page `c` in `[1, T]`, `createPaginationControls(T)` returns, and its numbered
buttons are the pages `s..e` with `s = max(1, min(c - 2, T - 4))` and
`e = min(T, s + 4)`: there are `min(5, T)` of them, `c` is among them, and they
are `c - 2 .. c + 2` when `3 ≤ c ≤ T - 2`.  For `T = 10` they are `1..5` on
page 1, `3..7` on page 5 and `6..10` on page 10. -/
theorem createPaginationControls_window (fuel : Nat) (s : ProgressivePagination) (t : Int)
    (hfuel : 5 ≤ fuel) (hsafe : t < 2 ^ 53)
    (ht : 1 ≤ t) (h1 : 1 ≤ s.currentPage) (h2 : s.currentPage ≤ t) :
    (createPaginationControls fuel s t).1.window =
        some (loopRange (max 1 (min (s.currentPage - 2) (t - 4)))
          (min t (max 1 (min (s.currentPage - 2) (t - 4)) + 4))) ∧
      (∃ w, (createPaginationControls fuel s t).1.window = some w ∧
        (w.length : Int) = min 5 t ∧ s.currentPage ∈ w) ∧
      (3 ≤ s.currentPage → s.currentPage ≤ t - 2 →
        (createPaginationControls fuel s t).1.window =
          some [s.currentPage - 2, s.currentPage - 1, s.currentPage, s.currentPage + 1,
            s.currentPage + 2]) ∧
      (createPaginationControls fuel (paginationAt 1 1) 10).1.window = some [1, 2, 3, 4, 5] ∧
      (createPaginationControls fuel (paginationAt 5 1) 10).1.window = some [3, 4, 5, 6, 7] ∧
      (createPaginationControls fuel (paginationAt 10 1) 10).1.window =
        some [6, 7, 8, 9, 10] := by
  have hex : ∀ c : Int, 1 ≤ c → c ≤ 10 →
      (createPaginationControls fuel (paginationAt c 1) 10).1.window =
        some (loopRange (max 1 (min (c - 2) (10 - 4)))
          (min 10 (max 1 (min (c - 2) (10 - 4)) + 4))) := by
    intro c hc₁ hc₂
    obtain ⟨lo, hi, -, hw, -, -, -, -, -, hf⟩ :=
      window_createPaginationControls fuel (paginationAt c 1) 10 (by decide) hfuel
    obtain ⟨hlo, hhi⟩ := hf hc₁ hc₂
    rw [hw, hhi, hlo]
    rfl
  obtain ⟨lo, hi, -, hw, hlo, hhi, hlen, -, -, hf⟩ :=
    window_createPaginationControls fuel s t hsafe hfuel
  obtain ⟨hlo', hhi'⟩ := hf h1 h2
  refine ⟨?_, ⟨loopRange lo hi, hw, ?_, ?_⟩, ?_, ?_, ?_, ?_⟩
  · rw [hw, hhi', hlo']
  · rw [length_loopRange]
    omega
  · rw [mem_loopRange]
    omega
  · intro h3 h4
    have e1 : lo = s.currentPage - 2 := by omega
    have e2 : hi = s.currentPage - 2 + 4 := by omega
    rw [hw, e1, e2, loopRange_five]
    have a1 : s.currentPage - 2 + 1 = s.currentPage - 1 := by omega
    have a2 : s.currentPage - 2 + 2 = s.currentPage := by omega
    have a3 : s.currentPage - 2 + 3 = s.currentPage + 1 := by omega
    have a4 : s.currentPage - 2 + 4 = s.currentPage + 2 := by omega
    rw [a1, a2, a3, a4]
  · rw [hex 1 (by decide) (by decide)]
    decide
  · rw [hex 5 (by decide) (by decide)]
    decide
  · rw [hex 10 (by decide) (by decide)]
    decide

/-- Witness for `createPaginationControls_window`: page 5 of 10. -/
theorem createPaginationControls_window_witness :
    (5 : Nat) ≤ 5 ∧ (10 : Int) < 2 ^ 53 ∧ (1 : Int) ≤ 10 ∧
      1 ≤ (paginationAt 5 1).currentPage ∧ (paginationAt 5 1).currentPage ≤ 10 ∧
      (createPaginationControls 5 (paginationAt 5 1) 10).1.window = some (loopRange 3 7) :=
  have h := createPaginationControls_window 5 (paginationAt 5 1) 10 (by decide) (by decide)
    (by decide) (by decide) (by decide)
  ⟨by decide, by decide, by decide, by decide, by decide, h.1⟩

/-- Claim C23 (counterexample to the claim as stated). On page `2 ^ 53` of
`2 ^ 53` pages the loop of `generatePageNumbers` runs from `2 ^ 53 - 4` up to
`2 ^ 53`, where the increment `i++` is absorbed: however many iterations it is
given it does not end, and no buttons are returned. -/
theorem createPaginationControls_never_returns :
    toDouble (9007199254740992 + 1) = 9007199254740992 ∧
      ∀ fuel : Nat,
        (createPaginationControls fuel (paginationAt 9007199254740992 1)
          9007199254740992).1.pageButtons = none :=
  ⟨by decide, fun fuel => generatePageNumbers_two_pow fuel⟩

/-- Claim C23 (as amended). For every integer current page, also below 1 or
above `T`, and every integer `T < 2 ^ 53`, `createPaginationControls(T)`
returns: its numbered buttons are at most 5, their pages are consecutive and
strictly increasing, and each of them lies in `[1, T]`; for `T < 1` there is no
numbered button. -/
theorem createPaginationControls_window_bounds (fuel : Nat) (s : ProgressivePagination)
    (t : Int) (hfuel : 5 ≤ fuel) (hsafe : t < 2 ^ 53) :
    ∃ buttons, (createPaginationControls fuel s t).1.pageButtons = some buttons ∧
      buttons.length ≤ 5 ∧
      List.Chain' (fun a b : Int => b = a + 1) (buttons.map PageButton.page) ∧
      (buttons.map PageButton.page).Pairwise (fun a b => a < b) ∧
      (∀ p ∈ buttons.map PageButton.page, 1 ≤ p ∧ p ≤ t) ∧
      (t < 1 → buttons = []) := by
  obtain ⟨lo, hi, hb, hw, hlo, hhi, hlen, hnone, -, -⟩ :=
    window_createPaginationControls fuel s t hsafe hfuel
  have hpages : ((loopRange lo hi).map
      (fun i => ({ page := i, active := decide (i = s.currentPage) } : PageButton))).map
        PageButton.page = loopRange lo hi := by
    rw [List.map_map]
    exact List.map_id _
  have hc := loopRange_chain lo hi
  refine ⟨_, hb, ?_, ?_, ?_, ?_, ?_⟩
  · rw [List.length_map, length_loopRange]
    omega
  · rw [hpages]
    exact hc
  · rw [hpages]
    have hlt : List.Chain' (fun a b : Int => a < b) (loopRange lo hi) :=
      hc.imp (fun h => by omega)
    exact List.chain'_iff_pairwise.1 hlt
  · intro p hp
    rw [hpages, mem_loopRange] at hp
    omega
  · intro ht
    rw [loopRange_empty lo hi (hnone ht)]
    rfl

/-- Witness for `createPaginationControls_window_bounds`: on page 20 of 10 the
buttons are those of the pages 6 to 10, and for 0 pages there is none. -/
theorem createPaginationControls_window_bounds_witness :
    (5 : Nat) ≤ 5 ∧ (10 : Int) < 2 ^ 53 ∧
      (createPaginationControls 5 (paginationAt 20 1) 10).1.window = some [6, 7, 8, 9, 10] ∧
      (createPaginationControls 5 (paginationAt 2 1) 0).1.pageButtons = some [] ∧
      ∃ buttons, (createPaginationControls 5 (paginationAt 20 1) 10).1.pageButtons =
        some buttons ∧ buttons.length ≤ 5 :=
  have h := createPaginationControls_window_bounds 5 (paginationAt 20 1) 10 (by decide)
    (by decide)
  ⟨by decide, by decide, by decide, by decide, h.imp (fun _ hb => ⟨hb.1, hb.2.1⟩)⟩

/-- Claim C24. In the controls of `createPaginationControls(T)` the item of the
previous button is marked disabled exactly when the current page is at most 1
and the item of the next button exactly when the current page is at least `T`;
the call sets `totalPages` to `T` and leaves the current page and the loading
flag as they were. -/
theorem createPaginationControls_outer_buttons (fuel : Nat) (s : ProgressivePagination)
    (t : Int) :
    ((createPaginationControls fuel s t).1.previousDisabled = true ↔ s.currentPage ≤ 1) ∧
      ((createPaginationControls fuel s t).1.nextDisabled = true ↔ t ≤ s.currentPage) ∧
      (createPaginationControls fuel s t).2.totalPages = t ∧
      (createPaginationControls fuel s t).2.currentPage = s.currentPage ∧
      (createPaginationControls fuel s t).2.isLoading = s.isLoading := by
  simp [createPaginationControls]

/-- Claim C25 (counterexample to the claim as stated). On page `2 ^ 53` of
`2 ^ 53` pages, a current page in `[1, T]`, the loop of `generatePageNumbers`
arrives at the current page and stays there: each further iteration pushes the
active button of page `2 ^ 53` again, and no list with exactly one active
button is ever returned. -/
theorem createPaginationControls_active_without_end :
    (1 : Int) ≤ 9007199254740992 ∧
      (paginationAt 9007199254740992 1).currentPage ≤ 9007199254740992 ∧
      (∀ fuel : Nat,
        pageLoop 9007199254740992 9007199254740992 (fuel + 1) 9007199254740992 =
          (pageLoop 9007199254740992 9007199254740992 fuel 9007199254740992).map
            (fun rest => { page := 9007199254740992, active := true } :: rest)) ∧
      ∀ fuel : Nat,
        ((createPaginationControls fuel (paginationAt 9007199254740992 1)
          9007199254740992).1.pageButtons.map
            (fun buttons => buttons.filter (fun b => b.active))) = none := by
  refine ⟨by decide, by decide, fun fuel => ?_, fun fuel => ?_⟩
  · have ha : toDouble (9007199254740992 + 1) = 9007199254740992 := by decide
    simp only [pageLoop, ha]
    rfl
  · have h : (createPaginationControls fuel (paginationAt 9007199254740992 1)
        9007199254740992).1.pageButtons = none := generatePageNumbers_two_pow fuel
    rw [h]
    rfl

/-- Claim C25 (as amended). With `T < 2 ^ 53` pages `createPaginationControls(T)`
returns; if `T ≥ 1` and the current page `c` is in `[1, T]`, exactly one
numbered button is marked active, the one of page `c`; if the current page is
outside `[1, T]`, no numbered button is marked active. -/
theorem createPaginationControls_active (fuel : Nat) (s : ProgressivePagination) (t : Int)
    (hfuel : 5 ≤ fuel) (hsafe : t < 2 ^ 53) :
    (1 ≤ t → 1 ≤ s.currentPage → s.currentPage ≤ t →
        (createPaginationControls fuel s t).1.pageButtons.map
            (fun buttons => buttons.filter (fun b => b.active)) =
          some [{ page := s.currentPage, active := true }]) ∧
      (s.currentPage < 1 ∨ t < s.currentPage →
        (createPaginationControls fuel s t).1.pageButtons.map
            (fun buttons => buttons.filter (fun b => b.active)) = some []) := by
  obtain ⟨lo, hi, hb, -, hlo, hhi, hlen, -, -, hf⟩ :=
    window_createPaginationControls fuel s t hsafe hfuel
  rw [hb, Option.map_some', filter_active_map]
  constructor
  · intro _ h1 h2
    obtain ⟨hlo', hhi'⟩ := hf h1 h2
    have hm : s.currentPage ∈ loopRange lo hi := by
      rw [mem_loopRange]
      omega
    rw [List.count_eq_one_of_mem (loopRange_nodup lo hi) hm]
    rfl
  · intro h
    have hm : s.currentPage ∉ loopRange lo hi := by
      rw [mem_loopRange]
      omega
    rw [List.count_eq_zero_of_not_mem hm]
    rfl

/-- Witness for `createPaginationControls_active`: on page 5 of 10 the button
of page 5 is the active one, on page 12 of 10 none is. -/
theorem createPaginationControls_active_witness :
    (5 : Nat) ≤ 5 ∧ (10 : Int) < 2 ^ 53 ∧
      (createPaginationControls 5 (paginationAt 5 1) 10).1.pageButtons.map
          (fun buttons => buttons.filter (fun b => b.active)) =
        some [{ page := 5, active := true }] ∧
      (createPaginationControls 5 (paginationAt 12 1) 10).1.pageButtons.map
          (fun buttons => buttons.filter (fun b => b.active)) = some [] :=
  ⟨by decide, by decide,
    (createPaginationControls_active 5 (paginationAt 5 1) 10 (by decide) (by decide)).1
      (by decide) (by decide) (by decide),
    (createPaginationControls_active 5 (paginationAt 12 1) 10 (by decide) (by decide)).2
      (by decide)⟩

/-! ## `startLoadingIndicator` is idempotent -/

theorem hasIndicator_eq_false_iff (doc : Document) (c : String) :
    hasIndicator doc c = false ↔ indicatorCount doc c = 0 := by
  have h := hasIndicator_iff doc c
  cases hb : hasIndicator doc c
  · simp only [hb, Bool.false_eq_true, false_iff] at h
    simp only [true_iff]
    omega
  · simp only [hb, true_iff] at h
    simp only [Bool.true_eq_false, false_iff]
    omega

theorem startLoadingIndicator_of_hasIndicator (p : Page) (c : String)
    (h : hasIndicator p.document c = true) : startLoadingIndicator p c = p := by
  unfold startLoadingIndicator
  split
  · rfl
  · simp only [h, if_true]

/-- Claim C28. For a container that exists: when the document has no element
with the id `loading-<containerId>`, `startLoadingIndicator` inserts the
indicator as the first child of the container and records its id in
`loadingIndicators`; when it has one, the call changes nothing. A second call
in a row changes nothing, and when the document had at most one such element it
has exactly one after the two calls. -/
theorem startLoadingIndicator_idempotent (p : Page) (c : String) (children : List Node)
    (hc : mapGet p.document c = some children) :
    (hasIndicator p.document c = false →
        mapGet (startLoadingIndicator p c).document c = some (.indicator c :: children) ∧
        indicatorId c ∈ (startLoadingIndicator p c).loadingIndicators ∧
        (startLoadingIndicator p c).events = p.events ++ [.indicatorInserted c] ∧
        indicatorCount (startLoadingIndicator p c).document c = 1) ∧
      (hasIndicator p.document c = true → startLoadingIndicator p c = p) ∧
      startLoadingIndicator (startLoadingIndicator p c) c = startLoadingIndicator p c ∧
      (indicatorCount p.document c ≤ 1 →
        indicatorCount (startLoadingIndicator (startLoadingIndicator p c) c).document c = 1) := by
  have hsome : hasIndicator p.document c = true → startLoadingIndicator p c = p :=
    startLoadingIndicator_of_hasIndicator p c
  have hnone : hasIndicator p.document c = false →
      mapGet (startLoadingIndicator p c).document c = some (.indicator c :: children) ∧
      indicatorId c ∈ (startLoadingIndicator p c).loadingIndicators ∧
      (startLoadingIndicator p c).events = p.events ++ [.indicatorInserted c] ∧
      indicatorCount (startLoadingIndicator p c).document c = 1 := by
    intro h
    have h0 := (hasIndicator_eq_false_iff _ _).1 h
    have hcount := indicatorCount_mapSet p.document c c children (.indicator c :: children) hc
    simp only [startLoadingIndicator, hc, h, Bool.false_eq_true, if_false, emit]
    refine ⟨mapGet_mapSet_self _ _ _, ?_, trivial, ?_⟩
    · split
      · assumption
      · simp
    · simp only [List.count_cons_self] at hcount
      omega
  have hafter : hasIndicator (startLoadingIndicator p c).document c = true := by
    cases h : hasIndicator p.document c
    · rw [hasIndicator_iff, (hnone h).2.2.2]
      exact Nat.one_pos
    · rw [hsome h]
      exact h
  have hidem : startLoadingIndicator (startLoadingIndicator p c) c = startLoadingIndicator p c :=
    startLoadingIndicator_of_hasIndicator _ c hafter
  refine ⟨hnone, hsome, hidem, ?_⟩
  intro hle
  rw [hidem]
  cases h : hasIndicator p.document c
  · exact (hnone h).2.2.2
  · rw [hsome h]
    have := (hasIndicator_iff _ _).1 h
    omega

/-- Witness for `startLoadingIndicator_idempotent`: container `c1` of the
sample page, which has no indicator. -/
theorem startLoadingIndicator_idempotent_witness :
    mapGet samplePage.document "c1" = some [.other "old"] ∧
      mapGet (startLoadingIndicator samplePage "c1").document "c1" =
        some [.indicator "c1", .other "old"] ∧
      startLoadingIndicator (startLoadingIndicator samplePage "c1") "c1" =
        startLoadingIndicator samplePage "c1" ∧
      indicatorCount (startLoadingIndicator (startLoadingIndicator samplePage "c1") "c1").document
        "c1" = 1 :=
  have h := startLoadingIndicator_idempotent samplePage "c1" [.other "old"] (by decide)
  ⟨by decide, (h.1 (by decide)).1, h.2.2.1, h.2.2.2 (by decide)⟩

/-! ## Exhausting the retries -/

theorem loadDataFail_fetches (p : Page) (a : LoadArgs) (m : String) :
    fetches (loadDataFinally (loadDataCatch p a m) a).events = fetches p.events := by
  obtain ⟨Y, hY, -, hf, -⟩ := loadDataFail_notable p a m
  rw [← fetches_notable, hY, fetches_append, fetches_notable, hf, List.append_nil]

/-- With no cache key, or no entry under the key, the first segment goes on to
the request and leaves the storage as it was. -/
theorem loadDataBegin_noEntry (p : Page) (a : LoadArgs) (now : Int)
    (hnone : ∀ key, truthyKey a.options.cacheKey = some key →
      mapGet p.localStorage (storageKey key) = none) :
    (loadDataBegin p a now).2 = none ∧
      (loadDataBegin p a now).1.localStorage = p.localStorage := by
  cases hk : truthyKey a.options.cacheKey with
  | none => simp [loadDataBegin, hk]
  | some key =>
    have hm := hnone key hk
    simp [loadDataBegin, hk, getCachedData, hm, JVal.truthy]

/-- A call whose fetch fails, with no cache entry to answer it: one request is
issued, the call ends in the `catch` block and the storage is as it was. -/
theorem loadData_fetchFails (p : Page) (a : LoadArgs) (env : CallEnv)
    (hnone : ∀ key, truthyKey a.options.cacheKey = some key →
      mapGet p.localStorage (storageKey key) = none)
    (hf : env.fetchFails = true) :
    (loadData p a env).2.isFailed = true ∧
      fetches (loadData p a env).1.events = fetches p.events ++ [a.endpoint] ∧
      (loadData p a env).1.localStorage = p.localStorage := by
  obtain ⟨hb, hs⟩ := loadDataBegin_noEntry p a env.readTime hnone
  have hfe := loadDataBegin_fetches p a env.readTime
  rw [hb] at hfe
  simp only [CallEnv.fetchFails] at hf
  cases hr : env.fetchResult with
  | rejected m =>
    simp only [loadData, hb, hr, loadDataOnResponse, loadDataFail]
    exact ⟨rfl, by rw [loadDataFail_fetches, hfe], by simp [hs]⟩
  | response ok status statusText =>
    cases ok with
    | false =>
      simp only [loadData, hb, hr, loadDataOnResponse, loadDataFail, Bool.false_eq_true,
        if_false]
      exact ⟨rfl, by rw [loadDataFail_fetches, hfe], by simp [hs]⟩
    | true =>
      cases hbody : env.body with
      | parsed d => simp [hr, hbody] at hf
      | invalid m =>
        simp only [loadData, hb, hr, loadDataOnResponse, if_true, hbody, loadDataOnBody,
          loadDataFail]
        exact ⟨rfl, by rw [loadDataFail_fetches, hfe], by simp [hs]⟩

/-- A chain of calls whose fetches all fail, with no cache entry to answer
them: every call issues one request and ends in the `catch` block. -/
theorem loadDataRun_fetchFails (a : LoadArgs) :
    ∀ (envs : List CallEnv) (p : Page),
      (∀ key, truthyKey a.options.cacheKey = some key →
        mapGet p.localStorage (storageKey key) = none) →
      (∀ env ∈ envs, env.fetchFails = true) →
      (∀ o ∈ (loadDataRun p a envs).2, o.isFailed = true) ∧
        fetches (loadDataRun p a envs).1.events =
          fetches p.events ++ List.replicate envs.length a.endpoint ∧
        (loadDataRun p a envs).1.localStorage = p.localStorage := by
  intro envs
  induction envs with
  | nil =>
    intro p _ _
    simp [loadDataRun]
  | cons env rest ih =>
    intro p hnone hf
    obtain ⟨h₁, h₂, h₃⟩ := loadData_fetchFails p a env hnone (hf env (List.mem_cons_self _ _))
    obtain ⟨i₁, i₂, i₃⟩ := ih (loadData p a env).1 (fun key hk => by rw [h₃]; exact hnone key hk)
      (fun e he => hf e (List.mem_cons_of_mem _ he))
    simp only [loadDataRun, List.mem_cons, List.length_cons]
    refine ⟨?_, ?_, i₃.trans h₃⟩
    · rintro o (rfl | ho)
      · exact h₁
      · exact i₁ o ho
    · rw [i₂, h₂, List.append_assoc]
      rfl

/-- A chain of failing calls once the count has reached `maxRetries`: no retry
is scheduled and the counts stay. -/
theorem loadDataRun_exhausted (a : LoadArgs) :
    ∀ (envs : List CallEnv) (p : Page),
      p.maxRetries ≤ (mapGet p.retryAttempts a.endpoint).getD 0 →
      (∀ o ∈ (loadDataRun p a envs).2, o.isFailed = true) →
      scheduled (loadDataRun p a envs).1.events = scheduled p.events ∧
        (loadDataRun p a envs).1.retryAttempts = p.retryAttempts ∧
        (loadDataRun p a envs).1.maxRetries = p.maxRetries := by
  intro envs
  induction envs with
  | nil =>
    intro p _ _
    simp [loadDataRun]
  | cons env rest ih =>
    intro p hle hfail
    simp only [loadDataRun] at hfail ⊢
    obtain ⟨m, hm⟩ := (Outcome.isFailed_iff _).mp (hfail _ (List.mem_cons_self _ _))
    obtain ⟨h₁, h₂, h₃, -, -⟩ := loadData_failed_noRetry p a env m hm (Or.inr hle)
    obtain ⟨i₁, i₂, i₃⟩ := ih (loadData p a env).1 (by rw [h₂, h₃]; exact hle)
      (fun o ho => hfail o (List.mem_cons_of_mem _ ho))
    exact ⟨i₁.trans h₁, i₂.trans h₂, i₃.trans h₃⟩

/-- Claim C29. On a loader with `maxRetries` 3 and no retry count for the
endpoint, with `retryOnError` true, no cache entry answering the call and every
fetch failing: the call and its three re-invocations issue four network
requests; the first three failures schedule the retries after 1000, 2000 and
4000 ms (7000 ms in all) and render no error block; the fourth failure
schedules nothing and renders the error block in the container; the count is 3
afterwards and stays 3 through every later failing call, none of which
schedules a retry and each of which renders the error block, until a call
succeeds, which removes the count. -/
theorem loadDataRun_exhausts_retries (p : Page) (a : LoadArgs) (e₁ e₂ e₃ e₄ : CallEnv)
    (hmax : p.maxRetries = 3)
    (hempty : mapGet p.retryAttempts a.endpoint = none)
    (hretry : a.options.retryOnError.getD true = true)
    (hnone : ∀ key, truthyKey a.options.cacheKey = some key →
      mapGet p.localStorage (storageKey key) = none)
    (h₁ : e₁.fetchFails = true) (h₂ : e₂.fetchFails = true) (h₃ : e₃.fetchFails = true)
    (h₄ : e₄.fetchFails = true) :
    fetches (loadDataRun p a [e₁, e₂, e₃, e₄]).1.events =
        fetches p.events ++ [a.endpoint, a.endpoint, a.endpoint, a.endpoint] ∧
      scheduled (loadDataRun p a [e₁, e₂, e₃, e₄]).1.events =
        scheduled p.events ++ [(1000, a), (2000, a), (4000, a)] ∧
      ((scheduled (loadDataRun p a [e₁, e₂, e₃, e₄]).1.events).map Prod.fst).sum =
        ((scheduled p.events).map Prod.fst).sum + 7000 ∧
      scheduled (loadDataRun p a [e₁, e₂, e₃]).1.events =
        scheduled p.events ++ [(1000, a), (2000, a), (4000, a)] ∧
      errorBlocks (loadDataRun p a [e₁, e₂, e₃]).1.events = errorBlocks p.events ∧
      (∃ m, (loadData (loadDataRun p a [e₁, e₂, e₃]).1 a e₄).2 = .failed m ∧
        errorBlocks (loadDataRun p a [e₁, e₂, e₃, e₄]).1.events =
          errorBlocks p.events ++
            (if (mapGet (loadDataRun p a [e₁, e₂, e₃, e₄]).1.document a.containerId).isSome
              then [(a.containerId, m)] else [])) ∧
      mapGet (loadDataRun p a [e₁, e₂, e₃, e₄]).1.retryAttempts a.endpoint = some 3 ∧
      (∀ (envs : List CallEnv) (env : CallEnv) (m : String),
        (∀ o ∈ (loadDataRun (loadDataRun p a [e₁, e₂, e₃, e₄]).1 a envs).2,
          o.isFailed = true) →
        (loadData (loadDataRun (loadDataRun p a [e₁, e₂, e₃, e₄]).1 a envs).1 a env).2 =
          .failed m →
        scheduled
            (loadData (loadDataRun (loadDataRun p a [e₁, e₂, e₃, e₄]).1 a envs).1 a env).1.events =
          scheduled (loadDataRun p a [e₁, e₂, e₃, e₄]).1.events ∧
        mapGet
            (loadData (loadDataRun (loadDataRun p a [e₁, e₂, e₃, e₄]).1 a envs).1 a
              env).1.retryAttempts a.endpoint = some 3 ∧
        errorBlocks
            (loadData (loadDataRun (loadDataRun p a [e₁, e₂, e₃, e₄]).1 a envs).1 a env).1.events =
          errorBlocks (loadDataRun (loadDataRun p a [e₁, e₂, e₃, e₄]).1 a envs).1.events ++
            (if (mapGet
                (loadData (loadDataRun (loadDataRun p a [e₁, e₂, e₃, e₄]).1 a envs).1 a
                  env).1.document a.containerId).isSome
              then [(a.containerId, m)] else [])) ∧
      (∀ (envs : List CallEnv) (env : CallEnv),
        (∀ o ∈ (loadDataRun (loadDataRun p a [e₁, e₂, e₃, e₄]).1 a envs).2,
          o.isFailed = true) →
        (loadData (loadDataRun (loadDataRun p a [e₁, e₂, e₃, e₄]).1 a envs).1 a env).2 =
          .success →
        mapGet
            (loadData (loadDataRun (loadDataRun p a [e₁, e₂, e₃, e₄]).1 a envs).1 a
              env).1.retryAttempts a.endpoint = none) := by
  have hc : (mapGet p.retryAttempts a.endpoint).getD 0 = 0 := by rw [hempty]; rfl
  have hall₃ : ∀ env ∈ [e₁, e₂, e₃], env.fetchFails = true := by
    intro env he
    simp only [List.mem_cons, List.mem_singleton, List.not_mem_nil, or_false] at he
    rcases he with rfl | rfl | rfl <;> assumption
  obtain ⟨f₁, f₂, f₃⟩ := loadDataRun_fetchFails a [e₁, e₂, e₃] p hnone hall₃
  obtain ⟨r₁, r₂, r₃, r₄⟩ := loadDataRun_failed a hretry [e₁, e₂, e₃] p 0 hc
    (by rw [hmax]; simp) f₁
  obtain ⟨g₁, g₂, g₃⟩ := loadData_fetchFails (loadDataRun p a [e₁, e₂, e₃]).1 a e₄
    (fun key hk => by rw [f₃]; exact hnone key hk) h₄
  obtain ⟨m, hm⟩ := (Outcome.isFailed_iff _).mp g₁
  have hle : (loadDataRun p a [e₁, e₂, e₃]).1.maxRetries ≤
      (mapGet (loadDataRun p a [e₁, e₂, e₃]).1.retryAttempts a.endpoint).getD 0 := by
    rw [r₁, r₂, hmax]
    simp
  obtain ⟨k₁, k₂, k₃, -, k₅⟩ :=
    loadData_failed_noRetry (loadDataRun p a [e₁, e₂, e₃]).1 a e₄ m hm (Or.inr hle)
  have hrun : (loadDataRun p a [e₁, e₂, e₃, e₄]).1 =
      (loadData (loadDataRun p a [e₁, e₂, e₃]).1 a e₄).1 := rfl
  have hsched : scheduled (loadDataRun p a [e₁, e₂, e₃]).1.events =
      scheduled p.events ++ [(1000, a), (2000, a), (4000, a)] := by
    rw [r₃]
    simp [List.range_succ]
  have hcount : mapGet (loadDataRun p a [e₁, e₂, e₃]).1.retryAttempts a.endpoint = some 3 := by
    cases hg : mapGet (loadDataRun p a [e₁, e₂, e₃]).1.retryAttempts a.endpoint with
    | none => rw [hg] at r₁; simp at r₁
    | some n => rw [hg] at r₁; simpa using r₁
  have hcount₄ : mapGet (loadDataRun p a [e₁, e₂, e₃, e₄]).1.retryAttempts a.endpoint =
      some 3 := by
    rw [hrun, k₂, hcount]
  have hle₄ : (loadDataRun p a [e₁, e₂, e₃, e₄]).1.maxRetries ≤
      (mapGet (loadDataRun p a [e₁, e₂, e₃, e₄]).1.retryAttempts a.endpoint).getD 0 := by
    rw [hcount₄, hrun, k₃, r₂, hmax]
    decide
  refine ⟨?_, ?_, ?_, hsched, r₄, ⟨m, hm, ?_⟩, hcount₄, ?_, ?_⟩
  · rw [hrun, g₂, f₂, List.append_assoc]
    rfl
  · rw [hrun, k₁, hsched]
  · rw [hrun, k₁, hsched]
    simp
  · rw [hrun, k₅, r₄]
  · intro envs env m' hfail hlast
    obtain ⟨x₁, x₂, x₃⟩ :=
      loadDataRun_exhausted a envs (loadDataRun p a [e₁, e₂, e₃, e₄]).1 hle₄ hfail
    obtain ⟨y₁, y₂, -, -, y₅⟩ := loadData_failed_noRetry
      (loadDataRun (loadDataRun p a [e₁, e₂, e₃, e₄]).1 a envs).1 a env m' hlast
      (Or.inr (by rw [x₂, x₃]; exact hle₄))
    exact ⟨y₁.trans x₁, by rw [y₂, x₂, hcount₄], y₅⟩
  · intro envs env _ hlast
    rw [(loadData_success_shape _ a env hlast).1]
    exact mapGet_mapDelete_self _ _

/-- Witness for `loadDataRun_exhausts_retries`: four failing calls of `/api/x`
on a fresh loader, the last with the network down. -/
theorem loadDataRun_exhausts_retries_witness :
    samplePage.maxRetries = 3 ∧
      failingEnv.fetchFails = true ∧ offlineEnv.fetchFails = true ∧
      fetches (loadDataRun samplePage plainArgs
          [failingEnv, failingEnv, failingEnv, offlineEnv]).1.events =
        ["/api/x", "/api/x", "/api/x", "/api/x"] ∧
      scheduled (loadDataRun samplePage plainArgs
          [failingEnv, failingEnv, failingEnv, offlineEnv]).1.events =
        [(1000, plainArgs), (2000, plainArgs), (4000, plainArgs)] ∧
      errorBlocks (loadDataRun samplePage plainArgs
          [failingEnv, failingEnv, failingEnv, offlineEnv]).1.events =
        [("c1", "Failed to fetch")] ∧
      mapGet (loadDataRun samplePage plainArgs
          [failingEnv, failingEnv, failingEnv, offlineEnv]).1.retryAttempts "/api/x" = some 3 :=
  have h := loadDataRun_exhausts_retries samplePage plainArgs failingEnv failingEnv failingEnv
    offlineEnv rfl (by rfl) (by rfl) (fun _ hk => by cases hk) (by rfl) (by rfl) (by rfl) (by rfl)
  ⟨rfl, by rfl, by rfl, h.1, h.2.1, by decide, h.2.2.2.2.2.2.1⟩
/-! ## A callback that throws after the write-through -/

/-- Claim C30. For every `loadData` call with a cache key whose fetch succeeds
(the request issued, an OK response, the body parsed, the storage accepting the
write) but whose `updateCallback` throws: the call ends in the `catch` block
with the callback's error; the fetched data has been written to the cache
before the callback ran and is still there afterwards; the endpoint's retry
entry is not removed; with `retryOnError` true and the count below `maxRetries`
the count goes up by one and a retry is scheduled, and otherwise the counts
stay, no retry is scheduled and the error block is rendered. -/
theorem loadData_callback_throws_after_write (p : Page) (a : LoadArgs) (env : CallEnv)
    (key : String) (d : JVal) (status : Nat) (statusText m : String)
    (hkey : truthyKey a.options.cacheKey = some key)
    (hrequest : (loadDataBegin p a env.readTime).2 = none)
    (hok : env.fetchResult = .response true status statusText)
    (hbody : env.body = .parsed d)
    (hquota : env.quotaExceeded = false)
    (hthrows : ∀ doc, (a.updateCallback d a.containerId doc).thrown = some m) :
    (loadData p a env).2 = .failed m ∧
      mapGet (loadData p a env).1.localStorage (storageKey key) =
        some (cacheEntry d env.writeTime) ∧
      (∃ Y, notable (loadData p a env).1.events =
          notable p.events ++ [.fetch a.endpoint,
            .setItem (storageKey key) (cacheEntry d env.writeTime),
            .updateCallback d a.containerId] ++ Y ∧
          callbacks Y = [] ∧ cacheWrites Y = []) ∧
      cacheWrites (loadData p a env).1.events =
        cacheWrites p.events ++ [(storageKey key, cacheEntry d env.writeTime)] ∧
      callbacks (loadData p a env).1.events = callbacks p.events ++ [(d, a.containerId)] ∧
      (mapGet p.retryAttempts a.endpoint ≠ none →
        mapGet (loadData p a env).1.retryAttempts a.endpoint ≠ none) ∧
      (a.options.retryOnError.getD true = true →
        (mapGet p.retryAttempts a.endpoint).getD 0 < p.maxRetries →
        mapGet (loadData p a env).1.retryAttempts a.endpoint =
            some ((mapGet p.retryAttempts a.endpoint).getD 0 + 1) ∧
          scheduled (loadData p a env).1.events =
            scheduled p.events ++
              [(2 ^ (mapGet p.retryAttempts a.endpoint).getD 0 * 1000, a)] ∧
          errorBlocks (loadData p a env).1.events = errorBlocks p.events) ∧
      (a.options.retryOnError.getD true = false ∨
          p.maxRetries ≤ (mapGet p.retryAttempts a.endpoint).getD 0 →
        (loadData p a env).1.retryAttempts = p.retryAttempts ∧
          scheduled (loadData p a env).1.events = scheduled p.events ∧
          errorBlocks (loadData p a env).1.events =
            errorBlocks p.events ++
              (if (mapGet (loadData p a env).1.document a.containerId).isSome then
                [(a.containerId, m)] else [])) := by
  have hfailed : (loadData p a env).2 = .failed m := by
    simp [loadData, hrequest, hok, loadDataOnResponse, hbody, loadDataOnBody, invokeCallback,
      hthrows, loadDataFail]
  have hpage : (loadData p a env).1 =
      (loadDataOnBody (loadDataBegin p a env.readTime).1 a (.parsed d) env.writeTime false).1 := by
    simp [loadData, hrequest, hok, loadDataOnResponse, hbody, hquota]
  obtain ⟨-, -, b₃⟩ := loadDataBegin_none p a env.readTime hrequest
  obtain ⟨⟨Y, hY, y₁, y₂, y₃⟩, hst⟩ :=
    loadDataOnBody_parsed (loadDataBegin p a env.readTime).1 a d env.writeTime false
  have hcache := loadDataCache_notable (loadDataBegin p a env.readTime).1 a d env.writeTime false
  rw [hkey] at hcache
  simp only [Bool.false_eq_true, if_false] at hcache
  have hnot : notable (loadData p a env).1.events =
      notable p.events ++ [.fetch a.endpoint,
        .setItem (storageKey key) (cacheEntry d env.writeTime),
        .updateCallback d a.containerId] ++ Y := by
    rw [hpage, hY, hcache, b₃]
    simp
  refine ⟨hfailed, ?_, ?_, ?_, ?_, ?_, ?_, ?_⟩
  · rw [hpage, hst]
    simp only [loadDataCache, hkey, setCachedData, Bool.false_eq_true, if_false,
      emit_localStorage]
    exact mapGet_mapSet_self _ _ _
  · exact ⟨Y, hnot, y₁, y₃⟩
  · rw [← cacheWrites_notable, hnot]
    simp [cacheWrites_append, cacheWrites_notable, cacheWrites, y₃]
  · rw [← callbacks_notable, hnot]
    simp [callbacks_append, callbacks_notable, callbacks, y₁]
  · intro hsome
    by_cases hc : a.options.retryOnError.getD true = true ∧
        (mapGet p.retryAttempts a.endpoint).getD 0 < p.maxRetries
    · rw [(loadData_failed_retry p a env m hfailed hc.1 hc.2).1, mapGet_mapSet_self]
      simp
    · have hno : a.options.retryOnError.getD true = false ∨
          p.maxRetries ≤ (mapGet p.retryAttempts a.endpoint).getD 0 := by
        by_cases hr : a.options.retryOnError.getD true = true
        · exact Or.inr (Nat.le_of_not_lt (fun hlt => hc ⟨hr, hlt⟩))
        · exact Or.inl (by simpa using hr)
      rw [(loadData_failed_noRetry p a env m hfailed hno).2.1]
      exact hsome
  · intro hr hlt
    obtain ⟨h₁, -, h₃, h₄⟩ := loadData_failed_retry p a env m hfailed hr hlt
    exact ⟨by rw [h₁, mapGet_mapSet_self], h₃, h₄⟩
  · intro hno
    obtain ⟨h₁, h₂, -, -, h₅⟩ := loadData_failed_noRetry p a env m hfailed hno
    exact ⟨h₂, h₁, h₅⟩

/-- Witness for `loadData_callback_throws_after_write`: on the sample page the
fetch succeeds and the callback throws. -/
theorem loadData_callback_throws_after_write_witness :
    (loadDataBegin samplePage throwingArgs okEnv.readTime).2 = none ∧
      (loadData samplePage throwingArgs okEnv).2 = .failed "render failed" ∧
      mapGet (loadData samplePage throwingArgs okEnv).1.localStorage "progressive_cache_x" =
        some (cacheEntry (.obj [("v", .num 1)]) 2000) ∧
      mapGet (loadData samplePage throwingArgs okEnv).1.retryAttempts "/api/x" = some 1 ∧
      scheduled (loadData samplePage throwingArgs okEnv).1.events = [(1000, throwingArgs)] :=
  have h := loadData_callback_throws_after_write samplePage throwingArgs okEnv "x"
    (.obj [("v", .num 1)]) 200 "OK" "render failed" (by decide) (by decide) rfl rfl rfl
    (fun _ => rfl)
  ⟨by decide, h.1, h.2.1, (h.2.2.2.2.2.2.1 (by rfl) (by decide)).1,
    (h.2.2.2.2.2.2.1 (by rfl) (by decide)).2.1⟩

/-! ## Omitted options and their defaults -/

theorem Page.withArgs_emit (a : LoadArgs) (p : Page) (e : Event) :
    Page.withArgs a (emit p e) = emit (Page.withArgs a p) (Event.withArgs a e) := by
  simp [Page.withArgs, emit]

theorem Page.withArgs_showError (a : LoadArgs) (p : Page) (c m : String) :
    Page.withArgs a (showError p c m) = showError (Page.withArgs a p) c m := by
  simp only [showError]
  show _ = match mapGet p.document c with
    | none => Page.withArgs a p
    | some _ => _
  cases mapGet p.document c with
  | none => rfl
  | some ch => simp [Page.withArgs, emit, Event.withArgs]

theorem Page.withArgs_stopLoadingIndicator (a : LoadArgs) (p : Page) (c : String) :
    Page.withArgs a (stopLoadingIndicator p c) = stopLoadingIndicator (Page.withArgs a p) c := by
  simp only [stopLoadingIndicator]
  show _ = if hasIndicator p.document c = true then _ else Page.withArgs a p
  cases hasIndicator p.document c with
  | false => rfl
  | true => simp [Page.withArgs, emit, Event.withArgs]

theorem Page.withArgs_loadDataFinally (a b : LoadArgs) (p : Page) :
    Page.withArgs a (loadDataFinally p b) = loadDataFinally (Page.withArgs a p) b := by
  simp only [loadDataFinally, ← Page.withArgs_stopLoadingIndicator]
  rfl

/-- The `catch` block reads the options only for `retryOnError`, and passes
them on to the scheduled re-invocation. -/
theorem Page.withArgs_loadDataCatch (a b : LoadArgs) (p : Page) (m : String)
    (he : b.endpoint = a.endpoint) (hc : b.containerId = a.containerId)
    (hr : b.options.retryOnError.getD true = a.options.retryOnError.getD true) :
    Page.withArgs a (loadDataCatch p b m) = Page.withArgs a (loadDataCatch p a m) := by
  simp only [loadDataCatch, he, hc, hr]
  split
  · split
    · simp [Page.withArgs, emit, Event.withArgs]
    · rfl
  · rfl

theorem Page.withArgs_loadDataFail (a b : LoadArgs) (p : Page) (m : String)
    (he : b.endpoint = a.endpoint) (hc : b.containerId = a.containerId)
    (hr : b.options.retryOnError.getD true = a.options.retryOnError.getD true) :
    Page.withArgs a (loadDataFail p b m).1 = Page.withArgs a (loadDataFail p a m).1 := by
  simp only [loadDataFail, Page.withArgs_loadDataFinally,
    Page.withArgs_loadDataCatch a b p m he hc hr]
  simp only [loadDataFinally, hc]

/-- The parts of a call that do not read the options beyond their resolved
values. -/
theorem loadData_parts_congr (a b : LoadArgs)
    (he : b.endpoint = a.endpoint) (hc : b.containerId = a.containerId)
    (hu : b.updateCallback = a.updateCallback)
    (hs : b.options.showSkeleton.getD true = a.options.showSkeleton.getD true)
    (hk : truthyKey b.options.cacheKey = truthyKey a.options.cacheKey)
    (hy : b.options.skeletonType.getD "generic" = a.options.skeletonType.getD "generic") :
    (∀ q, loadDataSkeleton q b = loadDataSkeleton q a) ∧
      (∀ q, loadDataRequest q b = loadDataRequest q a) ∧
      (∀ q d, invokeCallback q b d = invokeCallback q a d) ∧
      (∀ q, loadDataFinally q b = loadDataFinally q a) ∧
      (∀ q d now f, loadDataCache q b d now f = loadDataCache q a d now f) := by
  refine ⟨?_, ?_, ?_, ?_, ?_⟩
  · intro q
    simp only [loadDataSkeleton, hs, hc, showLoadingSkeleton, hy]
  · intro q
    simp only [loadDataRequest, he, hc]
  · intro q d
    simp only [invokeCallback, hu, hc]
  · intro q
    simp only [loadDataFinally, hc]
  · intro q d now f
    simp only [loadDataCache, hk]

theorem loadDataBegin_options_congr (p : Page) (a b : LoadArgs) (now : Int)
    (he : b.endpoint = a.endpoint) (hc : b.containerId = a.containerId)
    (hu : b.updateCallback = a.updateCallback)
    (hs : b.options.showSkeleton.getD true = a.options.showSkeleton.getD true)
    (hr : b.options.retryOnError.getD true = a.options.retryOnError.getD true)
    (hk : truthyKey b.options.cacheKey = truthyKey a.options.cacheKey)
    (ht : b.options.ttl.getD 60000 = a.options.ttl.getD 60000)
    (hy : b.options.skeletonType.getD "generic" = a.options.skeletonType.getD "generic") :
    (loadDataBegin p b now).2 = (loadDataBegin p a now).2 ∧
      ((loadDataBegin p a now).2 = none → (loadDataBegin p b now).1 = (loadDataBegin p a now).1) ∧
      Page.withArgs a (loadDataBegin p b now).1 = Page.withArgs a (loadDataBegin p a now).1 := by
  obtain ⟨hskel, hreq, hinv, hfin, -⟩ := loadData_parts_congr a b he hc hu hs hk hy
  have hfail : ∀ (q : Page) (m : String),
      Page.withArgs a (loadDataFinally (loadDataCatch q b m) b) =
        Page.withArgs a (loadDataFinally (loadDataCatch q a m) a) :=
    fun q m => Page.withArgs_loadDataFail a b q m he hc hr
  simp only [loadDataBegin, hskel, hk, ht, hreq, hinv, hfin, hc]
  cases truthyKey a.options.cacheKey with
  | none => simp
  | some key =>
    simp only
    cases (getCachedData (loadDataSkeleton p a) key (a.options.ttl.getD 60000) now).1 with
    | undefined => simp
    | json cached =>
      simp only
      cases cached.truthy with
      | false => simp
      | true =>
        simp only [if_true]
        cases (invokeCallback (getCachedData (loadDataSkeleton p a) key
            (a.options.ttl.getD 60000) now).2 a cached).2 with
        | none => simp
        | some m => simp [loadDataFail, hfail]

theorem loadDataOnResponse_options_congr (p : Page) (a b : LoadArgs) (r : FetchResult)
    (he : b.endpoint = a.endpoint) (hc : b.containerId = a.containerId)
    (hr : b.options.retryOnError.getD true = a.options.retryOnError.getD true) :
    (loadDataOnResponse p b r).2 = (loadDataOnResponse p a r).2 ∧
      ((loadDataOnResponse p a r).2 = none →
        (loadDataOnResponse p b r).1 = (loadDataOnResponse p a r).1) ∧
      Page.withArgs a (loadDataOnResponse p b r).1 =
        Page.withArgs a (loadDataOnResponse p a r).1 := by
  have hfail : ∀ (q : Page) (m : String),
      Page.withArgs a (loadDataFinally (loadDataCatch q b m) b) =
        Page.withArgs a (loadDataFinally (loadDataCatch q a m) a) :=
    fun q m => Page.withArgs_loadDataFail a b q m he hc hr
  cases r with
  | rejected m => simp [loadDataOnResponse, loadDataFail, hfail]
  | response ok status statusText =>
    cases ok <;> simp [loadDataOnResponse, loadDataFail, hfail]

theorem loadDataOnBody_options_congr (p : Page) (a b : LoadArgs) (body : BodyResult)
    (now : Int) (f : Bool)
    (he : b.endpoint = a.endpoint) (hc : b.containerId = a.containerId)
    (hu : b.updateCallback = a.updateCallback)
    (hs : b.options.showSkeleton.getD true = a.options.showSkeleton.getD true)
    (hr : b.options.retryOnError.getD true = a.options.retryOnError.getD true)
    (hk : truthyKey b.options.cacheKey = truthyKey a.options.cacheKey)
    (hy : b.options.skeletonType.getD "generic" = a.options.skeletonType.getD "generic") :
    (loadDataOnBody p b body now f).2 = (loadDataOnBody p a body now f).2 ∧
      Page.withArgs a (loadDataOnBody p b body now f).1 =
        Page.withArgs a (loadDataOnBody p a body now f).1 := by
  obtain ⟨-, -, hinv, hfin, hcache⟩ := loadData_parts_congr a b he hc hu hs hk hy
  have hfail : ∀ (q : Page) (m : String),
      Page.withArgs a (loadDataFinally (loadDataCatch q b m) b) =
        Page.withArgs a (loadDataFinally (loadDataCatch q a m) a) :=
    fun q m => Page.withArgs_loadDataFail a b q m he hc hr
  cases body with
  | invalid m => simp [loadDataOnBody, loadDataFail, hfail]
  | parsed d =>
    simp only [loadDataOnBody, hinv, hcache, hfin, he]
    cases (invokeCallback (loadDataCache p a d now f) a d).2 with
    | none => simp
    | some m => simp [loadDataFail, hfail]

/-- Two calls that differ in their options only, where the options resolve to
the same values: they end the same way, and leave the same page up to the
arguments that a scheduled re-invocation carries. -/
theorem loadData_options_congr (p : Page) (a b : LoadArgs) (env : CallEnv)
    (he : b.endpoint = a.endpoint) (hc : b.containerId = a.containerId)
    (hu : b.updateCallback = a.updateCallback)
    (hs : b.options.showSkeleton.getD true = a.options.showSkeleton.getD true)
    (hr : b.options.retryOnError.getD true = a.options.retryOnError.getD true)
    (hk : truthyKey b.options.cacheKey = truthyKey a.options.cacheKey)
    (ht : b.options.ttl.getD 60000 = a.options.ttl.getD 60000)
    (hy : b.options.skeletonType.getD "generic" = a.options.skeletonType.getD "generic") :
    (loadData p b env).2 = (loadData p a env).2 ∧
      Page.withArgs a (loadData p b env).1 = Page.withArgs a (loadData p a env).1 := by
  obtain ⟨b₁, b₂, b₃⟩ := loadDataBegin_options_congr p a b env.readTime he hc hu hs hr hk ht hy
  simp only [loadData, b₁]
  cases hb : (loadDataBegin p a env.readTime).2 with
  | some o => exact ⟨rfl, b₃⟩
  | none =>
    simp only [b₂ hb]
    obtain ⟨r₁, r₂, r₃⟩ := loadDataOnResponse_options_congr (loadDataBegin p a env.readTime).1
      a b env.fetchResult he hc hr
    simp only [r₁]
    cases hr' : (loadDataOnResponse (loadDataBegin p a env.readTime).1 a env.fetchResult).2 with
    | some o => exact ⟨rfl, r₃⟩
    | none =>
      simp only [r₂ hr']
      exact loadDataOnBody_options_congr _ a b env.body env.writeTime env.quotaExceeded
        he hc hu hs hr hk hy
/-! ## What each method adds to the steps -/

theorem steps_append (l l' : List Event) : steps (l ++ l') = steps l ++ steps l' := by
  simp [steps]

theorem skeletonMarkup_step (c t : String) :
    Event.step (.innerHTML c (skeletonMarkup t)) = some .skeletonRender := by
  unfold skeletonMarkup
  repeat' split
  all_goals rfl

theorem showLoadingSkeleton_steps (p : Page) (c : String) (t : Option String) :
    steps (showLoadingSkeleton p c t).events =
      steps p.events ++ (if (mapGet p.document c).isSome then [.skeletonRender] else []) := by
  unfold showLoadingSkeleton
  cases mapGet p.document c with
  | none => simp
  | some ch => simp [emit, steps_append, steps, skeletonMarkup_step]

theorem getCachedData_steps (p : Page) (k : String) (ttl now : Int) :
    steps (getCachedData p k ttl now).2.events = steps p.events ++ [.cacheRead] := by
  simp only [getCachedData]
  split
  · simp [emit, steps, Event.step]
  · simp [emit, steps, Event.step]
  · simp [emit, steps, Event.step]
  · simp [emit, steps, Event.step]
  · split <;> simp [emit, steps, Event.step]

theorem startLoadingIndicator_steps (p : Page) (c : String) :
    steps (startLoadingIndicator p c).events =
      steps p.events ++
        (if ((mapGet p.document c).isSome && !hasIndicator p.document c) = true then
          [.indicatorStart] else []) := by
  unfold startLoadingIndicator
  cases mapGet p.document c with
  | none => simp
  | some ch =>
    cases hasIndicator p.document c with
    | true => simp
    | false => simp [emit, steps, Event.step]

theorem stopLoadingIndicator_steps (p : Page) (c : String) :
    steps (stopLoadingIndicator p c).events =
      steps p.events ++ (if hasIndicator p.document c = true then [.indicatorRemoval] else []) := by
  unfold stopLoadingIndicator
  cases hasIndicator p.document c with
  | true => simp [emit, steps, Event.step]
  | false => simp

theorem showError_steps (p : Page) (c m : String) :
    steps (showError p c m).events = steps p.events := by
  unfold showError
  cases mapGet p.document c with
  | none => rfl
  | some ch => simp [emit, steps, Event.step]

theorem setCachedData_steps (p : Page) (k : String) (d : JVal) (now : Int) (q : Bool) :
    steps (setCachedData p k d now q).events =
      steps p.events ++ (if q = true then [] else [.cacheWrite]) := by
  unfold setCachedData
  cases q <;> simp [emit, steps, Event.step]

theorem invokeCallback_steps (p : Page) (a : LoadArgs) (d : JVal) :
    steps (invokeCallback p a d).1.events = steps p.events ++ [.callbackInvocation] := by
  simp [invokeCallback, emit, steps, Event.step]

theorem loadDataCatch_steps (p : Page) (a : LoadArgs) (m : String) :
    steps (loadDataCatch p a m).events = steps p.events := by
  simp only [loadDataCatch]
  split
  · split
    · simp [emit, steps, Event.step]
    · rw [showError_steps, emit_events, steps_append]
      simp [steps, Event.step]
  · rw [showError_steps, emit_events, steps_append]
    simp [steps, Event.step]

theorem loadDataFinally_steps (p : Page) (a : LoadArgs) :
    steps (loadDataFinally p a).events =
      steps p.events ++
        (if hasIndicator p.document a.containerId = true then [.indicatorRemoval] else []) := by
  simp only [loadDataFinally]
  exact stopLoadingIndicator_steps p a.containerId

theorem loadDataFail_steps (p : Page) (a : LoadArgs) (m : String) :
    steps (loadDataFail p a m).1.events =
      steps p.events ++
        (if hasIndicator (loadDataCatch p a m).document a.containerId = true then
          [.indicatorRemoval] else []) := by
  simp only [loadDataFail]
  rw [loadDataFinally_steps, loadDataCatch_steps]

/-- The steps of the first segment when it goes on to the request. -/
theorem loadDataBegin_steps (p : Page) (a : LoadArgs) (now : Int)
    (h : (loadDataBegin p a now).2 = none) :
    steps (loadDataBegin p a now).1.events =
        steps p.events ++
          (if (a.options.showSkeleton.getD true &&
              (mapGet p.document a.containerId).isSome) = true then [.skeletonRender] else []) ++
          (if (truthyKey a.options.cacheKey).isSome = true then [.cacheRead] else []) ++
          (if ((mapGet (loadDataSkeleton p a).document a.containerId).isSome &&
              !hasIndicator (loadDataSkeleton p a).document a.containerId) = true then
            [.indicatorStart] else []) ++
          [.networkRequest] ∧
      (loadDataBegin p a now).1.document =
        (startLoadingIndicator (loadDataSkeleton p a) a.containerId).document := by
  have hskel : steps (loadDataSkeleton p a).events =
      steps p.events ++
        (if (a.options.showSkeleton.getD true &&
          (mapGet p.document a.containerId).isSome) = true then [.skeletonRender] else []) := by
    unfold loadDataSkeleton
    cases a.options.showSkeleton.getD true with
    | true => simpa using showLoadingSkeleton_steps p a.containerId a.options.skeletonType
    | false => simp
  have hreq : ∀ q : Page, q.document = (loadDataSkeleton p a).document →
      steps (loadDataRequest q a).events =
        steps q.events ++
          (if ((mapGet (loadDataSkeleton p a).document a.containerId).isSome &&
              !hasIndicator (loadDataSkeleton p a).document a.containerId) = true then
            [.indicatorStart] else []) ++ [.networkRequest] ∧
      (loadDataRequest q a).document =
        (startLoadingIndicator (loadDataSkeleton p a) a.containerId).document := by
    intro q hq
    constructor
    · simp only [loadDataRequest, emit_events, steps_append, startLoadingIndicator_steps, hq]
      rfl
    · simp only [loadDataRequest, emit_document, startLoadingIndicator, hq]
      cases mapGet (loadDataSkeleton p a).document a.containerId with
      | none => exact hq
      | some ch =>
        cases hasIndicator (loadDataSkeleton p a).document a.containerId with
        | true => exact hq
        | false => rfl
  simp only [loadDataBegin] at h ⊢
  cases hk : truthyKey a.options.cacheKey with
  | none =>
    obtain ⟨r₁, r₂⟩ := hreq (loadDataSkeleton p a) rfl
    simp only [r₁, r₂, hskel]
    simp
  | some key =>
    simp only [hk] at h ⊢
    have hdoc := getCachedData_document (loadDataSkeleton p a) key (a.options.ttl.getD 60000) now
    obtain ⟨r₁, r₂⟩ := hreq (getCachedData (loadDataSkeleton p a) key
      (a.options.ttl.getD 60000) now).2 hdoc
    have hsteps := getCachedData_steps (loadDataSkeleton p a) key (a.options.ttl.getD 60000) now
    cases hr : (getCachedData (loadDataSkeleton p a) key (a.options.ttl.getD 60000) now).1 with
    | undefined =>
      simp only [hr, r₁, r₂, hsteps, hskel]
      simp
    | json cached =>
      simp only [hr] at h ⊢
      cases ht : cached.truthy with
      | true =>
        simp only [ht, if_true] at h
        split at h <;> simp at h
      | false =>
        simp only [ht, Bool.false_eq_true, if_false, r₁, r₂, hsteps, hskel]
        simp

theorem hasIndicator_startLoadingIndicator (p : Page) (c : String)
    (hc : (mapGet p.document c).isSome = true) :
    hasIndicator (startLoadingIndicator p c).document c = true := by
  cases hg : mapGet p.document c with
  | none => simp [hg] at hc
  | some children =>
    cases h : hasIndicator p.document c with
    | true =>
      rw [startLoadingIndicator_of_hasIndicator p c h]
      exact h
    | false =>
      have hcount := indicatorCount_mapSet p.document c c children (.indicator c :: children) hg
      simp only [List.count_cons_self] at hcount
      rw [hasIndicator_iff]
      simp only [startLoadingIndicator, hg, h, Bool.false_eq_true, if_false, emit]
      omega

/-- The third segment on a parsed body: the write-through when a key was
given and the storage accepts it, then the callback, then the `finally` block. -/
theorem loadDataOnBody_parsed_steps (p : Page) (a : LoadArgs) (d : JVal) (now : Int)
    (q : Bool) :
    ∃ pre, (loadDataOnBody p a (.parsed d) now q).1 = loadDataFinally pre a ∧
      steps pre.events =
        steps p.events ++
          (if ((truthyKey a.options.cacheKey).isSome && !q) = true then [.cacheWrite] else []) ++
          [.callbackInvocation] ∧
      pre.localStorage = (loadDataCache p a d now q).localStorage ∧
      ((a.updateCallback d a.containerId p.document).thrown = none →
        pre.document = (a.updateCallback d a.containerId p.document).document) := by
  have hcache : steps (loadDataCache p a d now q).events =
      steps p.events ++
        (if ((truthyKey a.options.cacheKey).isSome && !q) = true then [.cacheWrite] else []) := by
    unfold loadDataCache
    cases truthyKey a.options.cacheKey with
    | none => simp
    | some key =>
      rw [setCachedData_steps]
      cases q <;> simp
  have hthrown : (invokeCallback (loadDataCache p a d now q) a d).2 =
      (a.updateCallback d a.containerId p.document).thrown := by
    simp [invokeCallback]
  have hdoc : (invokeCallback (loadDataCache p a d now q) a d).1.document =
      (a.updateCallback d a.containerId p.document).document := by
    simp [invokeCallback]
  simp only [loadDataOnBody]
  cases hc : (invokeCallback (loadDataCache p a d now q) a d).2 with
  | some m =>
    refine ⟨loadDataCatch (invokeCallback (loadDataCache p a d now q) a d).1 a m, rfl, ?_, ?_, ?_⟩
    · rw [loadDataCatch_steps, invokeCallback_steps, hcache]
    · simp
    · intro hn
      rw [hthrown, hn] at hc
      cases hc
  | none =>
    refine ⟨_, rfl, ?_, ?_, ?_⟩
    · show steps (invokeCallback (loadDataCache p a d now q) a d).1.events = _
      rw [invokeCallback_steps, hcache]
    · show (invokeCallback (loadDataCache p a d now q) a d).1.localStorage = _
      simp
    · intro _
      exact hdoc

/-- Any selection of the seven steps that keeps their order is a sublist of
the seven steps in order. -/
theorem loadDataSteps_sublist (x k y w c r : Bool) :
    List.Sublist
      ((if x = true then [Step.skeletonRender] else []) ++
        (if k = true then [Step.cacheRead] else []) ++
        (if y = true then [Step.indicatorStart] else []) ++ [Step.networkRequest] ++
        (if w = true then [Step.cacheWrite] else []) ++
        (if c = true then [Step.callbackInvocation] else []) ++
        (if r = true then [Step.indicatorRemoval] else []))
      loadDataSteps := by
  cases x <;> cases k <;> cases y <;> cases w <;> cases c <;> cases r <;> decide

/-- The steps of a call that issues its request: the steps of the first
segment, then the write-through and the callback if the response is OK and its
body is parsed, then the removal of the indicator if it is still there. -/
theorem loadData_request_steps (p : Page) (a : LoadArgs) (env : CallEnv)
    (hrequest : (loadDataBegin p a env.readTime).2 = none) :
    ∃ w c r : Bool,
      steps (loadData p a env).1.events =
        steps (loadDataBegin p a env.readTime).1.events ++
          (if w = true then [.cacheWrite] else []) ++
          (if c = true then [.callbackInvocation] else []) ++
          (if r = true then [.indicatorRemoval] else []) ∧
      (w = true → (truthyKey a.options.cacheKey).isSome = true) := by
  simp only [loadData, hrequest]
  cases hr : env.fetchResult with
  | rejected m =>
    simp only [loadDataOnResponse]
    refine ⟨false, false,
      hasIndicator (loadDataCatch (loadDataBegin p a env.readTime).1 a m).document a.containerId,
      ?_, by simp⟩
    rw [loadDataFail_steps]
    simp
  | response ok status statusText =>
    cases ok with
    | false =>
      simp only [loadDataOnResponse, Bool.false_eq_true, if_false]
      refine ⟨false, false,
        hasIndicator (loadDataCatch (loadDataBegin p a env.readTime).1 a
          ("HTTP " ++ toString status ++ ": " ++ statusText)).document a.containerId,
        ?_, by simp⟩
      rw [loadDataFail_steps]
      simp
    | true =>
      simp only [loadDataOnResponse, if_true]
      cases hb : env.body with
      | invalid m =>
        simp only [loadDataOnBody]
        refine ⟨false, false,
          hasIndicator (loadDataCatch (loadDataBegin p a env.readTime).1 a m).document
            a.containerId,
          ?_, by simp⟩
        rw [loadDataFail_steps]
        simp
      | parsed d =>
        obtain ⟨pre, hq, hs, -, -⟩ := loadDataOnBody_parsed_steps
          (loadDataBegin p a env.readTime).1 a d env.writeTime env.quotaExceeded
        refine ⟨(truthyKey a.options.cacheKey).isSome && !env.quotaExceeded, true,
          hasIndicator pre.document a.containerId, ?_, ?_⟩
        · rw [hq, loadDataFinally_steps, hs]
          simp
        · intro hw
          simp only [Bool.and_eq_true] at hw
          exact hw.1

/-! ## The order of the steps of a call -/

/-- Claim C26 (counterexample to the claim as stated). A call with the default
`showSkeleton`, the cache key `x` with no entry, and a fetch that succeeds, for
a container id that no element has: no skeleton is rendered and no indicator is
started or removed; the steps are the cache read, the request, the
write-through and the callback. -/
theorem loadData_missing_container_steps :
    missingContainerCachingArgs.options.showSkeleton.getD true = true ∧
      mapGet samplePage.localStorage (storageKey "x") = none ∧
      (loadData samplePage missingContainerCachingArgs okEnv).2 = .success ∧
      steps (loadData samplePage missingContainerCachingArgs okEnv).1.events =
        [.cacheRead, .networkRequest, .cacheWrite, .callbackInvocation] :=
  ⟨by rfl, by rfl, by decide, by decide⟩

/-- Claim C26 (as amended). For every `loadData` call with `showSkeleton` true
and a cache key whose read misses, whose fetch succeeds (an OK response with a
parsed body): the steps that occur do so at most once each and in the order
skeleton render, cache read, indicator start, network request, cache
write-through, callback invocation, indicator removal; the cache read, the
request and the callback invocation always occur; and all seven occur, once
each, when the container exists, the document holds no indicator for it
beforehand, the storage accepts the write, and the callback returns and leaves
the indicator in the document. -/
theorem loadData_steps_in_order (p : Page) (a : LoadArgs) (env : CallEnv)
    (key : String) (d : JVal) (status : Nat) (statusText : String)
    (hskel : a.options.showSkeleton.getD true = true)
    (hkey : truthyKey a.options.cacheKey = some key)
    (hrequest : (loadDataBegin p a env.readTime).2 = none)
    (hok : env.fetchResult = .response true status statusText)
    (hbody : env.body = .parsed d) :
    (∃ S, steps (loadData p a env).1.events = steps p.events ++ S ∧
        List.Sublist S loadDataSteps ∧
        .cacheRead ∈ S ∧ .networkRequest ∈ S ∧ .callbackInvocation ∈ S) ∧
      (∀ children, mapGet p.document a.containerId = some children →
        hasIndicator p.document a.containerId = false →
        env.quotaExceeded = false →
        (∀ doc, hasIndicator doc a.containerId = true →
          (a.updateCallback d a.containerId doc).thrown = none ∧
            hasIndicator (a.updateCallback d a.containerId doc).document a.containerId = true) →
        steps (loadData p a env).1.events = steps p.events ++ loadDataSteps) := by
  have hpage : (loadData p a env).1 =
      (loadDataOnBody (loadDataBegin p a env.readTime).1 a (.parsed d) env.writeTime
        env.quotaExceeded).1 := by
    simp [loadData, hrequest, hok, loadDataOnResponse, hbody]
  obtain ⟨hb, hbdoc⟩ := loadDataBegin_steps p a env.readTime hrequest
  obtain ⟨pre, hq, hs, -, hdoc⟩ := loadDataOnBody_parsed_steps
    (loadDataBegin p a env.readTime).1 a d env.writeTime env.quotaExceeded
  have hsteps : steps (loadData p a env).1.events =
      steps p.events ++
        ((if (a.options.showSkeleton.getD true &&
              (mapGet p.document a.containerId).isSome) = true then [Step.skeletonRender]
            else []) ++
          (if true = true then [Step.cacheRead] else []) ++
          (if ((mapGet (loadDataSkeleton p a).document a.containerId).isSome &&
              !hasIndicator (loadDataSkeleton p a).document a.containerId) = true then
            [Step.indicatorStart] else []) ++ [Step.networkRequest] ++
          (if ((truthyKey a.options.cacheKey).isSome && !env.quotaExceeded) = true then
            [Step.cacheWrite] else []) ++
          (if true = true then [Step.callbackInvocation] else []) ++
          (if hasIndicator pre.document a.containerId = true then [Step.indicatorRemoval]
            else [])) := by
    rw [hpage, hq, loadDataFinally_steps, hs, hb, hkey]
    simp
  constructor
  · refine ⟨_, hsteps, loadDataSteps_sublist _ _ _ _ _ _, ?_, ?_, ?_⟩ <;> simp
  · intro children hc hni hquota hcb
    have hcount : indicatorCount p.document a.containerId = 0 :=
      (hasIndicator_eq_false_iff _ _).1 hni
    have hdoc₁ : mapGet (loadDataSkeleton p a).document a.containerId =
        some [.markup (skeletonMarkup (a.options.skeletonType.getD "generic"))] := by
      simp only [loadDataSkeleton, hskel, if_true, showLoadingSkeleton, hc, emit]
      exact mapGet_mapSet_self _ _ _
    have hni₁ : hasIndicator (loadDataSkeleton p a).document a.containerId = false := by
      rw [hasIndicator_eq_false_iff]
      have := indicatorCount_loadDataSkeleton p a a.containerId
      omega
    have hstarted : hasIndicator (loadDataBegin p a env.readTime).1.document a.containerId =
        true := by
      rw [hbdoc]
      exact hasIndicator_startLoadingIndicator _ _ (by rw [hdoc₁]; rfl)
    obtain ⟨hret, hkeeps⟩ := hcb _ hstarted
    have hremoved : hasIndicator pre.document a.containerId = true := by
      rw [hdoc hret]
      exact hkeeps
    rw [hsteps, hskel, hc, hdoc₁, hni₁, hkey, hquota, hremoved]
    rfl

/-- Witness for `loadData_steps_in_order`: the call with the cache key `x` on
the sample page goes through all seven steps, in order. -/
theorem loadData_steps_in_order_witness :
    (loadDataBegin samplePage cachingArgs okEnv.readTime).2 = none ∧
      steps (loadData samplePage cachingArgs okEnv).1.events = loadDataSteps :=
  have h := loadData_steps_in_order samplePage cachingArgs okEnv "x" (.obj [("v", .num 1)])
    200 "OK" (by rfl) (by decide) (by decide) rfl rfl
  ⟨by decide, h.2 [.other "old"] (by decide) (by decide) rfl
    (fun _ hdoc => ⟨rfl, hdoc⟩)⟩

/-! ## Omitted options -/

/-- Claim C27. A `loadData` call with the options omitted (or empty) behaves as
the call with `showSkeleton: true, retryOnError: true, cacheKey: null,
ttl: 60000, skeletonType: 'generic'`: both end the same way and leave the same
loader, storage and document, and the same event log up to the options that a
scheduled re-invocation carries along; the skeleton is the generic one, the
cache is neither read nor written, and a failure below `maxRetries` schedules a
retry. -/
theorem loadData_omitted_options (p : Page) (a : LoadArgs) (env : CallEnv)
    (ho : a.options = omittedOptions) :
    (loadData p { a with options := defaultOptions } env).2 = (loadData p a env).2 ∧
      (loadData p { a with options := defaultOptions } env).1.document =
        (loadData p a env).1.document ∧
      (loadData p { a with options := defaultOptions } env).1.localStorage =
        (loadData p a env).1.localStorage ∧
      (loadData p { a with options := defaultOptions } env).1.loadingStates =
        (loadData p a env).1.loadingStates ∧
      (loadData p { a with options := defaultOptions } env).1.retryAttempts =
        (loadData p a env).1.retryAttempts ∧
      (loadData p { a with options := defaultOptions } env).1.loadingIndicators =
        (loadData p a env).1.loadingIndicators ∧
      (loadData p { a with options := defaultOptions } env).1.events.map (Event.withArgs a) =
        (loadData p a env).1.events.map (Event.withArgs a) ∧
      loadDataSkeleton p a = showLoadingSkeleton p a.containerId (some "generic") ∧
      (∃ S, steps (loadData p a env).1.events = steps p.events ++ S ∧
        Step.cacheRead ∉ S ∧ Step.cacheWrite ∉ S) ∧
      (loadData p a env).1.localStorage = p.localStorage ∧
      (∀ m, (loadData p a env).2 = .failed m →
        (mapGet p.retryAttempts a.endpoint).getD 0 < p.maxRetries →
        scheduled (loadData p a env).1.events =
            scheduled p.events ++
              [(2 ^ (mapGet p.retryAttempts a.endpoint).getD 0 * 1000, a)] ∧
          scheduled (loadData p { a with options := defaultOptions } env).1.events =
            scheduled p.events ++
              [(2 ^ (mapGet p.retryAttempts a.endpoint).getD 0 * 1000,
                { a with options := defaultOptions })]) := by
  have hcongr := loadData_options_congr p a { a with options := defaultOptions } env rfl rfl rfl
    (by rw [ho]; rfl) (by rw [ho]; rfl) (by rw [ho]; rfl) (by rw [ho]; rfl) (by rw [ho]; rfl)
  obtain ⟨hout, hpage⟩ := hcongr
  have hk : truthyKey a.options.cacheKey = none := by rw [ho]; rfl
  obtain ⟨hrequest, hstore⟩ := loadDataBegin_noEntry p a env.readTime
    (fun key h => by rw [hk] at h; cases h)
  obtain ⟨hb, -⟩ := loadDataBegin_steps p a env.readTime hrequest
  obtain ⟨w, c, r, hsteps, hw⟩ := loadData_request_steps p a env hrequest
  have hw' : w = false := by
    cases w with
    | false => rfl
    | true => simp [hk] at hw
  subst hw'
  have hlocal : (loadData p a env).1.localStorage = p.localStorage := by
    simp only [loadData, hrequest]
    cases hr : env.fetchResult with
    | rejected m => simp [loadDataOnResponse, loadDataFail, hstore]
    | response ok status statusText =>
      cases ok with
      | false => simp [loadDataOnResponse, loadDataFail, hstore]
      | true =>
        simp only [loadDataOnResponse, if_true]
        cases hbody : env.body with
        | invalid m => simp [loadDataOnBody, loadDataFail, hstore]
        | parsed d =>
          obtain ⟨pre, hq, -, hl, -⟩ := loadDataOnBody_parsed_steps
            (loadDataBegin p a env.readTime).1 a d env.writeTime env.quotaExceeded
          rw [hq]
          simp [hl, loadDataCache, hk, hstore]
  have h₁ := congrArg Page.document hpage
  have h₂ := congrArg Page.localStorage hpage
  have h₃ := congrArg Page.loadingStates hpage
  have h₄ := congrArg Page.retryAttempts hpage
  have h₅ := congrArg Page.loadingIndicators hpage
  have h₆ := congrArg Page.events hpage
  refine ⟨hout, h₁, h₂, h₃, h₄, h₅, h₆, ?_, ?_, hlocal, ?_⟩
  · simp [loadDataSkeleton, ho, omittedOptions, showLoadingSkeleton]
  · refine ⟨(if (a.options.showSkeleton.getD true &&
            (mapGet p.document a.containerId).isSome) = true then [Step.skeletonRender]
          else []) ++
        (if ((mapGet (loadDataSkeleton p a).document a.containerId).isSome &&
            !hasIndicator (loadDataSkeleton p a).document a.containerId) = true then
          [Step.indicatorStart] else []) ++ [Step.networkRequest] ++
        (if c = true then [Step.callbackInvocation] else []) ++
        (if r = true then [Step.indicatorRemoval] else []), ?_, ?_, ?_⟩
    · rw [hsteps, hb, hk]
      simp
    · split_ifs <;> simp
    · split_ifs <;> simp
  · intro m hm hlt
    have hm' : (loadData p { a with options := defaultOptions } env).2 = .failed m := by
      rw [hout, hm]
    exact ⟨(loadData_failed_retry p a env m hm (by rw [ho]; rfl) hlt).2.2.1,
      (loadData_failed_retry p { a with options := defaultOptions } env m hm' rfl hlt).2.2.1⟩

/-- Witness for `loadData_omitted_options`: the call `loadData('/api/x', 'c1', cb)`
on the sample page, answered `500`. -/
theorem loadData_omitted_options_witness :
    plainArgs.options = omittedOptions ∧
      (loadData samplePage { plainArgs with options := defaultOptions } failingEnv).2 =
        (loadData samplePage plainArgs failingEnv).2 ∧
      (loadData samplePage { plainArgs with options := defaultOptions } failingEnv).1.document =
        (loadData samplePage plainArgs failingEnv).1.document ∧
      (loadData samplePage plainArgs failingEnv).1.localStorage = samplePage.localStorage :=
  have h := loadData_omitted_options samplePage plainArgs failingEnv rfl
  ⟨rfl, h.1, h.2.1, h.2.2.2.2.2.2.2.2.2.1⟩

end ProgressiveLoading
